import Mathlib

/-!
# Shallow embedding of `R-package/src/loadDataset.cc`

The file `loadDataset.cc` interprets a list of add/discard commands over the
results held by a `ResultFileManager` and exports the selected results as
nine data frames.  The definitions below follow the functions of that file
one by one; the theorems after them are the properties of the specification.

Conventions of the embedding:

* a C++ exception (`opp_runtime_error`) is `Except.error (Failure.opp msg)`
  carrying the message, an error of R itself is `Except.error (Failure.rError msg)`,
* the result file manager is a record of its query functions,
* `double` values are only copied by this file, never computed with, so their
  type is a parameter `D`, and `R_PosInf` is a parameter of type `D`,
* a data frame is the list of its rows, a row being `none` until it is written;
  the loops that fill a frame whose size a counting pass computes take the
  write of their body as a parameter, so that the same loop can be read on a
  data frame and on any other memory, such as the list of the indices written,
* `int` counters are natural numbers (all of them are list sizes),
* a loop `for (i = 0; i < xs.size(); ++i)` whose body reads `xs.get(i)` is a
  fold over the elements of `xs`, each paired with its index `i`.
-/

set_option autoImplicit false

namespace LoadDataset

/-! ## Identifiers and identifier lists -/

/-- Modelled from the spec: the type constants of `resultfilemanager.h`
(`ResultFileManager::SCALAR`); the spec makes the type mask a bitwise OR of the
three kinds, so each kind is one bit. -/
def SCALAR : Nat := 1

/-- Modelled from the spec: the type constant `ResultFileManager::VECTOR`. -/
def VECTOR : Nat := 2

/-- Modelled from the spec: the type constant `ResultFileManager::HISTOGRAM`. -/
def HISTOGRAM : Nat := 4

/-- The three kinds of result an identifier can name. -/
inductive Kind where
  | scalar
  | vector
  | histogram
deriving DecidableEq, Repr

/-- Modelled from the spec: the result identifier `ID` of `resultfilemanager.h`,
an immutable value with two logical fields, the kind of the result and its
position in the backing store; two identifiers are equal when both fields
agree. -/
structure ID where
  kind : Kind
  index : Nat
deriving DecidableEq, Repr

/-- Modelled from the spec: `ResultFileManager::getTypeOf`, the type constant of
the kind an identifier encodes. -/
def getTypeOf (id : ID) : Nat :=
  match id.kind with
  | Kind.scalar => SCALAR
  | Kind.vector => VECTOR
  | Kind.histogram => HISTOGRAM

/-- Modelled from the spec: the class `IDList` of `idlist.h`, an ordered
sequence of result identifiers. -/
abbrev IDList := List ID

namespace IDList

/-- Modelled from the spec: `IDList::size`. -/
def size (l : IDList) : Nat := l.length

/-- Modelled from the spec: `IDList::get`, sequential read access for
`0 ≤ i < size()`. -/
def get (l : IDList) (i : Nat) : Option ID := l.get? i

/-- Modelled from the spec: `IDList::add`; an identifier set holds every
identifier once, so an identifier already present is not added again, a new one
goes to the end. -/
def add (l : IDList) (x : ID) : IDList :=
  if x ∈ l then l else l ++ [x]

/-- Modelled from the spec: `IDList::merge`, the union; the result holds every
identifier present in either operand, and merging identifiers that are already
present changes nothing. -/
def merge (l other : IDList) : IDList :=
  other.foldl add l

/-- Modelled from the spec: `IDList::substract`, which removes from the list
every identifier present in `other`. -/
def substract (l other : IDList) : IDList :=
  l.filter (fun x => decide (x ∉ other))

end IDList

/-! ## The result file manager -/

/-- The `StringMap` of the manager (`std::map<std::string, std::string>`), as
the sequence of entries its iterator visits. -/
abbrev StringMap := List (String × String)

/-- A run: its name, attributes and module parameters. -/
structure Run where
  runName : String
  attributes : StringMap
  moduleParams : StringMap
deriving DecidableEq, Repr

/-- A loaded result file. -/
structure ResultFile where
  fileSystemFilePath : String
deriving DecidableEq, Repr

/-- The occurrence of a run in a file. -/
structure FileRun where
  fileRef : ResultFile
  runRef : Run
deriving DecidableEq, Repr

/-- The part common to scalars, vectors and histograms. -/
structure ResultItem where
  fileRunRef : FileRun
  moduleNameRef : String
  nameRef : String
  attributes : StringMap
deriving DecidableEq, Repr

/-- A scalar result. -/
structure ScalarResult (D : Type) extends ResultItem where
  value : D
  isField : Bool

/-- A vector result. -/
structure VectorResult extends ResultItem where
  vectorId : Int

/-- A histogram result: the lower bounds of the bins, the parallel counts and
the named fields (`HistogramFields`, a map from name to double, as the sequence
its iterator visits). -/
structure HistogramResult (D : Type) extends ResultItem where
  bins : List D
  values : List D
  fields : List (String × D)

/-- The queries of `ResultFileManager` that `loadDataset.cc` calls.
`getAllScalars` takes the two flags `includeComputed` and `includeFields`;
`filterIDList` takes the pattern, `none` for the null pointer. -/
structure ResultFileManager (D : Type) where
  getAllScalars : Bool → Bool → IDList
  getAllVectors : IDList
  getAllHistograms : IDList
  filterIDList : IDList → Option String → IDList
  getUniqueRuns : IDList → List Run
  getUniqueFileRuns : IDList → List FileRun
  getScalar : ID → ScalarResult D
  getVector : ID → VectorResult
  getHistogram : ID → HistogramResult D

/-- Modelled from the spec: `ResultFileManager::getItem`, which resolves an
identifier to the result item view of the scalar, vector or histogram it
names. -/
def ResultFileManager.getItem {D : Type} (manager : ResultFileManager D) (id : ID) : ResultItem :=
  match id.kind with
  | Kind.scalar => (manager.getScalar id).toResultItem
  | Kind.vector => (manager.getVector id).toResultItem
  | Kind.histogram => (manager.getHistogram id).toResultItem

/-! ## Failures -/

/-- The two ways the code is left without a result: an `opp_runtime_error`
thrown with its message (`what()`), which the `catch` of `callLoadDataset`
handles, and an error raised by R itself (`error()`), which leaves the C++ code
by a long jump that no `catch` sees. -/
inductive Failure where
  | opp (what : String)
  | rError (message : String)
deriving DecidableEq, Repr

/-! ## R values -/

/-- The atomic vector types of R other than character. -/
inductive AtomicType where
  | logical
  | integer
  | real
  | complex
  | raw
deriving DecidableEq, Repr

/-- The R values (`SEXP`) that reach `loadDataset.cc`.  A generic vector
(`list`) carries the name of each element, the empty string for an element
without a name.  Of an atomic vector that is not a character vector only the
type and the length are kept; `other` is any value that is not a vector (a
closure, an environment, a pairlist, ...) with its `SEXPTYPE` code. -/
inductive SEXP where
  | nil : SEXP
  | symbol (printname : String) : SEXP
  | character (elts : List String) : SEXP
  | atomic (type : AtomicType) (length : Nat) : SEXP
  | list (elts : List (String × SEXP)) : SEXP
  | other (sexptype : Nat) : SEXP

namespace SEXP

/-- The macro `IS_CHARACTER`, that is `isString`. -/
def IS_CHARACTER : SEXP → Bool
  | character _ => true
  | _ => false

/-- The macro `IS_VECTOR`, that is `isVector`: atomic vectors and generic vectors. -/
def IS_VECTOR : SEXP → Bool
  | character _ => true
  | atomic _ _ => true
  | list _ => true
  | _ => false

/-- The macro `IS_LIST`, which `Rdefines.h` defines as `IS_VECTOR`. -/
def IS_LIST (x : SEXP) : Bool := IS_VECTOR x

/-- The test `isSymbol`. -/
def isSymbol : SEXP → Bool
  | symbol _ => true
  | _ => false

/-- The macro `GET_LENGTH`; the file applies it to vectors only. -/
def GET_LENGTH : SEXP → Nat
  | nil => 0
  | character v => v.length
  | atomic _ n => n
  | list l => l.length
  | _ => 1

/-- The macro `TYPEOF`, the `SEXPTYPE` code of a value. -/
def TYPEOF : SEXP → Nat
  | nil => 0
  | symbol _ => 1
  | character _ => 16
  | atomic AtomicType.logical _ => 10
  | atomic AtomicType.integer _ => 13
  | atomic AtomicType.real _ => 14
  | atomic AtomicType.complex _ => 15
  | atomic AtomicType.raw _ => 24
  | list _ => 19
  | other t => t

/-- The accessor `VECTOR_ELT(x, i)`: the element `i` of a generic vector.  R refuses the
accessor on any other value; that failure is an error here too. -/
def VECTOR_ELT (x : SEXP) (i : Nat) : Except Failure SEXP :=
  match x with
  | list l =>
    match l.get? i with
    | some e => Except.ok e.2
    | none => Except.error (Failure.rError "VECTOR_ELT: subscript out of bounds")
  | _ => Except.error (Failure.rError "VECTOR_ELT() can only be applied to a list")

/-- The elements `VECTOR_ELT(x, 0)`, ..., `VECTOR_ELT(x, GET_LENGTH(x) - 1)` a
loop over a vector visits, in order. -/
def elements (x : SEXP) : Except Failure (List SEXP) :=
  match x with
  | list l => Except.ok (l.map Prod.snd)
  | _ => Except.error (Failure.rError "VECTOR_ELT() can only be applied to a list")

/-- Modelled from the spec: `getElementByName` of `util.h`, the element of a
list stored under the given name, `R_NilValue` when the name is absent. -/
def getElementByName (x : SEXP) (name : String) : SEXP :=
  match x with
  | list l =>
    match l.find? (fun e => e.1 == name) with
    | some e => e.2
    | none => nil
  | _ => nil

end SEXP

open SEXP

/-! ## Interpreting the commands -/

/-- The function `checkType`: the type mask a `type` entry stands for. -/
def checkType (type : SEXP) : Except Failure Nat :=
  match type with
  | SEXP.nil => Except.ok (SCALAR ||| VECTOR ||| HISTOGRAM)
  | SEXP.character [] => Except.error (Failure.opp "type is an empty character vector")
  | SEXP.character (typeStr :: _) =>
    if typeStr = "scalar" then Except.ok SCALAR
    else if typeStr = "vector" then Except.ok VECTOR
    else if typeStr = "histogram" then Except.ok HISTOGRAM
    else Except.error (Failure.opp ("unknown type: " ++ typeStr))
  | _ => Except.error (Failure.opp "type is not a string")

section Interpreter

variable {D : Type}

/-- The function `loadFiles`: every path is loaded into the manager, in the
order given; `loadFile` is the manager's `loadFile`, which updates the manager
or throws. -/
def loadFiles (loadFile : ResultFileManager D → String → Except Failure (ResultFileManager D))
    (files : SEXP) (manager : ResultFileManager D) : Except Failure (ResultFileManager D) :=
  match files with
  | SEXP.character fs => fs.foldlM loadFile manager
  | _ => Except.error (Failure.opp "files is not a character vector")

/-- The function `selectIDs`: the identifiers of the requested kinds, filtered
by the pattern. -/
def selectIDs (type : Nat) (pattern : Option String) (manager : ResultFileManager D) : IDList :=
  let source : IDList := []
  let source := if type &&& SCALAR ≠ 0 then source.merge (manager.getAllScalars false false) else source
  let source := if type &&& VECTOR ≠ 0 then source.merge manager.getAllVectors else source
  let source := if type &&& HISTOGRAM ≠ 0 then source.merge manager.getAllHistograms else source
  manager.filterIDList source pattern

/-- The `select` entry of a command as the pattern handed to `selectIDs`. -/
def checkSelect (select : SEXP) : Except Failure (Option String) :=
  match select with
  | SEXP.character (s :: _) => Except.ok (some s)
  | SEXP.nil => Except.ok none
  | _ => Except.error (Failure.opp "select is not a string")

/-- The body of the loop of `executeCommands`: one command applied to `out`. -/
def executeCommand (manager : ResultFileManager D) (out : IDList) (command : SEXP) :
    Except Failure IDList :=
  if !IS_LIST command then Except.error (Failure.opp "command is not a list")
  else if GET_LENGTH command = 0 then Except.error (Failure.opp "command is empty list")
  else do
    let op ← VECTOR_ELT command 0
    match op with
    | SEXP.symbol opname =>
      let type ← checkType (getElementByName command "type")
      let selectStr ← checkSelect (getElementByName command "select")
      if opname = "add" then
        Except.ok (out.merge (selectIDs type selectStr manager))
      else if opname = "discard" then
        Except.ok (out.substract (selectIDs type selectStr manager))
      else
        Except.error (Failure.opp ("unknown command: " ++ opname))
    | _ => Except.error (Failure.opp ("operator is not a symbol: " ++ toString (TYPEOF op)))

/-- The function `executeCommands`: the files are loaded, then the commands
are applied to `out` in order; no command at all selects everything.  The
result is the manager after loading together with the final `out`. -/
def executeCommands (loadFile : ResultFileManager D → String → Except Failure (ResultFileManager D))
    (files commands : SEXP) (manager : ResultFileManager D) (out : IDList) :
    Except Failure (ResultFileManager D × IDList) := do
  let manager ← loadFiles loadFile files manager
  if !IS_VECTOR commands then Except.error (Failure.opp "commands is not a list")
  else if GET_LENGTH commands = 0 then
    let out := out.merge (manager.getAllScalars false false)
    let out := out.merge manager.getAllVectors
    let out := out.merge manager.getAllHistograms
    Except.ok (manager, out)
  else do
    let cmds ← elements commands
    let out ← cmds.foldlM (executeCommand manager) out
    Except.ok (manager, out)

end Interpreter

/-! ## Exporting the dataset -/

/-- A row of the `runs` data frame. -/
structure RunRow where
  runid : String
  name : String
  value : String
deriving DecidableEq, Repr

/-- A row of the `fileruns` data frame. -/
structure FilerunRow where
  runid : String
  file : String
deriving DecidableEq, Repr

/-- A row of the `scalars` data frame. -/
structure ScalarRow (D : Type) where
  scalar_key : Nat
  runid : String
  file : String
  module : String
  name : String
  value : D
deriving DecidableEq, Repr

/-- A row of the `vectors` data frame. -/
structure VectorRow where
  vector_key : Nat
  runid : String
  file : String
  vectorid : Int
  module : String
  name : String
deriving DecidableEq, Repr

/-- A row of the `histograms` data frame. -/
structure HistogramRow where
  histogram_key : Nat
  runid : String
  file : String
  module : String
  name : String
deriving DecidableEq, Repr

/-- A row of the `fields` data frame. -/
structure FieldRow (D : Type) where
  histogram_key : Nat
  name : String
  value : D
deriving DecidableEq, Repr

/-- A row of the `bins` data frame.  The count is `histogram.values[j]`; it is
`none` when `j` is outside `values`, where C++ leaves the read undefined. -/
structure BinRow (D : Type) where
  histogram_key : Nat
  lowerbound : D
  upperbound : D
  count : Option D
deriving DecidableEq, Repr

/-- A row of the `params` data frame. -/
structure ParamRow where
  runid : String
  name : String
  value : String
deriving DecidableEq, Repr

/-- A row of the `attributes` data frame. -/
structure AttributeRow where
  type : String
  key : Nat
  name : String
  value : String
deriving DecidableEq, Repr

/-- A data frame with rows of type `R`: the allocated rows in order, `none` for
a row nothing has been written to. -/
abbrev DataFrame (R : Type) := List (Option R)

/-- The helper `createDataFrame`, with the column names and types left to the row type:
`rows` rows are allocated. -/
def createDataFrame (R : Type) (rows : Nat) : DataFrame R := List.replicate rows none

/-- The column writes of one loop body, `SET_STRING_ELT(col, index, ...)`,
`INTEGER(col)[index] = ...`, `REAL(col)[index] = ...`, taken together: the row
`index` of the data frame is set.  A write past the allocated rows (undefined
in C++) leaves the frame as it is. -/
def setRow {R : Type} (df : DataFrame R) (index : Nat) (row : R) : DataFrame R :=
  df.set index (some row)

/-- The loop `for (i = start; ...; ++i)` over the elements of `xs`: `body i x`
is run on the element `x` at the index `i`. -/
def forEachFrom {α σ : Type} (body : Nat → α → σ → σ) : Nat → List α → σ → σ
  | _, [], st => st
  | i, x :: xs, st => forEachFrom body (i + 1) xs (body i x st)

/-- The loop `for (i = 0; i < xs.size(); ++i)` with the state `init` at entry. -/
def forEach {α σ : Type} (xs : List α) (body : Nat → α → σ → σ) (init : σ) : σ :=
  forEachFrom body 0 xs init

/-- The nine data frames `exportDataset` returns. -/
structure Dataset (D : Type) where
  runs : DataFrame RunRow
  fileruns : DataFrame FilerunRow
  scalars : DataFrame (ScalarRow D)
  vectors : DataFrame VectorRow
  histograms : DataFrame HistogramRow
  fields : DataFrame (FieldRow D)
  bins : DataFrame (BinRow D)
  params : DataFrame ParamRow
  attributes : DataFrame AttributeRow

section Exporter

variable {D : Type}

/-- The loops of `addResultItemAttributes`, with the column writes of the body
as the parameter `write`: `write mem index row` is the memory after the row is
written at `index`.  One row per attribute of each item of `ids` is written,
from `currentIndex` on; the key of a row is the index of its item in `ids`.
The result is the memory and the index after the last write. -/
def addResultItemAttributesWith {σ : Type} (write : σ → Nat → AttributeRow → σ) (attributes : σ)
    (currentIndex : Nat) (type : String) (ids : IDList) (manager : ResultFileManager D) :
    σ × Nat :=
  forEach ids
    (fun i id st =>
      (manager.getItem id).attributes.foldl
        (fun st it => (write st.1 st.2 ⟨type, i, it.1, it.2⟩, st.2 + 1)) st)
    (attributes, currentIndex)

/-- The function `addResultItemAttributes`: its loops writing into the data
frame `attributes`. -/
def addResultItemAttributes (attributes : DataFrame AttributeRow) (currentIndex : Nat)
    (type : String) (ids : IDList) (manager : ResultFileManager D) :
    DataFrame AttributeRow × Nat :=
  addResultItemAttributesWith setRow attributes currentIndex type ids manager

/-- The function `filterIDListByType`; `includeFields` is `false` where the
source leaves it to its default. -/
def filterIDListByType (idlist : IDList) (type : Nat) (manager : ResultFileManager D)
    (includeFields : Bool) : IDList :=
  idlist.foldl
    (fun result id =>
      if getTypeOf id = type then
        if type ≠ SCALAR ∨ includeFields = true ∨ (manager.getScalar id).isField = false then
          result.add id
        else result
      else result)
    []

/-- The counting loop over the runs: `(paramsCount, runAttrCount)`. -/
def countRuns (runList : List Run) : Nat × Nat :=
  runList.foldl
    (fun c run => (c.1 + run.moduleParams.length, c.2 + run.attributes.length)) (0, 0)

/-- The loop that fills `runs`, one row per attribute of each run, with the
column writes of the body as the parameter `write`. -/
def fillRunsWith {σ : Type} (write : σ → Nat → RunRow → σ) (runs : σ) (runList : List Run) :
    σ × Nat :=
  runList.foldl
    (fun st run =>
      run.attributes.foldl
        (fun st it => (write st.1 st.2 ⟨run.runName, it.1, it.2⟩, st.2 + 1)) st)
    (runs, 0)

/-- The loop that fills the `runs` frame. -/
def fillRuns (runs : DataFrame RunRow) (runList : List Run) : DataFrame RunRow × Nat :=
  fillRunsWith setRow runs runList

/-- The loop that fills the `fileruns` frame. -/
def fillFileruns (fileruns : DataFrame FilerunRow) (filerunList : List FileRun) :
    DataFrame FilerunRow :=
  forEach filerunList
    (fun i filerun df => setRow df i ⟨filerun.runRef.runName, filerun.fileRef.fileSystemFilePath⟩)
    fileruns

/-- The loop that fills the `scalars` frame and adds the attribute counts of
the scalars to `attrCount`. -/
def fillScalars (scalars : DataFrame (ScalarRow D)) (attrCount : Nat) (scalarIDs : IDList)
    (manager : ResultFileManager D) : DataFrame (ScalarRow D) × Nat :=
  forEach scalarIDs
    (fun i id st =>
      let scalar := manager.getScalar id
      (setRow st.1 i
        ⟨i, scalar.fileRunRef.runRef.runName, scalar.fileRunRef.fileRef.fileSystemFilePath,
          scalar.moduleNameRef, scalar.nameRef, scalar.value⟩,
       st.2 + scalar.attributes.length))
    (scalars, attrCount)

/-- The loop that fills the `vectors` frame and adds the attribute counts of
the vectors to `attrCount`. -/
def fillVectors (vectors : DataFrame VectorRow) (attrCount : Nat) (vectorIDs : IDList)
    (manager : ResultFileManager D) : DataFrame VectorRow × Nat :=
  forEach vectorIDs
    (fun i id st =>
      let vector := manager.getVector id
      (setRow st.1 i
        ⟨i, vector.fileRunRef.runRef.runName, vector.fileRunRef.fileRef.fileSystemFilePath,
          vector.vectorId, vector.moduleNameRef, vector.nameRef⟩,
       st.2 + vector.attributes.length))
    (vectors, attrCount)

/-- The counters the histogram loop updates. -/
structure HistogramCounts where
  binCount : Nat
  fieldCount : Nat
  attrCount : Nat
deriving DecidableEq, Repr

/-- The loop that fills the `histograms` frame and counts the bins, the fields
and the attributes of the histograms. -/
def fillHistograms (histograms : DataFrame HistogramRow) (attrCount : Nat)
    (histogramIDs : IDList) (manager : ResultFileManager D) :
    DataFrame HistogramRow × HistogramCounts :=
  forEach histogramIDs
    (fun i id st =>
      let histogram := manager.getHistogram id
      (setRow st.1 i
        ⟨i, histogram.fileRunRef.runRef.runName,
          histogram.fileRunRef.fileRef.fileSystemFilePath,
          histogram.moduleNameRef, histogram.nameRef⟩,
       ⟨st.2.binCount + histogram.bins.length, st.2.fieldCount + histogram.fields.length,
         st.2.attrCount + histogram.attributes.length⟩))
    (histograms, ⟨0, 0, attrCount⟩)

/-- The loop that fills `fields`, one row per field of each histogram, keyed
by the index of the histogram, with the column writes of the body as the
parameter `write`. -/
def fillFieldsWith {σ : Type} (write : σ → Nat → FieldRow D → σ) (fields : σ)
    (histogramIDs : IDList) (manager : ResultFileManager D) : σ × Nat :=
  forEach histogramIDs
    (fun i id st =>
      (manager.getHistogram id).fields.foldl
        (fun st it => (write st.1 st.2 ⟨i, it.1, it.2⟩, st.2 + 1)) st)
    (fields, 0)

/-- The loop that fills the `fields` frame. -/
def fillFields (fields : DataFrame (FieldRow D)) (histogramIDs : IDList)
    (manager : ResultFileManager D) : DataFrame (FieldRow D) × Nat :=
  fillFieldsWith setRow fields histogramIDs manager

/-- The loop that fills `bins`, one row per bin of each histogram, with the
column writes of the body as the parameter `write`; the upper bound of a bin is
the lower bound of the next one, `R_PosInf` for the last bin. -/
def fillBinsWith {σ : Type} (write : σ → Nat → BinRow D → σ) (R_PosInf : D) (bins : σ)
    (histogramIDs : IDList) (manager : ResultFileManager D) : σ × Nat :=
  forEach histogramIDs
    (fun i id st =>
      let histogram := manager.getHistogram id
      let size := histogram.bins.length
      forEach histogram.bins
        (fun j b st =>
          (write st.1 st.2
            ⟨i, b, if j + 1 < size then histogram.bins.getD (j + 1) R_PosInf else R_PosInf,
              histogram.values.get? j⟩,
           st.2 + 1))
        st)
    (bins, 0)

/-- The loop that fills the `bins` frame. -/
def fillBins (R_PosInf : D) (bins : DataFrame (BinRow D)) (histogramIDs : IDList)
    (manager : ResultFileManager D) : DataFrame (BinRow D) × Nat :=
  fillBinsWith setRow R_PosInf bins histogramIDs manager

/-- The loop that fills `params`, one row per module parameter of each run,
with the column writes of the body as the parameter `write`. -/
def fillParamsWith {σ : Type} (write : σ → Nat → ParamRow → σ) (params : σ)
    (runList : List Run) : σ × Nat :=
  runList.foldl
    (fun st run =>
      run.moduleParams.foldl
        (fun st it => (write st.1 st.2 ⟨run.runName, it.1, it.2⟩, st.2 + 1)) st)
    (params, 0)

/-- The loop that fills the `params` frame. -/
def fillParams (params : DataFrame ParamRow) (runList : List Run) : DataFrame ParamRow × Nat :=
  fillParamsWith setRow params runList

/-- The function `exportDataset`. -/
def exportDataset (R_PosInf : D) (manager : ResultFileManager D) (idlist : IDList) : Dataset D :=
  -- runs
  let runList := manager.getUniqueRuns idlist
  let paramsCount := (countRuns runList).1
  let runAttrCount := (countRuns runList).2
  let runs := (fillRuns (createDataFrame RunRow runAttrCount) runList).1
  -- fileruns
  let filerunList := manager.getUniqueFileRuns idlist
  let fileruns := fillFileruns (createDataFrame FilerunRow filerunList.length) filerunList
  -- scalars
  let scalarIDs := filterIDListByType idlist SCALAR manager false
  let scalars := fillScalars (createDataFrame (ScalarRow D) scalarIDs.size) 0 scalarIDs manager
  -- vectors
  let vectorIDs := filterIDListByType idlist VECTOR manager false
  let vectors := fillVectors (createDataFrame VectorRow vectorIDs.size) scalars.2 vectorIDs manager
  -- histograms
  let histogramIDs := filterIDListByType idlist HISTOGRAM manager false
  let histograms :=
    fillHistograms (createDataFrame HistogramRow histogramIDs.size) vectors.2 histogramIDs manager
  -- fields
  let fields :=
    (fillFields (createDataFrame (FieldRow D) histograms.2.fieldCount) histogramIDs manager).1
  -- bins
  let bins :=
    (fillBins R_PosInf (createDataFrame (BinRow D) histograms.2.binCount) histogramIDs manager).1
  -- params
  let params := (fillParams (createDataFrame ParamRow paramsCount) runList).1
  -- attributes
  let attributes := createDataFrame AttributeRow histograms.2.attrCount
  let st := addResultItemAttributes attributes 0 "scalar" scalarIDs manager
  let st := addResultItemAttributes st.1 st.2 "vector" vectorIDs manager
  let st := addResultItemAttributes st.1 st.2 "histogram" histogramIDs manager
  { runs := runs, fileruns := fileruns, scalars := scalars.1, vectors := vectors.1,
    histograms := histograms.1, fields := fields, bins := bins, params := params,
    attributes := st.1 }

/-- The function `callLoadDataset`: the commands are interpreted on a manager
that starts empty and the resulting identifiers are exported.  An
`opp_runtime_error` is caught and reported through R's `error()` with the
prefix `Error in callLoadDataset: `; an error R raised itself passes through
as it is.  Either way there is no dataset. -/
def callLoadDataset (R_PosInf : D)
    (loadFile : ResultFileManager D → String → Except Failure (ResultFileManager D))
    (emptyManager : ResultFileManager D) (files commands : SEXP) : Except Failure (Dataset D) :=
  match executeCommands loadFile files commands emptyManager [] with
  | Except.ok (manager, idlist) => Except.ok (exportDataset R_PosInf manager idlist)
  | Except.error (Failure.opp what) =>
    Except.error (Failure.rError ("Error in callLoadDataset: " ++ what ++ "\n"))
  | Except.error (Failure.rError message) => Except.error (Failure.rError message)

end Exporter

/-! ## Auxiliary notions for the proofs -/

/-- The rows `rows` written one after the other from the write index on, the
index advancing by one per row: what an inner loop of the exporter does. -/
def writeRows {R : Type} (st : DataFrame R × Nat) (rows : List R) : DataFrame R × Nat :=
  rows.foldl (fun st r => (setRow st.1 st.2 r, st.2 + 1)) st

/-- The rows `g i x` of the elements `x` of a list, in order, `i` being the
index of `x` counted from the start index. -/
def rowsFrom {α R : Type} (g : Nat → α → List R) : Nat → List α → List R
  | _, [] => []
  | i, x :: xs => g i x ++ rowsFrom g (i + 1) xs

/-- The attribute rows of the item `id` at the index `i` of its list. -/
def attributeRowsOf {D : Type} (type : String) (manager : ResultFileManager D) (i : Nat) (id : ID) :
    List AttributeRow :=
  (manager.getItem id).attributes.map (fun it => ⟨type, i, it.1, it.2⟩)

/-- The `scalars` row of the scalar `id` at the index `i`. -/
def scalarRowOf {D : Type} (manager : ResultFileManager D) (i : Nat) (id : ID) : ScalarRow D :=
  { scalar_key := i
    runid := (manager.getScalar id).fileRunRef.runRef.runName
    file := (manager.getScalar id).fileRunRef.fileRef.fileSystemFilePath
    module := (manager.getScalar id).moduleNameRef
    name := (manager.getScalar id).nameRef
    value := (manager.getScalar id).value }

/-- The `vectors` row of the vector `id` at the index `i`. -/
def vectorRowOf {D : Type} (manager : ResultFileManager D) (i : Nat) (id : ID) : VectorRow :=
  { vector_key := i
    runid := (manager.getVector id).fileRunRef.runRef.runName
    file := (manager.getVector id).fileRunRef.fileRef.fileSystemFilePath
    vectorid := (manager.getVector id).vectorId
    module := (manager.getVector id).moduleNameRef
    name := (manager.getVector id).nameRef }

/-- The `histograms` row of the histogram `id` at the index `i`. -/
def histogramRowOf {D : Type} (manager : ResultFileManager D) (i : Nat) (id : ID) : HistogramRow :=
  { histogram_key := i
    runid := (manager.getHistogram id).fileRunRef.runRef.runName
    file := (manager.getHistogram id).fileRunRef.fileRef.fileSystemFilePath
    module := (manager.getHistogram id).moduleNameRef
    name := (manager.getHistogram id).nameRef }

/-- The `fields` rows of the histogram `id` at the index `i`. -/
def fieldRowsOf {D : Type} (manager : ResultFileManager D) (i : Nat) (id : ID) : List (FieldRow D) :=
  (manager.getHistogram id).fields.map (fun it => ⟨i, it.1, it.2⟩)

/-- The `bins` row of the bin `j`, with lower bound `b`, of the histogram `id`
at the index `i`. -/
def binRowOf {D : Type} (R_PosInf : D) (manager : ResultFileManager D) (i : Nat) (id : ID)
    (j : Nat) (b : D) : BinRow D :=
  { histogram_key := i
    lowerbound := b
    upperbound :=
      if j + 1 < (manager.getHistogram id).bins.length then
        (manager.getHistogram id).bins.getD (j + 1) R_PosInf
      else R_PosInf
    count := (manager.getHistogram id).values.get? j }

/-- The `bins` rows of the histogram `id` at the index `i`. -/
def binRowsOf {D : Type} (R_PosInf : D) (manager : ResultFileManager D) (i : Nat) (id : ID) :
    List (BinRow D) :=
  rowsFrom (fun j b => [binRowOf R_PosInf manager i id j b]) 0 (manager.getHistogram id).bins

/-- The rows `rows` written one after the other through `write` from the write
index on, the index advancing by one per row. -/
def writeRowsWith {σ R : Type} (write : σ → Nat → R → σ) (st : σ × Nat) (rows : List R) : σ × Nat :=
  rows.foldl (fun st r => (write st.1 st.2 r, st.2 + 1)) st

/-! ## Sample data

A small store used to evaluate the definitions on concrete inputs. -/

namespace Sample

/-- A run with two attributes and one module parameter. -/
def run1 : Run :=
  { runName := "General-0", attributes := [("configname", "General"), ("runnumber", "0")],
    moduleParams := [("**.n", "3")] }

/-- The occurrence of `run1` in a scalar file. -/
def fileRun1 : FileRun := { fileRef := { fileSystemFilePath := "r1.sca" }, runRef := run1 }

/-- A scalar identifier of a primary scalar. -/
def s0 : ID := { kind := Kind.scalar, index := 0 }

/-- A scalar identifier of a scalar flagged as a field. -/
def s1 : ID := { kind := Kind.scalar, index := 1 }

/-- A scalar identifier of a second primary scalar. -/
def s2 : ID := { kind := Kind.scalar, index := 2 }

/-- A vector identifier. -/
def v0 : ID := { kind := Kind.vector, index := 0 }

/-- A histogram identifier. -/
def h0 : ID := { kind := Kind.histogram, index := 0 }

/-- The item part of the sample results; the number of attributes depends on
the identifier. -/
def item (id : ID) : ResultItem :=
  { fileRunRef := fileRun1, moduleNameRef := "Net.host", nameRef := "pk",
    attributes :=
      match id.kind with
      | Kind.scalar => [("unit", "s")]
      | Kind.vector => [("unit", "B"), ("interpolation", "none")]
      | Kind.histogram => [] }

/-- A store with three scalars (the second one a field), a vector and a
histogram with the bins `[0, 10, 20]`.  Its pattern filter keeps everything
when there is no pattern; any pattern matches the results at the position 0
of the store. -/
def manager : ResultFileManager Nat :=
  { getAllScalars := fun _ includeFields => if includeFields then [s0, s1, s2] else [s0, s2]
    getAllVectors := [v0]
    getAllHistograms := [h0]
    filterIDList := fun l pattern =>
      match pattern with
      | none => l
      | some _ => l.filter (fun id => decide (id.index = 0))
    getUniqueRuns := fun l => if l = [] then [] else [run1]
    getUniqueFileRuns := fun l => if l = [] then [] else [fileRun1]
    getScalar := fun id =>
      { toResultItem := item id, value := 7 + id.index, isField := decide (id.index = 1) }
    getVector := fun id => { toResultItem := item id, vectorId := 5 }
    getHistogram := fun id =>
      { toResultItem := item id, bins := [0, 10, 20], values := [4, 5, 6],
        fields := [("count", 15), ("mean", 11)] } }

/-- A loader under which every file leads to the sample store. -/
def loadFile (_ : ResultFileManager Nat) (_ : String) : Except Failure (ResultFileManager Nat) :=
  Except.ok manager

/-- The command `list(as.symbol("add"))`: add with no type and no select. -/
def addAll : SEXP := SEXP.list [("", SEXP.symbol "add")]

/-- The command `list(as.symbol("add"), type = "scalar")`. -/
def addScalars : SEXP :=
  SEXP.list [("", SEXP.symbol "add"), ("type", SEXP.character ["scalar"])]

/-- The command `list(as.symbol("add"), type = "histogram")`. -/
def addHistograms : SEXP :=
  SEXP.list [("", SEXP.symbol "add"), ("type", SEXP.character ["histogram"])]

/-- The command `list(as.symbol("discard"), type = "histogram")`. -/
def discardHistograms : SEXP :=
  SEXP.list [("", SEXP.symbol "discard"), ("type", SEXP.character ["histogram"])]

/-- The command `list(as.symbol("discard"), select = "module(Net.host)")`. -/
def discardPattern : SEXP :=
  SEXP.list [("", SEXP.symbol "discard"), ("select", SEXP.character ["module(Net.host)"])]

/-- The command `list(as.symbol("discard"), type = "scalar", select = "module(Net.host)")`. -/
def discardScalarsPattern : SEXP :=
  SEXP.list [("", SEXP.symbol "discard"), ("type", SEXP.character ["scalar"]),
    ("select", SEXP.character ["module(Net.host)"])]

/-- The command `list(as.symbol("foo"), type = "bogus")`: an operator that is
neither add nor discard, with a type that is not a type token. -/
def fooBogus : SEXP :=
  SEXP.list [("", SEXP.symbol "foo"), ("type", SEXP.character ["bogus"])]

/-- The command `list(as.symbol("foo"), type = "scalar")`. -/
def fooScalars : SEXP :=
  SEXP.list [("", SEXP.symbol "foo"), ("type", SEXP.character ["scalar"])]

/-- The files argument `c("r1.sca")`. -/
def files : SEXP := SEXP.character ["r1.sca"]

/-- The occurrence of `run1` in a vector file. -/
def fileRun2 : FileRun := { fileRef := { fileSystemFilePath := "r1.vec" }, runRef := run1 }

/-- The sample store after two files that share the run `run1` are loaded: one
run, two file-runs. -/
def twoFileManager : ResultFileManager Nat :=
  { manager with getUniqueFileRuns := fun l => if l = [] then [] else [fileRun1, fileRun2] }

/-- A run without attributes. -/
def bareRun : Run := { runName := "Bare-0", attributes := [], moduleParams := [] }

/-- The occurrence of `bareRun` in a scalar file. -/
def bareFileRun : FileRun := { fileRef := { fileSystemFilePath := "bare.sca" }, runRef := bareRun }

/-- A store whose results all belong to the run `bareRun`; its unique-runs
query returns that run for every list that is not empty. -/
def bareManager : ResultFileManager Nat :=
  { getAllScalars := fun _ _ => [s0]
    getAllVectors := []
    getAllHistograms := []
    filterIDList := fun l _ => l
    getUniqueRuns := fun l => if l = [] then [] else [bareRun]
    getUniqueFileRuns := fun l => if l = [] then [] else [bareFileRun]
    getScalar := fun _ =>
      { fileRunRef := bareFileRun, moduleNameRef := "Net", nameRef := "pk", attributes := [],
        value := 1, isField := false }
    getVector := fun _ =>
      { fileRunRef := bareFileRun, moduleNameRef := "Net", nameRef := "pk", attributes := [],
        vectorId := 0 }
    getHistogram := fun _ =>
      { fileRunRef := bareFileRun, moduleNameRef := "Net", nameRef := "pk", attributes := [],
        bins := [], values := [], fields := [] } }

/-- The command `list(as.symbol("add"), type = "bogus", select = 1)`: a type
that is not a type token and a select that is a number. -/
def addBogusNumericSelect : SEXP :=
  SEXP.list [("", SEXP.symbol "add"), ("type", SEXP.character ["bogus"]),
    ("select", SEXP.atomic AtomicType.real 1)]

/-- The command `list(as.symbol("add"), select = character(0))`. -/
def addEmptySelect : SEXP :=
  SEXP.list [("", SEXP.symbol "add"), ("select", SEXP.character [])]

/-- The command `c("add")`: a character vector where a list is expected. -/
def characterCommand : SEXP := SEXP.character ["add"]

end Sample

/-! ## Identifier lists: membership, duplicates, idempotence -/

namespace IDList

theorem mem_add (l : IDList) (x y : ID) : y ∈ add l x ↔ y ∈ l ∨ y = x := by
  unfold add
  by_cases h : x ∈ l
  · simp only [h, if_true]
    constructor
    · exact Or.inl
    · rintro (h1 | h1)
      · exact h1
      · exact h1 ▸ h
  · simp [h]

theorem mem_merge (l other : IDList) (y : ID) : y ∈ merge l other ↔ y ∈ l ∨ y ∈ other := by
  unfold merge
  induction other generalizing l with
  | nil => simp
  | cons x xs ih =>
    rw [List.foldl_cons, ih, mem_add]
    simp only [List.mem_cons]
    tauto

theorem mem_substract (l other : IDList) (y : ID) :
    y ∈ substract l other ↔ y ∈ l ∧ y ∉ other := by
  simp [substract]

theorem nodup_add (l : IDList) (x : ID) (h : l.Nodup) : (add l x).Nodup := by
  unfold add
  by_cases hx : x ∈ l
  · simpa [hx] using h
  · simp only [hx, if_false]
    rw [List.nodup_append]
    refine ⟨h, List.nodup_singleton x, ?_⟩
    intro a ha hb
    rw [List.mem_singleton] at hb
    exact hx (hb ▸ ha)

theorem nodup_merge (l other : IDList) (h : l.Nodup) : (merge l other).Nodup := by
  unfold merge
  induction other generalizing l with
  | nil => simpa using h
  | cons x xs ih => exact ih (add l x) (nodup_add l x h)

theorem nodup_substract (l other : IDList) (h : l.Nodup) : (substract l other).Nodup :=
  h.filter _

theorem add_of_mem (l : IDList) (x : ID) (h : x ∈ l) : add l x = l := by
  simp [add, h]

theorem merge_of_subset (l other : IDList) (h : ∀ x ∈ other, x ∈ l) : merge l other = l := by
  unfold merge
  induction other with
  | nil => rfl
  | cons x xs ih =>
    rw [List.foldl_cons, add_of_mem l x (h x (List.mem_cons_self x xs))]
    exact ih (fun y hy => h y (List.mem_cons_of_mem x hy))

theorem merge_merge (l a b : IDList) : merge (merge l a) b = merge l (a ++ b) := by
  simp [merge, List.foldl_append]

theorem merge_add (out acc : IDList) (y : ID) :
    merge out (add acc y) = add (merge out acc) y := by
  by_cases h : y ∈ acc
  · rw [add_of_mem acc y h, add_of_mem]
    exact (mem_merge out acc y).2 (Or.inr h)
  · simp [add, h, merge, List.foldl_append]

theorem merge_merge_right (out acc ys : IDList) :
    merge out (merge acc ys) = merge (merge out acc) ys := by
  induction ys generalizing acc with
  | nil => rfl
  | cons y t ih =>
    have h1 : merge acc (y :: t) = merge (add acc y) t := rfl
    have h2 : merge (merge out acc) (y :: t) = merge (add (merge out acc) y) t := rfl
    rw [h1, h2, ih, merge_add]

end IDList

/-! ## Writing rows into a data frame -/

section Frames

variable {α R σ : Type}

theorem writeRows_append (st : DataFrame R × Nat) (a b : List R) :
    writeRows (writeRows st a) b = writeRows st (a ++ b) := by
  simp [writeRows, List.foldl_append]

theorem foldl_setRow_eq_writeRows {β : Type} (f : β → R) (xs : List β) (st : DataFrame R × Nat) :
    xs.foldl (fun st it => (setRow st.1 st.2 (f it), st.2 + 1)) st = writeRows st (xs.map f) := by
  simp [writeRows, List.foldl_map]

theorem forEachFrom_writeRows (g : Nat → α → List R) (k : Nat) (xs : List α)
    (st : DataFrame R × Nat) :
    forEachFrom (fun i x st => writeRows st (g i x)) k xs st = writeRows st (rowsFrom g k xs) := by
  induction xs generalizing k st with
  | nil => rfl
  | cons x xs ih =>
    simp only [forEachFrom, rowsFrom, ih, writeRows_append]

theorem setRow_fresh (pre : List R) (n : Nat) (r : R) :
    setRow (pre.map some ++ List.replicate (n + 1) none) pre.length r =
      (pre ++ [r]).map some ++ List.replicate n none := by
  simp [setRow, List.set_append, List.replicate_succ]

theorem writeRows_fresh (pre rows : List R) (n : Nat) :
    writeRows (pre.map some ++ List.replicate (rows.length + n) none, pre.length) rows =
      ((pre ++ rows).map some ++ List.replicate n none, pre.length + rows.length) := by
  induction rows generalizing pre with
  | nil => simp [writeRows]
  | cons r rows ih =>
    have h1 : (r :: rows).length + n = (rows.length + n) + 1 := by simp; omega
    have h2 := ih (pre ++ [r])
    simp only [List.length_append, List.length_singleton] at h2
    simp only [writeRows, List.foldl_cons, h1, setRow_fresh] at h2 ⊢
    rw [h2]
    simp
    omega

theorem forEachFrom_setRow (proj : σ → DataFrame R) (body : Nat → α → σ → σ) (f : Nat → α → R)
    (hbody : ∀ i x st, proj (body i x st) = setRow (proj st) i (f i x))
    (pre : List R) (xs : List α) (e : Nat) (st : σ)
    (hst : proj st = pre.map some ++ List.replicate (xs.length + e) none) :
    proj (forEachFrom body pre.length xs st) =
      (pre ++ rowsFrom (fun i x => [f i x]) pre.length xs).map some ++ List.replicate e none := by
  induction xs generalizing pre st with
  | nil => simpa [forEachFrom, rowsFrom] using hst
  | cons x xs ih =>
    have h1 : (x :: xs).length + e = (xs.length + e) + 1 := by simp; omega
    have h2 := ih (pre ++ [f pre.length x]) (body pre.length x st)
      (by rw [hbody, hst, h1, setRow_fresh])
    simp only [List.length_append, List.length_singleton] at h2
    simp only [forEachFrom, rowsFrom, h2]
    simp

theorem forEachFrom_count (cnt : σ → Nat) (body : Nat → α → σ → σ) (w : α → Nat)
    (hbody : ∀ i x st, cnt (body i x st) = cnt st + w x) (k : Nat) (xs : List α) (st : σ) :
    cnt (forEachFrom body k xs st) = cnt st + (xs.map w).sum := by
  induction xs generalizing k st with
  | nil => simp [forEachFrom]
  | cons x xs ih =>
    simp only [forEachFrom, ih, hbody, List.map_cons, List.sum_cons]
    omega

theorem length_rowsFrom (g : Nat → α → List R) (w : α → Nat) (k : Nat) (xs : List α)
    (h : ∀ i, ∀ x ∈ xs, (g i x).length = w x) :
    (rowsFrom g k xs).length = (xs.map w).sum := by
  induction xs generalizing k with
  | nil => rfl
  | cons x xs ih =>
    simp only [rowsFrom, List.length_append, List.map_cons, List.sum_cons]
    rw [h k x (List.mem_cons_self x xs), ih (k + 1) (fun i y hy => h i y (List.mem_cons_of_mem x hy))]

theorem mem_rowsFrom (g : Nat → α → List R) (k : Nat) (xs : List α) (r : R) :
    r ∈ rowsFrom g k xs ↔ ∃ j x, xs.get? j = some x ∧ r ∈ g (k + j) x := by
  induction xs generalizing k with
  | nil => simp [rowsFrom]
  | cons x xs ih =>
    simp only [rowsFrom, List.mem_append, ih]
    constructor
    · rintro (h | ⟨j, y, hj, hr⟩)
      · exact ⟨0, x, rfl, h⟩
      · exact ⟨j + 1, y, hj, by rwa [show k + (j + 1) = k + 1 + j by omega]⟩
    · rintro ⟨j, y, hj, hr⟩
      cases j with
      | zero =>
        simp only [List.get?_cons_zero, Option.some.injEq] at hj
        exact Or.inl (hj ▸ hr)
      | succ j =>
        exact Or.inr ⟨j, y, hj, by rwa [show k + 1 + j = k + (j + 1) by omega]⟩

theorem get?_rowsFrom_singleton (f : Nat → α → R) (k : Nat) (xs : List α) (j : Nat) :
    (rowsFrom (fun i x => [f i x]) k xs).get? j = (xs.get? j).map (f (k + j)) := by
  induction xs generalizing k j with
  | nil => simp [rowsFrom]
  | cons x xs ih =>
    cases j with
    | zero => simp [rowsFrom]
    | succ j =>
      simp only [rowsFrom, List.singleton_append, List.get?_cons_succ, ih]
      rw [show k + 1 + j = k + (j + 1) by omega]

theorem length_rowsFrom_singleton (f : Nat → α → R) (k : Nat) (xs : List α) :
    (rowsFrom (fun i x => [f i x]) k xs).length = xs.length := by
  induction xs generalizing k with
  | nil => rfl
  | cons x xs ih => simp [rowsFrom, ih]

end Frames

/-! ## The exporter: what each data frame holds -/

section ExporterProofs

variable {D : Type}

theorem filterIDListByType_eq_merge (idlist : IDList) (type : Nat) (manager : ResultFileManager D)
    (includeFields : Bool) :
    filterIDListByType idlist type manager includeFields =
      IDList.merge []
        (idlist.filter (fun id => decide (getTypeOf id = type ∧
          (type ≠ SCALAR ∨ includeFields = true ∨ (manager.getScalar id).isField = false)))) := by
  unfold filterIDListByType IDList.merge
  generalize ([] : IDList) = acc
  induction idlist generalizing acc with
  | nil => rfl
  | cons x xs ih =>
    rw [List.foldl_cons, ih, List.filter_cons]
    by_cases h1 : getTypeOf x = type
    · by_cases h2 : type ≠ SCALAR ∨ includeFields = true ∨ (manager.getScalar x).isField = false
      · simp [h1, h2]
      · simp [h1, h2]
    · simp [h1]

theorem mem_filterIDListByType (idlist : IDList) (type : Nat) (manager : ResultFileManager D)
    (includeFields : Bool) (x : ID) :
    x ∈ filterIDListByType idlist type manager includeFields ↔
      x ∈ idlist ∧ getTypeOf x = type ∧
        (type ≠ SCALAR ∨ includeFields = true ∨ (manager.getScalar x).isField = false) := by
  rw [filterIDListByType_eq_merge, IDList.mem_merge]
  simp

theorem nodup_filterIDListByType (idlist : IDList) (type : Nat) (manager : ResultFileManager D)
    (includeFields : Bool) : (filterIDListByType idlist type manager includeFields).Nodup := by
  rw [filterIDListByType_eq_merge]
  exact IDList.nodup_merge _ _ List.nodup_nil

theorem kind_of_getTypeOf_scalar (id : ID) (h : getTypeOf id = SCALAR) : id.kind = Kind.scalar := by
  cases id with
  | mk k i => cases k <;> simp_all [getTypeOf, SCALAR, VECTOR, HISTOGRAM]

theorem kind_of_getTypeOf_vector (id : ID) (h : getTypeOf id = VECTOR) : id.kind = Kind.vector := by
  cases id with
  | mk k i => cases k <;> simp_all [getTypeOf, SCALAR, VECTOR, HISTOGRAM]

theorem kind_of_getTypeOf_histogram (id : ID) (h : getTypeOf id = HISTOGRAM) :
    id.kind = Kind.histogram := by
  cases id with
  | mk k i => cases k <;> simp_all [getTypeOf, SCALAR, VECTOR, HISTOGRAM]

theorem addResultItemAttributes_eq (attributes : DataFrame AttributeRow) (currentIndex : Nat)
    (type : String) (ids : IDList) (manager : ResultFileManager D) :
    addResultItemAttributes attributes currentIndex type ids manager =
      writeRows (attributes, currentIndex) (rowsFrom (attributeRowsOf type manager) 0 ids) := by
  unfold addResultItemAttributes addResultItemAttributesWith forEach
  rw [← forEachFrom_writeRows]
  congr 1
  funext i id st
  exact foldl_setRow_eq_writeRows _ _ _

theorem createDataFrame_eq (R : Type) (n : Nat) :
    createDataFrame R n = ([] : List R).map some ++ List.replicate (n + 0) none := by
  simp [createDataFrame]

theorem fillScalars_fst (c : Nat) (ids : IDList) (manager : ResultFileManager D) :
    (fillScalars (createDataFrame (ScalarRow D) ids.size) c ids manager).1 =
      (rowsFrom (fun i id => [scalarRowOf manager i id]) 0 ids).map some := by
  have h := forEachFrom_setRow (Prod.fst : DataFrame (ScalarRow D) × Nat → DataFrame (ScalarRow D))
    (fun i id st =>
      (setRow st.1 i (scalarRowOf manager i id), st.2 + (manager.getScalar id).attributes.length))
    (scalarRowOf manager) (fun _ _ _ => rfl) [] ids 0
    (createDataFrame (ScalarRow D) ids.size, c) (createDataFrame_eq _ _)
  simpa using h

theorem fillScalars_snd (df : DataFrame (ScalarRow D)) (c : Nat) (ids : IDList)
    (manager : ResultFileManager D) :
    (fillScalars df c ids manager).2 =
      c + (ids.map (fun id => (manager.getScalar id).attributes.length)).sum :=
  forEachFrom_count Prod.snd _ _ (fun _ _ _ => rfl) 0 ids (df, c)

theorem fillVectors_fst (c : Nat) (ids : IDList) (manager : ResultFileManager D) :
    (fillVectors (createDataFrame VectorRow ids.size) c ids manager).1 =
      (rowsFrom (fun i id => [vectorRowOf manager i id]) 0 ids).map some := by
  have h := forEachFrom_setRow (Prod.fst : DataFrame VectorRow × Nat → DataFrame VectorRow)
    (fun i id st =>
      (setRow st.1 i (vectorRowOf manager i id), st.2 + (manager.getVector id).attributes.length))
    (vectorRowOf manager) (fun _ _ _ => rfl) [] ids 0
    (createDataFrame VectorRow ids.size, c) (createDataFrame_eq _ _)
  simpa using h

theorem fillVectors_snd (df : DataFrame VectorRow) (c : Nat) (ids : IDList)
    (manager : ResultFileManager D) :
    (fillVectors df c ids manager).2 =
      c + (ids.map (fun id => (manager.getVector id).attributes.length)).sum :=
  forEachFrom_count Prod.snd _ _ (fun _ _ _ => rfl) 0 ids (df, c)

theorem fillHistograms_fst (c : Nat) (ids : IDList) (manager : ResultFileManager D) :
    (fillHistograms (createDataFrame HistogramRow ids.size) c ids manager).1 =
      (rowsFrom (fun i id => [histogramRowOf manager i id]) 0 ids).map some := by
  have h := forEachFrom_setRow
    (Prod.fst : DataFrame HistogramRow × HistogramCounts → DataFrame HistogramRow)
    (fun i id st =>
      (setRow st.1 i (histogramRowOf manager i id),
        (⟨st.2.binCount + (manager.getHistogram id).bins.length,
          st.2.fieldCount + (manager.getHistogram id).fields.length,
          st.2.attrCount + (manager.getHistogram id).attributes.length⟩ : HistogramCounts)))
    (histogramRowOf manager) (fun _ _ _ => rfl) [] ids 0
    (createDataFrame HistogramRow ids.size, ⟨0, 0, c⟩) (createDataFrame_eq _ _)
  simpa using h

theorem fillHistograms_attrCount (df : DataFrame HistogramRow) (c : Nat) (ids : IDList)
    (manager : ResultFileManager D) :
    (fillHistograms df c ids manager).2.attrCount =
      c + (ids.map (fun id => (manager.getHistogram id).attributes.length)).sum := by
  unfold fillHistograms forEach
  exact forEachFrom_count (fun st : DataFrame HistogramRow × HistogramCounts => st.2.attrCount)
    _ (fun id => (manager.getHistogram id).attributes.length) (fun _ _ _ => rfl) 0 ids _

theorem fillHistograms_binCount (df : DataFrame HistogramRow) (c : Nat) (ids : IDList)
    (manager : ResultFileManager D) :
    (fillHistograms df c ids manager).2.binCount =
      (ids.map (fun id => (manager.getHistogram id).bins.length)).sum := by
  unfold fillHistograms forEach
  exact (forEachFrom_count (fun st : DataFrame HistogramRow × HistogramCounts => st.2.binCount)
    _ (fun id => (manager.getHistogram id).bins.length) (fun _ _ _ => rfl) 0 ids _).trans
    (Nat.zero_add _)

theorem fillHistograms_fieldCount (df : DataFrame HistogramRow) (c : Nat) (ids : IDList)
    (manager : ResultFileManager D) :
    (fillHistograms df c ids manager).2.fieldCount =
      (ids.map (fun id => (manager.getHistogram id).fields.length)).sum := by
  unfold fillHistograms forEach
  exact (forEachFrom_count (fun st : DataFrame HistogramRow × HistogramCounts => st.2.fieldCount)
    _ (fun id => (manager.getHistogram id).fields.length) (fun _ _ _ => rfl) 0 ids _).trans
    (Nat.zero_add _)

theorem fillFields_eq (fields : DataFrame (FieldRow D)) (ids : IDList)
    (manager : ResultFileManager D) :
    fillFields fields ids manager = writeRows (fields, 0) (rowsFrom (fieldRowsOf manager) 0 ids) := by
  unfold fillFields fillFieldsWith forEach
  rw [← forEachFrom_writeRows]
  congr 1
  funext i id st
  exact foldl_setRow_eq_writeRows _ _ _

theorem fillBins_eq (R_PosInf : D) (bins : DataFrame (BinRow D)) (ids : IDList)
    (manager : ResultFileManager D) :
    fillBins R_PosInf bins ids manager =
      writeRows (bins, 0) (rowsFrom (binRowsOf R_PosInf manager) 0 ids) := by
  unfold fillBins fillBinsWith forEach
  rw [← forEachFrom_writeRows]
  congr 1
  funext i id st
  exact forEachFrom_writeRows (fun j b => [binRowOf R_PosInf manager i id j b]) 0 _ st

theorem writeRows_createDataFrame {R : Type} (rows : List R) (n : Nat) (h : n = rows.length) :
    (writeRows (createDataFrame R n, 0) rows).1 = rows.map some := by
  subst h
  have := writeRows_fresh ([] : List R) rows 0
  simp only [createDataFrame]
  simp at this
  simp [this]

theorem getItem_of_scalar (manager : ResultFileManager D) (id : ID) (h : getTypeOf id = SCALAR) :
    manager.getItem id = (manager.getScalar id).toResultItem := by
  simp [ResultFileManager.getItem, kind_of_getTypeOf_scalar id h]

theorem getItem_of_vector (manager : ResultFileManager D) (id : ID) (h : getTypeOf id = VECTOR) :
    manager.getItem id = (manager.getVector id).toResultItem := by
  simp [ResultFileManager.getItem, kind_of_getTypeOf_vector id h]

theorem getItem_of_histogram (manager : ResultFileManager D) (id : ID)
    (h : getTypeOf id = HISTOGRAM) :
    manager.getItem id = (manager.getHistogram id).toResultItem := by
  simp [ResultFileManager.getItem, kind_of_getTypeOf_histogram id h]

theorem exportDataset_scalars (R_PosInf : D) (manager : ResultFileManager D) (idlist : IDList) :
    (exportDataset R_PosInf manager idlist).scalars =
      (rowsFrom (fun i id => [scalarRowOf manager i id]) 0
        (filterIDListByType idlist SCALAR manager false)).map some :=
  fillScalars_fst 0 _ manager

theorem exportDataset_vectors (R_PosInf : D) (manager : ResultFileManager D) (idlist : IDList) :
    (exportDataset R_PosInf manager idlist).vectors =
      (rowsFrom (fun i id => [vectorRowOf manager i id]) 0
        (filterIDListByType idlist VECTOR manager false)).map some :=
  fillVectors_fst _ _ manager

theorem exportDataset_histograms (R_PosInf : D) (manager : ResultFileManager D)
    (idlist : IDList) :
    (exportDataset R_PosInf manager idlist).histograms =
      (rowsFrom (fun i id => [histogramRowOf manager i id]) 0
        (filterIDListByType idlist HISTOGRAM manager false)).map some :=
  fillHistograms_fst _ _ manager

theorem exportDataset_fields (R_PosInf : D) (manager : ResultFileManager D) (idlist : IDList) :
    (exportDataset R_PosInf manager idlist).fields =
      (rowsFrom (fieldRowsOf manager) 0
        (filterIDListByType idlist HISTOGRAM manager false)).map some := by
  show (fillFields (createDataFrame (FieldRow D) _) _ manager).1 = _
  rw [fillFields_eq]
  apply writeRows_createDataFrame
  rw [fillHistograms_fieldCount]
  exact (length_rowsFrom _ _ _ _ (fun i id _ => by simp [fieldRowsOf])).symm

theorem exportDataset_bins (R_PosInf : D) (manager : ResultFileManager D) (idlist : IDList) :
    (exportDataset R_PosInf manager idlist).bins =
      (rowsFrom (binRowsOf R_PosInf manager) 0
        (filterIDListByType idlist HISTOGRAM manager false)).map some := by
  show (fillBins R_PosInf (createDataFrame (BinRow D) _) _ manager).1 = _
  rw [fillBins_eq]
  apply writeRows_createDataFrame
  rw [fillHistograms_binCount]
  exact (length_rowsFrom _ _ _ _
    (fun i id _ => by simp [binRowsOf, length_rowsFrom_singleton])).symm

theorem exportDataset_attributes (R_PosInf : D) (manager : ResultFileManager D)
    (idlist : IDList) :
    (exportDataset R_PosInf manager idlist).attributes =
      (rowsFrom (attributeRowsOf "scalar" manager) 0
          (filterIDListByType idlist SCALAR manager false) ++
        rowsFrom (attributeRowsOf "vector" manager) 0
          (filterIDListByType idlist VECTOR manager false) ++
        rowsFrom (attributeRowsOf "histogram" manager) 0
          (filterIDListByType idlist HISTOGRAM manager false)).map some := by
  show (addResultItemAttributes
      (addResultItemAttributes
        (addResultItemAttributes (createDataFrame AttributeRow _) 0 "scalar" _ manager).1
        (addResultItemAttributes (createDataFrame AttributeRow _) 0 "scalar" _ manager).2
        "vector" _ manager).1
      (addResultItemAttributes
        (addResultItemAttributes (createDataFrame AttributeRow _) 0 "scalar" _ manager).1
        (addResultItemAttributes (createDataFrame AttributeRow _) 0 "scalar" _ manager).2
        "vector" _ manager).2
      "histogram" _ manager).1 = _
  simp only [addResultItemAttributes_eq, Prod.mk.eta, writeRows_append]
  apply writeRows_createDataFrame
  rw [fillHistograms_attrCount, fillVectors_snd, fillScalars_snd, List.length_append,
    List.length_append]
  rw [length_rowsFrom (attributeRowsOf "scalar" manager)
      (fun id => (manager.getScalar id).attributes.length) 0 _
      (fun i id hid => by
        simp [attributeRowsOf,
          getItem_of_scalar manager id ((mem_filterIDListByType _ _ _ _ _).1 hid).2.1]),
    length_rowsFrom (attributeRowsOf "vector" manager)
      (fun id => (manager.getVector id).attributes.length) 0 _
      (fun i id hid => by
        simp [attributeRowsOf,
          getItem_of_vector manager id ((mem_filterIDListByType _ _ _ _ _).1 hid).2.1]),
    length_rowsFrom (attributeRowsOf "histogram" manager)
      (fun id => (manager.getHistogram id).attributes.length) 0 _
      (fun i id hid => by
        simp [attributeRowsOf,
          getItem_of_histogram manager id ((mem_filterIDListByType _ _ _ _ _).1 hid).2.1])]
  omega

end ExporterProofs

/-! ## The interpreter -/

section InterpreterProofs

variable {D : Type}

theorem selectIDs_all (manager : ResultFileManager D) (pattern : Option String) :
    selectIDs (SCALAR ||| VECTOR ||| HISTOGRAM) pattern manager =
      manager.filterIDList
        (IDList.merge [] (manager.getAllScalars false false ++ manager.getAllVectors ++
          manager.getAllHistograms)) pattern := by
  have h1 : (SCALAR ||| VECTOR ||| HISTOGRAM) &&& SCALAR ≠ 0 := by decide
  have h2 : (SCALAR ||| VECTOR ||| HISTOGRAM) &&& VECTOR ≠ 0 := by decide
  have h3 : (SCALAR ||| VECTOR ||| HISTOGRAM) &&& HISTOGRAM ≠ 0 := by decide
  simp only [selectIDs, h1, h2, h3, if_true, ne_eq, not_false_eq_true, IDList.merge_merge]

theorem executeCommand_addAll (manager : ResultFileManager D) (out : IDList) (opName : String)
    (h1 : opName ≠ "type") (h2 : opName ≠ "select") :
    executeCommand manager out (SEXP.list [(opName, SEXP.symbol "add")]) =
      Except.ok (out.merge (selectIDs (SCALAR ||| VECTOR ||| HISTOGRAM) none manager)) := by
  simp [executeCommand, IS_LIST, IS_VECTOR, GET_LENGTH, VECTOR_ELT, getElementByName, h1, h2,
    checkType, checkSelect, bind, Except.bind]

theorem executeCommand_of_symbol (manager : ResultFileManager D) (out : IDList) (command : SEXP)
    (opname : String) (h : VECTOR_ELT command 0 = Except.ok (SEXP.symbol opname)) :
    executeCommand manager out command =
      (checkType (getElementByName command "type")).bind (fun type =>
        (checkSelect (getElementByName command "select")).bind (fun selectStr =>
          if opname = "add" then
            Except.ok (out.merge (selectIDs type selectStr manager))
          else if opname = "discard" then
            Except.ok (out.substract (selectIDs type selectStr manager))
          else
            Except.error (Failure.opp ("unknown command: " ++ opname)))) := by
  cases command with
  | list l =>
    cases l with
    | nil => simp [VECTOR_ELT] at h
    | cons e rest =>
      simp only [VECTOR_ELT, List.get?_cons_zero, Except.ok.injEq] at h
      simp only [executeCommand, IS_LIST, IS_VECTOR, GET_LENGTH, List.length_cons, VECTOR_ELT,
        List.get?_cons_zero, h, bind, Except.bind]
      simp
  | nil => simp [VECTOR_ELT] at h
  | symbol _ => simp [VECTOR_ELT] at h
  | character _ => simp [VECTOR_ELT] at h
  | atomic _ _ => simp [VECTOR_ELT] at h
  | other _ => simp [VECTOR_ELT] at h

theorem executeCommands_list (loadFile : ResultFileManager D → String → Except Failure (ResultFileManager D))
    (files : SEXP) (manager m : ResultFileManager D) (out : IDList) (cs : List (String × SEXP))
    (hne : cs ≠ []) (hload : loadFiles loadFile files manager = Except.ok m) :
    executeCommands loadFile files (SEXP.list cs) manager out =
      ((cs.map Prod.snd).foldlM (executeCommand m) out).bind (fun r => Except.ok (m, r)) := by
  have hlen : cs.length ≠ 0 := by
    intro h
    exact hne (List.length_eq_zero.1 h)
  simp only [executeCommands, hload, bind, Except.bind, IS_VECTOR, GET_LENGTH, elements, hlen]
  simp

theorem executeCommands_list_ok (loadFile : ResultFileManager D → String → Except Failure (ResultFileManager D))
    (files : SEXP) (manager m : ResultFileManager D) (out r : IDList) (cs : List (String × SEXP))
    (hne : cs ≠ []) :
    executeCommands loadFile files (SEXP.list cs) manager out = Except.ok (m, r) ↔
      loadFiles loadFile files manager = Except.ok m ∧
        (cs.map Prod.snd).foldlM (executeCommand m) out = Except.ok r := by
  constructor
  · intro h
    cases hload : loadFiles loadFile files manager with
    | error e => simp [executeCommands, hload, bind, Except.bind] at h
    | ok m' =>
      rw [executeCommands_list loadFile files manager m' out cs hne hload] at h
      cases hf : (cs.map Prod.snd).foldlM (executeCommand m') out with
      | error e => simp [hf, Except.bind] at h
      | ok r' =>
        simp only [hf, Except.bind, Except.ok.injEq, Prod.mk.injEq] at h
        obtain ⟨h1, h2⟩ := h
        subst h1 h2
        exact ⟨rfl, hf⟩
  · rintro ⟨hload, hf⟩
    rw [executeCommands_list loadFile files manager m out cs hne hload, hf]
    rfl

theorem foldlM_executeCommand_append (manager : ResultFileManager D) (out : IDList)
    (cs cs2 : List SEXP) :
    (cs ++ cs2).foldlM (executeCommand manager) out =
      (cs.foldlM (executeCommand manager) out).bind (fun r => cs2.foldlM (executeCommand manager) r) := by
  rw [List.foldlM_append]
  rfl

theorem executeCommand_add (manager : ResultFileManager D) (out : IDList) (c : SEXP)
    (type : Nat) (pattern : Option String)
    (hop : VECTOR_ELT c 0 = Except.ok (SEXP.symbol "add"))
    (htype : checkType (getElementByName c "type") = Except.ok type)
    (hselect : checkSelect (getElementByName c "select") = Except.ok pattern) :
    executeCommand manager out c = Except.ok (out.merge (selectIDs type pattern manager)) := by
  rw [executeCommand_of_symbol manager out c "add" hop, htype, hselect]
  simp [Except.bind]

theorem executeCommand_discard (manager : ResultFileManager D) (out : IDList) (c : SEXP)
    (type : Nat) (pattern : Option String)
    (hop : VECTOR_ELT c 0 = Except.ok (SEXP.symbol "discard"))
    (htype : checkType (getElementByName c "type") = Except.ok type)
    (hselect : checkSelect (getElementByName c "select") = Except.ok pattern) :
    executeCommand manager out c = Except.ok (out.substract (selectIDs type pattern manager)) := by
  rw [executeCommand_of_symbol manager out c "discard" hop, htype, hselect]
  simp [Except.bind]

theorem executeCommand_ok_symbol (manager : ResultFileManager D) (out r : IDList) (c : SEXP)
    (h : executeCommand manager out c = Except.ok r) :
    ∃ opname, VECTOR_ELT c 0 = Except.ok (SEXP.symbol opname) := by
  unfold executeCommand at h
  by_cases h1 : IS_LIST c = true
  · by_cases h2 : GET_LENGTH c = 0
    · simp [h1, h2] at h
    · cases hop : VECTOR_ELT c 0 with
      | error e => simp [h1, h2, hop, bind, Except.bind] at h
      | ok op =>
        cases op with
        | symbol opname => exact ⟨opname, rfl⟩
        | nil => simp [h1, h2, hop, bind, Except.bind] at h
        | character _ => simp [h1, h2, hop, bind, Except.bind] at h
        | atomic _ _ => simp [h1, h2, hop, bind, Except.bind] at h
        | list _ => simp [h1, h2, hop, bind, Except.bind] at h
        | other _ => simp [h1, h2, hop, bind, Except.bind] at h
  · simp [h1] at h

theorem executeCommand_ok_inv (manager : ResultFileManager D) (out r : IDList) (c : SEXP)
    (h : executeCommand manager out c = Except.ok r) :
    ∃ opname type pattern,
      VECTOR_ELT c 0 = Except.ok (SEXP.symbol opname) ∧
      checkType (getElementByName c "type") = Except.ok type ∧
      checkSelect (getElementByName c "select") = Except.ok pattern ∧
      ((opname = "add" ∧ r = out.merge (selectIDs type pattern manager)) ∨
        (opname = "discard" ∧ r = out.substract (selectIDs type pattern manager))) := by
  obtain ⟨opname, hop⟩ := executeCommand_ok_symbol manager out r c h
  rw [executeCommand_of_symbol manager out c opname hop] at h
  cases ht : checkType (getElementByName c "type") with
  | error e => simp [ht, Except.bind] at h
  | ok type =>
    cases hs : checkSelect (getElementByName c "select") with
    | error e => simp [ht, hs, Except.bind] at h
    | ok pattern =>
      refine ⟨opname, type, pattern, hop, rfl, rfl, ?_⟩
      simp only [ht, hs, Except.bind] at h
      by_cases ha : opname = "add"
      · simp only [ha, if_true, Except.ok.injEq] at h
        exact Or.inl ⟨ha, h.symm⟩
      · by_cases hd : opname = "discard"
        · subst hd
          simp only [if_true, Except.ok.injEq] at h
          simp at h
          exact Or.inr ⟨rfl, h.symm⟩
        · simp [ha, hd] at h

theorem executeCommand_nodup (manager : ResultFileManager D) (out r : IDList) (c : SEXP)
    (h : executeCommand manager out c = Except.ok r) (hn : out.Nodup) : r.Nodup := by
  obtain ⟨_, type, pattern, _, _, _, h1 | h1⟩ := executeCommand_ok_inv manager out r c h
  · rw [h1.2]
    exact IDList.nodup_merge _ _ hn
  · rw [h1.2]
    exact IDList.nodup_substract _ _ hn

theorem foldlM_executeCommand_invariant (manager : ResultFileManager D) (P : IDList → Prop)
    (cs : List SEXP)
    (hstep : ∀ c ∈ cs, ∀ o r, executeCommand manager o c = Except.ok r → P o → P r)
    (out r : IDList) (h : cs.foldlM (executeCommand manager) out = Except.ok r) (h0 : P out) :
    P r := by
  induction cs generalizing out with
  | nil =>
    simp only [List.foldlM, pure, Except.pure, Except.ok.injEq] at h
    exact h ▸ h0
  | cons c cs ih =>
    simp only [List.foldlM, bind, Except.bind] at h
    cases hc : executeCommand manager out c with
    | error e => simp [hc] at h
    | ok o2 =>
      simp only [hc] at h
      exact ih (fun c' hc' => hstep c' (List.mem_cons_of_mem c hc')) o2 h
        (hstep c (List.mem_cons_self c cs) out o2 hc h0)

theorem executeCommands_snoc
    (loadFile : ResultFileManager D → String → Except Failure (ResultFileManager D))
    (files : SEXP) (manager m : ResultFileManager D) (out r : IDList)
    (cs : List (String × SEXP)) (name : String) (c : SEXP) (hne : cs ≠ [])
    (hcs : executeCommands loadFile files (SEXP.list cs) manager out = Except.ok (m, r)) :
    executeCommands loadFile files (SEXP.list (cs ++ [(name, c)])) manager out =
      (executeCommand m r c).bind (fun r2 => Except.ok (m, r2)) := by
  obtain ⟨hload, hfold⟩ := (executeCommands_list_ok loadFile files manager m out r cs hne).1 hcs
  have hne2 : cs ++ [(name, c)] ≠ [] := by simp
  rw [executeCommands_list loadFile files manager m out _ hne2 hload, List.map_append,
    foldlM_executeCommand_append, hfold]
  cases hc : executeCommand m r c with
  | error e => simp [Except.bind, List.foldlM, hc, bind]
  | ok r2 => simp [Except.bind, List.foldlM, hc, bind, pure, Except.pure]

theorem infix_append_right (a b : String) : b.data <:+: (a ++ b).data := by
  rw [String.data_append]
  exact (List.suffix_append a.data b.data).isInfix

/-! ## The claims about the interpreter -/

theorem Sample.loadFiles_files :
    loadFiles Sample.loadFile Sample.files Sample.manager = Except.ok Sample.manager := rfl

/-- C1. Empty-commands shortcut: once the files are loaded, an empty command
list gives the same result as the single command `list(add)` with no type and
no select entry (whatever the names of the command in the list and of the
operator in the command, as long as the operator is not stored under the name
`type` or `select`), provided the pattern filter of the loaded store returns
its input unchanged when there is no pattern. -/
theorem executeCommands_empty_eq_add
    (loadFile : ResultFileManager D → String → Except Failure (ResultFileManager D))
    (files : SEXP) (manager : ResultFileManager D) (out : IDList) (name opName : String)
    (hname1 : opName ≠ "type") (hname2 : opName ≠ "select")
    (hfilter : ∀ m, loadFiles loadFile files manager = Except.ok m →
      ∀ l, m.filterIDList l none = l) :
    executeCommands loadFile files (SEXP.list []) manager out =
      executeCommands loadFile files (SEXP.list [(name, SEXP.list [(opName, SEXP.symbol "add")])])
        manager out := by
  unfold executeCommands
  cases hload : loadFiles loadFile files manager with
  | error e => rfl
  | ok m =>
    have hf := hfilter m hload
    simp only [bind, Except.bind, IS_VECTOR, GET_LENGTH, elements, List.length_nil,
      List.length_cons, List.map, List.foldlM, executeCommand_addAll m _ opName hname1 hname2,
      selectIDs_all, hf, IDList.merge_merge_right, IDList.merge_merge]
    simp [IDList.merge, pure, Except.pure]

/-- C1 on the sample store: the hypothesis on the filter holds there, and both
command lists select the two primary scalars, the vector and the histogram. -/
theorem executeCommands_empty_eq_add_witness :
    (∀ m, loadFiles Sample.loadFile Sample.files Sample.manager = Except.ok m →
      ∀ l, m.filterIDList l none = l) ∧
    executeCommands Sample.loadFile Sample.files (SEXP.list []) Sample.manager [] =
      Except.ok (Sample.manager, [Sample.s0, Sample.s2, Sample.v0, Sample.h0]) ∧
    executeCommands Sample.loadFile Sample.files (SEXP.list []) Sample.manager [] =
      executeCommands Sample.loadFile Sample.files
        (SEXP.list [("", SEXP.list [("", SEXP.symbol "add")])]) Sample.manager [] :=
  ⟨fun m hm l => by
      rw [Sample.loadFiles_files] at hm
      cases hm
      rfl,
    rfl,
    executeCommands_empty_eq_add Sample.loadFile Sample.files Sample.manager [] "" ""
      (by decide) (by decide)
      (fun m hm l => by
        rw [Sample.loadFiles_files] at hm
        cases hm
        rfl)⟩

/-- C5. The last command wins: when a command list `cs` (not empty) runs to
the set `r` and a further command `c` has its operator at the front and valid
`type` and `select` entries, then `cs` followed by `c` runs to `r` without the
selection of `c` if `c` is a discard (no selected identifier is left, every
other identifier of `r` stays) and to `r` merged with the selection if `c` is
an add (every selected identifier and every identifier of `r` is in it). -/
theorem executeCommands_last_command_wins
    (loadFile : ResultFileManager D → String → Except Failure (ResultFileManager D))
    (files : SEXP) (manager m : ResultFileManager D) (out r : IDList)
    (cs : List (String × SEXP)) (name : String) (c : SEXP)
    (opname : String) (type : Nat) (pattern : Option String)
    (hne : cs ≠ [])
    (hcs : executeCommands loadFile files (SEXP.list cs) manager out = Except.ok (m, r))
    (hop : VECTOR_ELT c 0 = Except.ok (SEXP.symbol opname))
    (htype : checkType (getElementByName c "type") = Except.ok type)
    (hselect : checkSelect (getElementByName c "select") = Except.ok pattern) :
    (opname = "discard" →
      executeCommands loadFile files (SEXP.list (cs ++ [(name, c)])) manager out =
          Except.ok (m, r.substract (selectIDs type pattern m)) ∧
        (∀ x ∈ selectIDs type pattern m, x ∉ r.substract (selectIDs type pattern m)) ∧
        (∀ x ∈ r, x ∉ selectIDs type pattern m → x ∈ r.substract (selectIDs type pattern m))) ∧
    (opname = "add" →
      executeCommands loadFile files (SEXP.list (cs ++ [(name, c)])) manager out =
          Except.ok (m, r.merge (selectIDs type pattern m)) ∧
        (∀ x ∈ selectIDs type pattern m, x ∈ r.merge (selectIDs type pattern m)) ∧
        (∀ x ∈ r, x ∈ r.merge (selectIDs type pattern m))) := by
  have hrun := executeCommands_snoc loadFile files manager m out r cs name c hne hcs
  rw [hrun, executeCommand_of_symbol m r c opname hop, htype, hselect]
  constructor
  · intro hd
    subst hd
    refine ⟨by simp [Except.bind], ?_, ?_⟩
    · intro x hx hx2
      exact ((IDList.mem_substract _ _ _).1 hx2).2 hx
    · intro x hx hx2
      exact (IDList.mem_substract _ _ _).2 ⟨hx, hx2⟩
  · intro ha
    subst ha
    refine ⟨by simp [Except.bind], ?_, ?_⟩
    · intro x hx
      exact (IDList.mem_merge _ _ _).2 (Or.inr hx)
    · intro x hx
      exact (IDList.mem_merge _ _ _).2 (Or.inl hx)

/-- C5 on the sample store: a discard after an add, then an add after the discard. -/
theorem executeCommands_last_command_wins_witness :
    executeCommands Sample.loadFile Sample.files
        (SEXP.list [("", Sample.addAll), ("", Sample.discardPattern)]) Sample.manager [] =
      Except.ok (Sample.manager, [Sample.s2]) ∧
    executeCommands Sample.loadFile Sample.files
        (SEXP.list [("", Sample.addAll), ("", Sample.discardPattern), ("", Sample.addAll)])
        Sample.manager [] =
      Except.ok (Sample.manager, [Sample.s2, Sample.s0, Sample.v0, Sample.h0]) :=
  ⟨((executeCommands_last_command_wins Sample.loadFile Sample.files Sample.manager
        Sample.manager [] [Sample.s0, Sample.s2, Sample.v0, Sample.h0] [("", Sample.addAll)] ""
        Sample.discardPattern "discard" (SCALAR ||| VECTOR ||| HISTOGRAM)
        (some "module(Net.host)") (by simp) rfl rfl rfl rfl).1 rfl).1,
    ((executeCommands_last_command_wins Sample.loadFile Sample.files Sample.manager
        Sample.manager [] [Sample.s2]
        [("", Sample.addAll), ("", Sample.discardPattern)] ""
        Sample.addAll "add" (SCALAR ||| VECTOR ||| HISTOGRAM) none (by simp) rfl rfl rfl rfl).2
      rfl).1⟩

/-- C6. Re-adding after discarding restores membership: for an add command
`cA` selecting `A`, an add command `cB` selecting `B` and a discard command
`dB` with the type and select of `cB`, the list `[cA, cB, dB, cB]` runs to a
set with the same members as `[cA, cB]`; the two results are
`((out ∪ A ∪ B) \ B) ∪ B` and `out ∪ A ∪ B`.  This holds for any two
selections, disjoint or not. -/
theorem executeCommands_readd_after_discard
    (loadFile : ResultFileManager D → String → Except Failure (ResultFileManager D))
    (files : SEXP) (manager m : ResultFileManager D) (out : IDList)
    (nA nB nD nB2 : String) (cA cB dB : SEXP)
    (typeA typeB : Nat) (patternA patternB : Option String)
    (hload : loadFiles loadFile files manager = Except.ok m)
    (hA : VECTOR_ELT cA 0 = Except.ok (SEXP.symbol "add"))
    (hAtype : checkType (getElementByName cA "type") = Except.ok typeA)
    (hAselect : checkSelect (getElementByName cA "select") = Except.ok patternA)
    (hB : VECTOR_ELT cB 0 = Except.ok (SEXP.symbol "add"))
    (hBtype : checkType (getElementByName cB "type") = Except.ok typeB)
    (hBselect : checkSelect (getElementByName cB "select") = Except.ok patternB)
    (hD : VECTOR_ELT dB 0 = Except.ok (SEXP.symbol "discard"))
    (hDtype : checkType (getElementByName dB "type") = Except.ok typeB)
    (hDselect : checkSelect (getElementByName dB "select") = Except.ok patternB) :
    executeCommands loadFile files (SEXP.list [(nA, cA), (nB, cB)]) manager out =
        Except.ok (m, (out.merge (selectIDs typeA patternA m)).merge (selectIDs typeB patternB m)) ∧
    executeCommands loadFile files (SEXP.list [(nA, cA), (nB, cB), (nD, dB), (nB2, cB)])
        manager out =
        Except.ok (m,
          (((out.merge (selectIDs typeA patternA m)).merge (selectIDs typeB patternB m)).substract
            (selectIDs typeB patternB m)).merge (selectIDs typeB patternB m)) ∧
    ∀ x,
      x ∈ (((out.merge (selectIDs typeA patternA m)).merge (selectIDs typeB patternB m)).substract
            (selectIDs typeB patternB m)).merge (selectIDs typeB patternB m) ↔
      x ∈ (out.merge (selectIDs typeA patternA m)).merge (selectIDs typeB patternB m) := by
  refine ⟨?_, ?_, ?_⟩
  · rw [executeCommands_list loadFile files manager m out _ (by simp) hload]
    simp only [List.map, List.foldlM, bind, Except.bind, pure, Except.pure,
      executeCommand_add m _ cA typeA patternA hA hAtype hAselect,
      executeCommand_add m _ cB typeB patternB hB hBtype hBselect]
  · rw [executeCommands_list loadFile files manager m out _ (by simp) hload]
    simp only [List.map, List.foldlM, bind, Except.bind, pure, Except.pure,
      executeCommand_add m _ cA typeA patternA hA hAtype hAselect,
      executeCommand_add m _ cB typeB patternB hB hBtype hBselect,
      executeCommand_discard m _ dB typeB patternB hD hDtype hDselect]
  · intro x
    simp only [IDList.mem_merge, IDList.mem_substract]
    tauto

/-- C6 on the sample store, with the scalars as `A` and the histograms as `B`. -/
theorem executeCommands_readd_after_discard_witness :
    executeCommands Sample.loadFile Sample.files
        (SEXP.list [("", Sample.addScalars), ("", Sample.addHistograms)]) Sample.manager [] =
      Except.ok (Sample.manager, [Sample.s0, Sample.s2, Sample.h0]) ∧
    executeCommands Sample.loadFile Sample.files
        (SEXP.list [("", Sample.addScalars), ("", Sample.addHistograms),
          ("", Sample.discardHistograms), ("", Sample.addHistograms)]) Sample.manager [] =
      Except.ok (Sample.manager, [Sample.s0, Sample.s2, Sample.h0]) :=
  ⟨(executeCommands_readd_after_discard Sample.loadFile Sample.files Sample.manager
      Sample.manager [] "" "" "" "" Sample.addScalars Sample.addHistograms
      Sample.discardHistograms SCALAR HISTOGRAM none none rfl rfl rfl rfl rfl rfl rfl rfl rfl
      rfl).1,
   (executeCommands_readd_after_discard Sample.loadFile Sample.files Sample.manager
      Sample.manager [] "" "" "" "" Sample.addScalars Sample.addHistograms
      Sample.discardHistograms SCALAR HISTOGRAM none none rfl rfl rfl rfl rfl rfl rfl rfl rfl
      rfl).2.1⟩

/-- C7. Merge is idempotent, `S.merge(S) = S` for every identifier list `S`;
hence when a command list ending in an add command `c` runs to the set `r`,
the list with `c` repeated at the end runs to `r` too, and `r` holds no
identifier twice when `out` held none twice at entry. -/
theorem merge_idempotent_repeated_add :
    (∀ S : IDList, S.merge S = S) ∧
    ∀ (loadFile : ResultFileManager D → String → Except Failure (ResultFileManager D))
      (files : SEXP) (manager m : ResultFileManager D) (out r : IDList)
      (cs : List (String × SEXP)) (name name2 : String) (c : SEXP),
      VECTOR_ELT c 0 = Except.ok (SEXP.symbol "add") →
      executeCommands loadFile files (SEXP.list (cs ++ [(name, c)])) manager out =
        Except.ok (m, r) →
      executeCommands loadFile files (SEXP.list (cs ++ [(name, c)] ++ [(name2, c)])) manager out =
        Except.ok (m, r) ∧ (out.Nodup → r.Nodup) := by
  refine ⟨fun S => IDList.merge_of_subset S S (fun _ h => h), ?_⟩
  intro loadFile files manager m out r cs name name2 c hop hrun
  have hne : cs ++ [(name, c)] ≠ [] := by simp
  obtain ⟨hload, hfold⟩ :=
    (executeCommands_list_ok loadFile files manager m out r _ hne).1 hrun
  have hfold2 := hfold
  rw [List.map_append, foldlM_executeCommand_append] at hfold2
  cases hpre : (cs.map Prod.snd).foldlM (executeCommand m) out with
  | error e => simp [hpre, Except.bind] at hfold2
  | ok r0 =>
    simp only [hpre, Except.bind, List.map, List.foldlM, bind, pure, Except.pure] at hfold2
    cases hc : executeCommand m r0 c with
    | error e => simp [hc] at hfold2
    | ok r1 =>
      simp only [hc, Except.ok.injEq] at hfold2
      subst hfold2
      obtain ⟨opname, type, pattern, hop2, htype, hselect, hres⟩ :=
        executeCommand_ok_inv m r0 r1 c hc
      have hr1 : r1 = r0.merge (selectIDs type pattern m) := by
        rw [executeCommand_add m r0 c type pattern hop htype hselect] at hc
        exact (Except.ok.inj hc).symm
      constructor
      · rw [executeCommands_snoc loadFile files manager m out r1 (cs ++ [(name, c)]) name2 c hne
          hrun, executeCommand_add m r1 c type pattern hop htype hselect]
        show Except.ok (m, r1.merge (selectIDs type pattern m)) = Except.ok (m, r1)
        rw [hr1]
        congr 2
        exact IDList.merge_of_subset _ _ (fun x hx => (IDList.mem_merge _ _ _).2 (Or.inr hx))
      · intro hn
        exact foldlM_executeCommand_invariant m List.Nodup _
          (fun c' _ o r' h' ho => executeCommand_nodup m o r' c' h' ho) out r1 hfold hn

/-- C7 on the sample store: merging a list into itself, and the command
`add scalars` given twice. -/
theorem merge_idempotent_repeated_add_witness :
    IDList.merge [Sample.s0, Sample.h0] [Sample.s0, Sample.h0] = [Sample.s0, Sample.h0] ∧
    executeCommands Sample.loadFile Sample.files
        (SEXP.list ([("", Sample.addAll)] ++ [("", Sample.addScalars)] ++ [("", Sample.addScalars)]))
        Sample.manager [] =
      Except.ok (Sample.manager, [Sample.s0, Sample.s2, Sample.v0, Sample.h0]) ∧
    [Sample.s0, Sample.s2, Sample.v0, Sample.h0].Nodup :=
  ⟨(@merge_idempotent_repeated_add Nat).1 [Sample.s0, Sample.h0],
    ((@merge_idempotent_repeated_add Nat).2 Sample.loadFile Sample.files Sample.manager
      Sample.manager [] [Sample.s0, Sample.s2, Sample.v0, Sample.h0] [("", Sample.addAll)] "" ""
      Sample.addScalars rfl rfl).1,
    ((@merge_idempotent_repeated_add Nat).2 Sample.loadFile Sample.files Sample.manager
      Sample.manager [] [Sample.s0, Sample.s2, Sample.v0, Sample.h0] [("", Sample.addAll)] "" ""
      Sample.addScalars rfl rfl).2 List.nodup_nil⟩

/-- C9, as stated, fails: the command `list(as.symbol("foo"), type = "bogus")`
has the operator `foo`, which is neither add nor discard, and its execution
fails with the message `unknown type: bogus`, in which `foo` does not occur. -/
theorem unknown_operator_not_named :
    VECTOR_ELT Sample.fooBogus 0 = Except.ok (SEXP.symbol "foo") ∧
    executeCommand Sample.manager [] Sample.fooBogus = Except.error (Failure.opp "unknown type: bogus") ∧
    ¬ ("foo".data <:+: "unknown type: bogus".data) :=
  ⟨rfl, rfl, by decide⟩

/-- C9, amended. A command whose first element is a symbol other than add and
discard always fails.  The type entry is checked first, then the select entry,
then the operator: the message is that of the type entry when that entry is
bad, that of the select entry when only that one is bad, and
`unknown command: ` followed by the operator, which names it, when both
entries are valid. -/
theorem unknown_operator_fails (manager : ResultFileManager D) (out : IDList) (c : SEXP)
    (opname : String) (hop : VECTOR_ELT c 0 = Except.ok (SEXP.symbol opname))
    (hadd : opname ≠ "add") (hdiscard : opname ≠ "discard") :
    (∃ msg, executeCommand manager out c = Except.error msg) ∧
    (∀ e, checkType (getElementByName c "type") = Except.error e →
      executeCommand manager out c = Except.error e) ∧
    (∀ type e, checkType (getElementByName c "type") = Except.ok type →
      checkSelect (getElementByName c "select") = Except.error e →
      executeCommand manager out c = Except.error e) ∧
    (∀ type pattern, checkType (getElementByName c "type") = Except.ok type →
      checkSelect (getElementByName c "select") = Except.ok pattern →
      executeCommand manager out c = Except.error (Failure.opp ("unknown command: " ++ opname)) ∧
        opname.data <:+: ("unknown command: " ++ opname).data) := by
  rw [executeCommand_of_symbol manager out c opname hop]
  refine ⟨?_, ?_, ?_, ?_⟩
  · cases ht : checkType (getElementByName c "type") with
    | error e => exact ⟨e, rfl⟩
    | ok type =>
      cases hs : checkSelect (getElementByName c "select") with
      | error e => exact ⟨e, rfl⟩
      | ok pattern => exact ⟨Failure.opp ("unknown command: " ++ opname), by simp [Except.bind, hadd, hdiscard]⟩
  · intro e ht
    rw [ht]
    rfl
  · intro type e ht hs
    rw [ht, hs]
    rfl
  · intro type pattern ht hs
    rw [ht, hs]
    exact ⟨by simp [Except.bind, hadd, hdiscard], infix_append_right _ _⟩

/-- C9, amended, on the sample store: `foo` with a valid type is reported by
name, `foo` with the type `bogus` is reported as a bad type. -/
theorem unknown_operator_fails_witness :
    executeCommand Sample.manager [] Sample.fooScalars = Except.error (Failure.opp "unknown command: foo") ∧
    executeCommand Sample.manager [] Sample.fooBogus = Except.error (Failure.opp "unknown type: bogus") :=
  ⟨((unknown_operator_fails Sample.manager [] Sample.fooScalars "foo" rfl (by decide)
      (by decide)).2.2.2 SCALAR none rfl rfl).1,
   (unknown_operator_fails Sample.manager [] Sample.fooBogus "foo" rfl (by decide)
      (by decide)).2.1 (Failure.opp "unknown type: bogus") rfl⟩

/-- C10. `checkType` returns a mask exactly for an absent entry (the mask of
all three kinds) and for a character vector whose first element is `scalar`,
`vector` or `histogram` (the bit of that kind, whatever follows the first
element); for any other first element it fails with a message that contains
that element; for a value that is not a character vector, and for an empty
character vector, it fails. -/
theorem checkType_spec :
    (∀ (type : SEXP) (mask : Nat), checkType type = Except.ok mask ↔
      (type = SEXP.nil ∧ mask = SCALAR ||| VECTOR ||| HISTOGRAM) ∨
      ∃ typeStr rest, type = SEXP.character (typeStr :: rest) ∧
        ((typeStr = "scalar" ∧ mask = SCALAR) ∨ (typeStr = "vector" ∧ mask = VECTOR) ∨
          (typeStr = "histogram" ∧ mask = HISTOGRAM))) ∧
    (∀ (typeStr : String) (rest : List String),
      typeStr ≠ "scalar" → typeStr ≠ "vector" → typeStr ≠ "histogram" →
      checkType (SEXP.character (typeStr :: rest)) = Except.error (Failure.opp ("unknown type: " ++ typeStr)) ∧
        typeStr.data <:+: ("unknown type: " ++ typeStr).data) ∧
    (∀ type : SEXP, type ≠ SEXP.nil → IS_CHARACTER type = false →
      checkType type = Except.error (Failure.opp "type is not a string")) ∧
    checkType (SEXP.character []) = Except.error (Failure.opp "type is an empty character vector") := by
  refine ⟨?_, ?_, ?_, rfl⟩
  · intro type mask
    cases type with
    | nil => simp [checkType, eq_comm]
    | symbol _ => simp [checkType]
    | atomic _ _ => simp [checkType]
    | list _ => simp [checkType]
    | other _ => simp [checkType]
    | character v =>
      cases v with
      | nil => simp [checkType]
      | cons typeStr rest =>
        by_cases h1 : typeStr = "scalar"
        · subst h1
          simp [checkType, eq_comm]
        · by_cases h2 : typeStr = "vector"
          · subst h2
            simp [checkType, eq_comm]
          · by_cases h3 : typeStr = "histogram"
            · subst h3
              simp [checkType, eq_comm]
            · simp [checkType, h1, h2, h3]
  · intro typeStr rest h1 h2 h3
    exact ⟨by simp [checkType, h1, h2, h3], infix_append_right _ _⟩
  · intro type h1 h2
    cases type with
    | nil => exact absurd rfl h1
    | character _ => simp [IS_CHARACTER] at h2
    | symbol _ => rfl
    | atomic _ _ => rfl
    | list _ => rfl
    | other _ => rfl

/-- C10 on concrete entries: further elements are ignored, and a token that is
not a type is reported. -/
theorem checkType_spec_witness :
    checkType (SEXP.character ["vector", "scalar"]) = Except.ok VECTOR ∧
    checkType (SEXP.character ["Scalar"]) = Except.error (Failure.opp "unknown type: Scalar") ∧
    checkType (SEXP.atomic AtomicType.integer 1) = Except.error (Failure.opp "type is not a string") :=
  ⟨(checkType_spec.1 (SEXP.character ["vector", "scalar"]) VECTOR).2
      (Or.inr ⟨"vector", ["scalar"], rfl, Or.inr (Or.inl ⟨rfl, rfl⟩)⟩),
    (checkType_spec.2.1 "Scalar" [] (by decide) (by decide) (by decide)).1,
    checkType_spec.2.2.1 (SEXP.atomic AtomicType.integer 1) (by intro h; cases h) rfl⟩

end InterpreterProofs

/-! ## The claims about the exporter -/

section ExporterClaims

variable {D : Type}

theorem rowsFrom_append {α R : Type} (g : Nat → α → List R) (k : Nat) (a b : List α) :
    rowsFrom g k (a ++ b) = rowsFrom g k a ++ rowsFrom g (k + a.length) b := by
  induction a generalizing k with
  | nil => simp [rowsFrom]
  | cons x a ih =>
    show g k x ++ rowsFrom g (k + 1) (a ++ b) =
      (g k x ++ rowsFrom g (k + 1) a) ++ rowsFrom g (k + (a.length + 1)) b
    rw [ih, List.append_assoc, show k + 1 + a.length = k + (a.length + 1) by omega]

theorem get?_map_some_rowsFrom {α R : Type} (f : Nat → α → R) (xs : List α) (k : Nat) (x : α)
    (h : xs.get? k = some x) :
    ((rowsFrom (fun i x => [f i x]) 0 xs).map some).get? k = some (some (f k x)) ∧
      k < ((rowsFrom (fun i x => [f i x]) 0 xs).map some).length := by
  constructor
  · have h1 := get?_rowsFrom_singleton f 0 xs k
    rw [h] at h1
    simp only [List.get?_eq_getElem?, Option.map_some', Nat.zero_add] at h1
    simp [h1]
  · rw [List.length_map, length_rowsFrom_singleton]
    exact List.get?_eq_some.1 h |>.1

theorem mem_attributeRows (type : String) (manager : ResultFileManager D) (ids : IDList)
    (row : AttributeRow) (h : row ∈ rowsFrom (attributeRowsOf type manager) 0 ids) :
    row.type = type ∧
      ∃ id, ids.get? row.key = some id ∧ (row.name, row.value) ∈ (manager.getItem id).attributes := by
  obtain ⟨j, id, hj, hr⟩ := (mem_rowsFrom _ _ _ _).1 h
  simp only [attributeRowsOf, List.mem_map] at hr
  obtain ⟨it, hit, rfl⟩ := hr
  exact ⟨rfl, id, by simpa using hj, hit⟩

theorem mem_of_get?_filterIDListByType (idlist : IDList) (type : Nat)
    (manager : ResultFileManager D) (k : Nat) (id : ID)
    (h : (filterIDListByType idlist type manager false).get? k = some id) :
    id ∈ idlist ∧ getTypeOf id = type ∧
      (type ≠ SCALAR ∨ (manager.getScalar id).isField = false) := by
  have hmem := (mem_filterIDListByType idlist type manager false id).1 (List.get?_mem h)
  simpa using hmem

theorem IDList.merge_eq_append_sublist (acc xs : IDList) :
    ∃ t : IDList, t.Sublist xs ∧ IDList.merge acc xs = acc ++ t := by
  induction xs generalizing acc with
  | nil => exact ⟨[], List.Sublist.refl _, by simp [IDList.merge]⟩
  | cons x xs ih =>
    have hstep : IDList.merge acc (x :: xs) = IDList.merge (IDList.add acc x) xs := rfl
    by_cases hx : x ∈ acc
    · obtain ⟨t, ht, heq⟩ := ih acc
      exact ⟨t, ht.cons x, by rw [hstep, IDList.add_of_mem acc x hx, heq]⟩
    · obtain ⟨t, ht, heq⟩ := ih (acc ++ [x])
      refine ⟨x :: t, ht.cons₂ x, ?_⟩
      rw [hstep]
      simp only [IDList.add, hx, if_false, heq]
      simp

theorem IDList.merge_of_nodup_append (acc xs : IDList) (h : (acc ++ xs).Nodup) :
    IDList.merge acc xs = acc ++ xs := by
  induction xs generalizing acc with
  | nil => simp [IDList.merge]
  | cons x xs ih =>
    have hstep : IDList.merge acc (x :: xs) = IDList.merge (IDList.add acc x) xs := rfl
    have hx : x ∉ acc := by
      intro hx
      have := List.nodup_append.1 h
      exact this.2.2 hx (List.mem_cons_self x xs)
    have h2 : (acc ++ [x] ++ xs).Nodup := by simpa using h
    rw [hstep]
    simp only [IDList.add, hx, if_false]
    rw [ih _ h2]
    simp

theorem filterIDListByType_sublist (idlist : IDList) (type : Nat) (manager : ResultFileManager D)
    (includeFields : Bool) :
    (filterIDListByType idlist type manager includeFields).Sublist idlist := by
  rw [filterIDListByType_eq_merge]
  obtain ⟨t, ht, heq⟩ := IDList.merge_eq_append_sublist [] (idlist.filter (fun id =>
    decide (getTypeOf id = type ∧
      (type ≠ SCALAR ∨ includeFields = true ∨ (manager.getScalar id).isField = false))))
  rw [heq, List.nil_append]
  exact ht.trans (List.filter_sublist _)

theorem filterIDListByType_of_nodup (idlist : IDList) (type : Nat) (manager : ResultFileManager D)
    (includeFields : Bool) (h : idlist.Nodup) :
    filterIDListByType idlist type manager includeFields =
      idlist.filter (fun id => decide (getTypeOf id = type ∧
        (type ≠ SCALAR ∨ includeFields = true ∨ (manager.getScalar id).isField = false))) := by
  rw [filterIDListByType_eq_merge, IDList.merge_of_nodup_append [] _ (by simpa using h.filter _)]
  rfl

theorem rowsFrom_split {α R : Type} (g : Nat → α → List R) (k : Nat) (xs : List α) (i : Nat)
    (x : α) (h : xs.get? i = some x) :
    ∃ a b, rowsFrom g k xs = a ++ g (k + i) x ++ b ∧
      (∀ r ∈ a, ∃ j y, j < i ∧ r ∈ g (k + j) y) ∧
      (∀ r ∈ b, ∃ j y, i < j ∧ r ∈ g (k + j) y) := by
  induction xs generalizing k i with
  | nil => simp at h
  | cons x0 xs ih =>
    cases i with
    | zero =>
      simp only [List.get?_cons_zero, Option.some.injEq] at h
      subst h
      refine ⟨[], rowsFrom g (k + 1) xs, by simp [rowsFrom], by simp, ?_⟩
      intro r hr
      obtain ⟨j, y, _, hr2⟩ := (mem_rowsFrom _ _ _ _).1 hr
      exact ⟨j + 1, y, Nat.succ_pos j, by rwa [show k + (j + 1) = k + 1 + j by omega]⟩
    | succ i =>
      obtain ⟨a, b, heq, ha, hb⟩ := ih (k + 1) i h
      refine ⟨g k x0 ++ a, b, ?_, ?_, ?_⟩
      · simp only [rowsFrom, heq, List.append_assoc]
        rw [show k + 1 + i = k + (i + 1) by omega]
      · intro r hr
        rcases List.mem_append.1 hr with hr | hr
        · exact ⟨0, x0, Nat.succ_pos i, hr⟩
        · obtain ⟨j, y, hj, hr2⟩ := ha r hr
          exact ⟨j + 1, y, Nat.succ_lt_succ hj, by rwa [show k + (j + 1) = k + 1 + j by omega]⟩
      · intro r hr
        obtain ⟨j, y, hj, hr2⟩ := hb r hr
        exact ⟨j + 1, y, Nat.succ_lt_succ hj, by rwa [show k + (j + 1) = k + 1 + j by omega]⟩

theorem histogram_key_of_mem_binRowsOf (R_PosInf : D) (manager : ResultFileManager D) (i : Nat)
    (id : ID) (r : BinRow D) (h : r ∈ binRowsOf R_PosInf manager i id) : r.histogram_key = i := by
  obtain ⟨j, b, _, hr⟩ := (mem_rowsFrom _ _ _ _).1 h
  rw [List.mem_singleton] at hr
  rw [hr]
  rfl

theorem get?_binRowsOf (R_PosInf : D) (manager : ResultFileManager D) (i : Nat) (id : ID)
    (j : Nat) (b : D) (h : (manager.getHistogram id).bins.get? j = some b) :
    ((binRowsOf R_PosInf manager i id).map some).get? j =
      some (some (binRowOf R_PosInf manager i id j b)) := by
  have h1 := (get?_map_some_rowsFrom (binRowOf R_PosInf manager i id) _ j b h).1
  exact h1

theorem selectIDs_scalar (manager : ResultFileManager D) (pattern : Option String) :
    selectIDs SCALAR pattern manager =
      manager.filterIDList (IDList.merge [] (manager.getAllScalars false false)) pattern := by
  have h1 : SCALAR &&& SCALAR = 1 := by decide
  have h2 : SCALAR &&& VECTOR = 0 := by decide
  have h3 : SCALAR &&& HISTOGRAM = 0 := by decide
  simp [selectIDs, h1, h2, h3]

theorem filterIDListByType_eq_nil (idlist : IDList) (type : Nat) (manager : ResultFileManager D)
    (includeFields : Bool) (h : ∀ id ∈ idlist, getTypeOf id ≠ type) :
    filterIDListByType idlist type manager includeFields = [] := by
  apply List.eq_nil_iff_forall_not_mem.2
  intro id hid
  have := (mem_filterIDListByType idlist type manager includeFields id).1 hid
  exact h id this.1 this.2.1

theorem callLoadDataset_ok (R_PosInf : D)
    (loadFile : ResultFileManager D → String → Except Failure (ResultFileManager D))
    (manager m : ResultFileManager D) (files commands : SEXP) (idlist : IDList)
    (h : executeCommands loadFile files commands manager [] = Except.ok (m, idlist)) :
    callLoadDataset R_PosInf loadFile manager files commands =
      Except.ok (exportDataset R_PosInf m idlist) := by
  simp only [callLoadDataset, h]

/-- C2. Surrogate key consistency: every entry of the `attributes` frame is a
written row whose type is `scalar`, `vector` or `histogram`; the key `k` of a
row of type `scalar` is below the number of rows of `scalars`, the row `k` of
`scalars` has `scalar_key = k` and is the row of a scalar `id` of the
identifier list, and the `(name, value)` of the attribute row is an attribute
of that scalar; likewise for `vector` and `vectors`, `histogram` and
`histograms`. -/
theorem attributes_key_consistent (R_PosInf : D) (manager : ResultFileManager D)
    (idlist : IDList) (e : Option AttributeRow)
    (he : e ∈ (exportDataset R_PosInf manager idlist).attributes) :
    ∃ row, e = some row ∧
      (row.type = "scalar" ∨ row.type = "vector" ∨ row.type = "histogram") ∧
      (row.type = "scalar" →
        row.key < (exportDataset R_PosInf manager idlist).scalars.length ∧
        ∃ id ∈ idlist, getTypeOf id = SCALAR ∧
          (exportDataset R_PosInf manager idlist).scalars.get? row.key =
            some (some
              { scalar_key := row.key
                runid := (manager.getScalar id).fileRunRef.runRef.runName
                file := (manager.getScalar id).fileRunRef.fileRef.fileSystemFilePath
                module := (manager.getScalar id).moduleNameRef
                name := (manager.getScalar id).nameRef
                value := (manager.getScalar id).value }) ∧
          (row.name, row.value) ∈ (manager.getScalar id).attributes) ∧
      (row.type = "vector" →
        row.key < (exportDataset R_PosInf manager idlist).vectors.length ∧
        ∃ id ∈ idlist, getTypeOf id = VECTOR ∧
          (exportDataset R_PosInf manager idlist).vectors.get? row.key =
            some (some
              { vector_key := row.key
                runid := (manager.getVector id).fileRunRef.runRef.runName
                file := (manager.getVector id).fileRunRef.fileRef.fileSystemFilePath
                vectorid := (manager.getVector id).vectorId
                module := (manager.getVector id).moduleNameRef
                name := (manager.getVector id).nameRef }) ∧
          (row.name, row.value) ∈ (manager.getVector id).attributes) ∧
      (row.type = "histogram" →
        row.key < (exportDataset R_PosInf manager idlist).histograms.length ∧
        ∃ id ∈ idlist, getTypeOf id = HISTOGRAM ∧
          (exportDataset R_PosInf manager idlist).histograms.get? row.key =
            some (some
              { histogram_key := row.key
                runid := (manager.getHistogram id).fileRunRef.runRef.runName
                file := (manager.getHistogram id).fileRunRef.fileRef.fileSystemFilePath
                module := (manager.getHistogram id).moduleNameRef
                name := (manager.getHistogram id).nameRef }) ∧
          (row.name, row.value) ∈ (manager.getHistogram id).attributes) := by
  rw [exportDataset_attributes, List.mem_map] at he
  obtain ⟨row, hrow, rfl⟩ := he
  refine ⟨row, rfl, ?_⟩
  rw [exportDataset_scalars, exportDataset_vectors, exportDataset_histograms]
  simp only [List.mem_append] at hrow
  rcases hrow with (hrow | hrow) | hrow
  · obtain ⟨htype, id, hget, hattr⟩ := mem_attributeRows _ _ _ _ hrow
    obtain ⟨hmem, hkind, _⟩ := mem_of_get?_filterIDListByType _ _ _ _ _ hget
    obtain ⟨hrowget, hlt⟩ := get?_map_some_rowsFrom (scalarRowOf manager) _ _ _ hget
    rw [getItem_of_scalar manager id hkind] at hattr
    refine ⟨Or.inl htype, fun _ => ⟨hlt, id, hmem, hkind, hrowget, hattr⟩, ?_, ?_⟩
    · intro h
      rw [htype] at h
      exact absurd h (by decide)
    · intro h
      rw [htype] at h
      exact absurd h (by decide)
  · obtain ⟨htype, id, hget, hattr⟩ := mem_attributeRows _ _ _ _ hrow
    obtain ⟨hmem, hkind, _⟩ := mem_of_get?_filterIDListByType _ _ _ _ _ hget
    obtain ⟨hrowget, hlt⟩ := get?_map_some_rowsFrom (vectorRowOf manager) _ _ _ hget
    rw [getItem_of_vector manager id hkind] at hattr
    refine ⟨Or.inr (Or.inl htype), ?_, fun _ => ⟨hlt, id, hmem, hkind, hrowget, hattr⟩, ?_⟩
    · intro h
      rw [htype] at h
      exact absurd h (by decide)
    · intro h
      rw [htype] at h
      exact absurd h (by decide)
  · obtain ⟨htype, id, hget, hattr⟩ := mem_attributeRows _ _ _ _ hrow
    obtain ⟨hmem, hkind, _⟩ := mem_of_get?_filterIDListByType _ _ _ _ _ hget
    obtain ⟨hrowget, hlt⟩ := get?_map_some_rowsFrom (histogramRowOf manager) _ _ _ hget
    rw [getItem_of_histogram manager id hkind] at hattr
    refine ⟨Or.inr (Or.inr htype), ?_, ?_, fun _ => ⟨hlt, id, hmem, hkind, hrowget, hattr⟩⟩
    · intro h
      rw [htype] at h
      exact absurd h (by decide)
    · intro h
      rw [htype] at h
      exact absurd h (by decide)

/-- C2 on the sample store: the attribute row of the scalar `s2` has the key
1, the position of `s2` in `scalars`, not its position 2 in the store. -/
theorem attributes_key_consistent_witness :
    some { type := "scalar", key := 1, name := "unit", value := "s" } ∈
        (exportDataset 999 Sample.manager
          [Sample.s0, Sample.s1, Sample.s2, Sample.v0, Sample.h0]).attributes ∧
    ∃ row : AttributeRow,
      some { type := "scalar", key := 1, name := "unit", value := "s" } = some row ∧
        (row.type = "scalar" ∨ row.type = "vector" ∨ row.type = "histogram") :=
  ⟨by decide,
    (attributes_key_consistent 999 Sample.manager
      [Sample.s0, Sample.s1, Sample.s2, Sample.v0, Sample.h0]
      (some { type := "scalar", key := 1, name := "unit", value := "s" }) (by decide)).imp
      (fun _ h => ⟨h.1, h.2.1⟩)⟩

/-- C3. Field exclusion: every entry of the `scalars` frame is the row of a
scalar of the identifier list whose `isField` is false, and every `attributes`
row of type `scalar` is an attribute of such a scalar, also when the list
holds field scalars; `filterIDListByType` with `SCALAR` and
`includeFields = false` returns the scalar identifiers of its input whose
`isField` is false, in input order (it is a sublist of the input, and it is
the filtered input when the input has no duplicates). -/
theorem field_scalars_not_exported (R_PosInf : D) (manager : ResultFileManager D)
    (idlist : IDList) :
    (∀ e ∈ (exportDataset R_PosInf manager idlist).scalars,
      ∃ k id, id ∈ idlist ∧ getTypeOf id = SCALAR ∧ (manager.getScalar id).isField = false ∧
        e = some
          { scalar_key := k
            runid := (manager.getScalar id).fileRunRef.runRef.runName
            file := (manager.getScalar id).fileRunRef.fileRef.fileSystemFilePath
            module := (manager.getScalar id).moduleNameRef
            name := (manager.getScalar id).nameRef
            value := (manager.getScalar id).value }) ∧
    (∀ e ∈ (exportDataset R_PosInf manager idlist).attributes,
      ∃ row, e = some row ∧
        (row.type = "scalar" →
          ∃ id ∈ idlist, getTypeOf id = SCALAR ∧ (manager.getScalar id).isField = false ∧
            (row.name, row.value) ∈ (manager.getScalar id).attributes)) ∧
    (∀ id, id ∈ filterIDListByType idlist SCALAR manager false ↔
      id ∈ idlist ∧ getTypeOf id = SCALAR ∧ (manager.getScalar id).isField = false) ∧
    (filterIDListByType idlist SCALAR manager false).Sublist idlist ∧
    (idlist.Nodup →
      filterIDListByType idlist SCALAR manager false =
        idlist.filter (fun id =>
          decide (getTypeOf id = SCALAR ∧ (manager.getScalar id).isField = false))) := by
  refine ⟨?_, ?_, ?_, filterIDListByType_sublist _ _ _ _, ?_⟩
  · intro e he
    rw [exportDataset_scalars, List.mem_map] at he
    obtain ⟨row, hrow, rfl⟩ := he
    obtain ⟨j, id, hj, hr⟩ := (mem_rowsFrom _ _ _ _).1 hrow
    obtain ⟨hmem, hkind, hfield⟩ := mem_of_get?_filterIDListByType _ _ _ _ _ hj
    rw [List.mem_singleton] at hr
    exact ⟨0 + j, id, hmem, hkind, by simpa using hfield, by rw [hr]; rfl⟩
  · intro e he
    rw [exportDataset_attributes, List.mem_map] at he
    obtain ⟨row, hrow, rfl⟩ := he
    refine ⟨row, rfl, fun hscalar => ?_⟩
    simp only [List.mem_append] at hrow
    rcases hrow with (hrow | hrow) | hrow
    · obtain ⟨_, id, hget, hattr⟩ := mem_attributeRows _ _ _ _ hrow
      obtain ⟨hmem, hkind, hfield⟩ := mem_of_get?_filterIDListByType _ _ _ _ _ hget
      rw [getItem_of_scalar manager id hkind] at hattr
      exact ⟨id, hmem, hkind, by simpa using hfield, hattr⟩
    · obtain ⟨htype, _⟩ := mem_attributeRows _ _ _ _ hrow
      rw [htype] at hscalar
      exact absurd hscalar (by decide)
    · obtain ⟨htype, _⟩ := mem_attributeRows _ _ _ _ hrow
      rw [htype] at hscalar
      exact absurd hscalar (by decide)
  · intro id
    rw [mem_filterIDListByType]
    simp
  · intro hn
    rw [filterIDListByType_of_nodup _ _ _ _ hn]
    congr 1
    funext id
    simp

/-- C3 on the sample store: the field scalar `s1` is selected and not exported. -/
theorem field_scalars_not_exported_witness :
    [Sample.s0, Sample.s1, Sample.s2, Sample.v0].Nodup ∧
    filterIDListByType [Sample.s0, Sample.s1, Sample.s2, Sample.v0] SCALAR Sample.manager false =
      [Sample.s0, Sample.s2] :=
  ⟨by decide,
    ((field_scalars_not_exported 999 Sample.manager
      [Sample.s0, Sample.s1, Sample.s2, Sample.v0]).2.2.2.2 (by decide)).trans (by decide)⟩

/-- C4. Bins: for the histogram at the index `i` of the exported histograms
(the one of the row `i` of the `histograms` frame, whose key is `i`), with `n`
bin lower bounds and at least `n` counts, the `bins` frame holds, after
the rows of the histograms before it and before the rows of the histograms
after it, a block of exactly `n` rows; the row `j` of the block has the key `i`,
the lower bound `bins[j]`, the count `values[j]`, which is inside `values`, and
as upper bound `bins[j + 1]` when `j + 1 < n` and `R_PosInf` when `j + 1 = n`. -/
theorem bins_rows_of_histogram (R_PosInf : D) (manager : ResultFileManager D) (idlist : IDList)
    (i : Nat) (id : ID)
    (hid : (filterIDListByType idlist HISTOGRAM manager false).get? i = some id)
    (hlen : (manager.getHistogram id).bins.length ≤ (manager.getHistogram id).values.length) :
    (exportDataset R_PosInf manager idlist).histograms.get? i =
      some (some
        { histogram_key := i
          runid := (manager.getHistogram id).fileRunRef.runRef.runName
          file := (manager.getHistogram id).fileRunRef.fileRef.fileSystemFilePath
          module := (manager.getHistogram id).moduleNameRef
          name := (manager.getHistogram id).nameRef }) ∧
    ∃ pre block post,
      (exportDataset R_PosInf manager idlist).bins = pre ++ block ++ post ∧
      block.length = (manager.getHistogram id).bins.length ∧
      (∀ e ∈ pre, ∃ row, e = some row ∧ row.histogram_key < i) ∧
      (∀ e ∈ post, ∃ row, e = some row ∧ i < row.histogram_key) ∧
      ∀ j, j < (manager.getHistogram id).bins.length →
        ∃ b v ub,
          (manager.getHistogram id).bins.get? j = some b ∧
          (manager.getHistogram id).values.get? j = some v ∧
          block.get? j =
            some (some { histogram_key := i, lowerbound := b, upperbound := ub, count := some v }) ∧
          (j + 1 < (manager.getHistogram id).bins.length →
            (manager.getHistogram id).bins.get? (j + 1) = some ub) ∧
          (j + 1 = (manager.getHistogram id).bins.length → ub = R_PosInf) := by
  obtain ⟨a, b, heq, ha, hb⟩ :=
    rowsFrom_split (binRowsOf R_PosInf manager) 0 _ i id hid
  rw [Nat.zero_add] at heq
  refine ⟨by
    rw [exportDataset_histograms]
    exact (get?_map_some_rowsFrom (histogramRowOf manager) _ i id hid).1, ?_⟩
  refine ⟨a.map some, (binRowsOf R_PosInf manager i id).map some, b.map some, ?_, ?_, ?_, ?_, ?_⟩
  · rw [exportDataset_bins, heq]
    simp
  · simp [binRowsOf, length_rowsFrom_singleton]
  · intro e he
    obtain ⟨r, hr, rfl⟩ := List.mem_map.1 he
    obtain ⟨j, y, hj, hr2⟩ := ha r hr
    refine ⟨r, rfl, ?_⟩
    rw [histogram_key_of_mem_binRowsOf _ _ _ _ _ hr2]
    omega
  · intro e he
    obtain ⟨r, hr, rfl⟩ := List.mem_map.1 he
    obtain ⟨j, y, hj, hr2⟩ := hb r hr
    refine ⟨r, rfl, ?_⟩
    rw [histogram_key_of_mem_binRowsOf _ _ _ _ _ hr2]
    omega
  · intro j hj
    have hjv : j < (manager.getHistogram id).values.length := Nat.lt_of_lt_of_le hj hlen
    have hb1 : (manager.getHistogram id).bins.get? j = some ((manager.getHistogram id).bins.get ⟨j, hj⟩) :=
      List.get?_eq_get hj
    have hv1 : (manager.getHistogram id).values.get? j =
        some ((manager.getHistogram id).values.get ⟨j, hjv⟩) := List.get?_eq_get hjv
    refine ⟨_, _,
      if j + 1 < (manager.getHistogram id).bins.length then
        (manager.getHistogram id).bins.getD (j + 1) R_PosInf
      else R_PosInf, hb1, hv1, ?_, ?_, ?_⟩
    · rw [get?_binRowsOf R_PosInf manager i id j _ hb1]
      simp only [binRowOf, hv1]
    · intro h
      simp only [h, if_true]
      simp [List.getD_eq_getElem?_getD, List.getElem?_eq_getElem h]
    · intro h
      have : ¬ (j + 1 < (manager.getHistogram id).bins.length) := by omega
      simp [this]

/-- C4 on the sample store: the lower bounds `[0, 10, 20]` give the upper
bounds `[10, 20, R_PosInf]`, with 999 standing for `R_PosInf`. -/
theorem bins_rows_of_histogram_witness :
    (filterIDListByType [Sample.s0, Sample.h0] HISTOGRAM Sample.manager false).get? 0 =
        some Sample.h0 ∧
    (Sample.manager.getHistogram Sample.h0).bins.length ≤
        (Sample.manager.getHistogram Sample.h0).values.length ∧
    (exportDataset 999 Sample.manager [Sample.s0, Sample.h0]).bins =
      [some { histogram_key := 0, lowerbound := 0, upperbound := 10, count := some 4 },
        some { histogram_key := 0, lowerbound := 10, upperbound := 20, count := some 5 },
        some { histogram_key := 0, lowerbound := 20, upperbound := 999, count := some 6 }] ∧
    ∃ pre block post,
      (exportDataset 999 Sample.manager [Sample.s0, Sample.h0]).bins = pre ++ block ++ post ∧
        block.length = (Sample.manager.getHistogram Sample.h0).bins.length :=
  ⟨by decide, by decide, by decide,
    (bins_rows_of_histogram 999 Sample.manager [Sample.s0, Sample.h0] 0 Sample.h0 (by decide)
      (by decide)).2.imp
      (fun _ h => h.imp (fun _ h => h.imp (fun _ h => ⟨h.1, h.2.1⟩)))⟩

/-- C8. When every command of a command list (not empty) has a type entry
whose first element is `scalar` and the commands run, on an empty `out`, to the
identifier list `idlist`, then `callLoadDataset` returns the export of
`idlist`, whose `vectors`, `histograms`, `fields` and `bins` frames have no row
and whose `attributes` rows all have the type `scalar`; the store is assumed to
return scalar identifiers only from `getAllScalars` and a subset of its input
from the pattern filter. -/
theorem scalar_commands_export_scalars_only (R_PosInf : D)
    (loadFile : ResultFileManager D → String → Except Failure (ResultFileManager D))
    (files : SEXP) (manager m : ResultFileManager D) (idlist : IDList)
    (cs : List (String × SEXP)) (hne : cs ≠ [])
    (htype : ∀ c ∈ cs, ∃ rest, getElementByName c.2 "type" = SEXP.character ("scalar" :: rest))
    (hrun : executeCommands loadFile files (SEXP.list cs) manager [] = Except.ok (m, idlist))
    (hscalars : ∀ id ∈ m.getAllScalars false false, getTypeOf id = SCALAR)
    (hfilter : ∀ l pattern, ∀ id ∈ m.filterIDList l pattern, id ∈ l) :
    callLoadDataset R_PosInf loadFile manager files (SEXP.list cs) =
      Except.ok (exportDataset R_PosInf m idlist) ∧
    (exportDataset R_PosInf m idlist).vectors = [] ∧
    (exportDataset R_PosInf m idlist).histograms = [] ∧
    (exportDataset R_PosInf m idlist).fields = [] ∧
    (exportDataset R_PosInf m idlist).bins = [] ∧
    ∀ e ∈ (exportDataset R_PosInf m idlist).attributes, ∃ row, e = some row ∧ row.type = "scalar" := by
  obtain ⟨_, hfold⟩ := (executeCommands_list_ok loadFile files manager m [] idlist cs hne).1 hrun
  have hsel : ∀ pattern, ∀ id ∈ selectIDs SCALAR pattern m, getTypeOf id = SCALAR := by
    intro pattern id hid
    rw [selectIDs_scalar] at hid
    have h1 := hfilter _ _ id hid
    rcases (IDList.mem_merge _ _ _).1 h1 with h2 | h2
    · simp at h2
    · exact hscalars id h2
  have hall : ∀ id ∈ idlist, getTypeOf id = SCALAR := by
    refine foldlM_executeCommand_invariant m (fun o => ∀ id ∈ o, getTypeOf id = SCALAR) _ ?_
      [] idlist hfold (by simp)
    intro c hc o r hexec ho id hid
    obtain ⟨nc, hnc, rfl⟩ := List.mem_map.1 hc
    obtain ⟨_, type, pattern, _, ht, _, hres⟩ := executeCommand_ok_inv m o r nc.2 hexec
    obtain ⟨rest, hrest⟩ := htype nc hnc
    rw [hrest] at ht
    have ht2 : type = SCALAR := by
      simp only [checkType, if_true, Except.ok.injEq] at ht
      exact ht.symm
    subst ht2
    rcases hres with ⟨_, rfl⟩ | ⟨_, rfl⟩
    · rcases (IDList.mem_merge _ _ _).1 hid with h1 | h1
      · exact ho id h1
      · exact hsel pattern id h1
    · exact ho id ((IDList.mem_substract _ _ _).1 hid).1
  have hv : filterIDListByType idlist VECTOR m false = [] :=
    filterIDListByType_eq_nil _ _ _ _ (fun id hid => by rw [hall id hid]; decide)
  have hh : filterIDListByType idlist HISTOGRAM m false = [] :=
    filterIDListByType_eq_nil _ _ _ _ (fun id hid => by rw [hall id hid]; decide)
  refine ⟨callLoadDataset_ok R_PosInf loadFile manager m files _ idlist hrun, ?_, ?_, ?_, ?_, ?_⟩
  · rw [exportDataset_vectors, hv]; rfl
  · rw [exportDataset_histograms, hh]; rfl
  · rw [exportDataset_fields, hh]; rfl
  · rw [exportDataset_bins, hh]; rfl
  · intro e he
    rw [exportDataset_attributes, hv, hh, List.mem_map] at he
    obtain ⟨row, hrow, rfl⟩ := he
    simp only [rowsFrom, List.append_nil] at hrow
    exact ⟨row, rfl, (mem_attributeRows _ _ _ _ hrow).1⟩

/-- C8 on the sample store: `add scalar` followed by `discard scalar` with a
pattern leaves the scalar `s2`. -/
theorem scalar_commands_export_scalars_only_witness :
    executeCommands Sample.loadFile Sample.files
        (SEXP.list [("", Sample.addScalars), ("", Sample.discardScalarsPattern)])
        Sample.manager [] = Except.ok (Sample.manager, [Sample.s2]) ∧
    (exportDataset 999 Sample.manager [Sample.s2]).vectors = [] ∧
    (exportDataset 999 Sample.manager [Sample.s2]).histograms = [] ∧
    (exportDataset 999 Sample.manager [Sample.s2]).attributes =
      [some { type := "scalar", key := 0, name := "unit", value := "s" }] :=
  ⟨rfl,
    (scalar_commands_export_scalars_only 999 Sample.loadFile Sample.files Sample.manager
      Sample.manager [Sample.s2]
      [("", Sample.addScalars), ("", Sample.discardScalarsPattern)] (by simp)
      (fun c hc => by
        simp only [List.mem_cons, List.mem_singleton, List.not_mem_nil, or_false] at hc
        rcases hc with rfl | rfl <;> exact ⟨[], rfl⟩)
      rfl (by decide)
      (fun l pattern id hid => by
        cases pattern with
        | none => exact hid
        | some _ => exact (List.mem_filter.1 hid).1)).2.1,
    by decide, by decide⟩

end ExporterClaims

/-! ## Further claims: tables, counts, failures, invariants -/

section FurtherClaims

variable {D : Type}

theorem foldl_writeRows_flatMap {α R : Type} (g : α → List R) (xs : List α)
    (st : DataFrame R × Nat) :
    xs.foldl (fun st x => writeRows st (g x)) st = writeRows st (xs.flatMap g) := by
  induction xs generalizing st with
  | nil => rfl
  | cons x xs ih =>
    simp only [List.foldl_cons, ih, writeRows_append, List.flatMap_cons]

theorem rowsFrom_singleton_const {α R : Type} (f : α → R) (k : Nat) (xs : List α) :
    rowsFrom (fun _ x => [f x]) k xs = xs.map f := by
  induction xs generalizing k with
  | nil => rfl
  | cons x xs ih => simp [rowsFrom, ih]

theorem countRuns_aux (runList : List Run) (c : Nat × Nat) :
    runList.foldl
        (fun c run => (c.1 + run.moduleParams.length, c.2 + run.attributes.length)) c =
      (c.1 + (runList.map (fun run => run.moduleParams.length)).sum,
        c.2 + (runList.map (fun run => run.attributes.length)).sum) := by
  induction runList generalizing c with
  | nil => simp
  | cons run runs ih =>
    simp only [List.foldl_cons, ih, List.map_cons, List.sum_cons]
    ext <;> simp <;> omega

theorem countRuns_fst (runList : List Run) :
    (countRuns runList).1 = (runList.map (fun run => run.moduleParams.length)).sum := by
  simp [countRuns, countRuns_aux]

theorem countRuns_snd (runList : List Run) :
    (countRuns runList).2 = (runList.map (fun run => run.attributes.length)).sum := by
  simp [countRuns, countRuns_aux]

theorem fillRuns_eq (runs : DataFrame RunRow) (runList : List Run) :
    fillRuns runs runList =
      writeRows (runs, 0)
        (runList.flatMap (fun run =>
          run.attributes.map (fun it => ({ runid := run.runName, name := it.1, value := it.2 } : RunRow)))) := by
  unfold fillRuns fillRunsWith
  rw [← foldl_writeRows_flatMap]
  congr 1
  funext st run
  exact foldl_setRow_eq_writeRows _ _ _

theorem fillParams_eq (params : DataFrame ParamRow) (runList : List Run) :
    fillParams params runList =
      writeRows (params, 0)
        (runList.flatMap (fun run =>
          run.moduleParams.map (fun it => ({ runid := run.runName, name := it.1, value := it.2 } : ParamRow)))) := by
  unfold fillParams fillParamsWith
  rw [← foldl_writeRows_flatMap]
  congr 1
  funext st run
  exact foldl_setRow_eq_writeRows _ _ _

theorem writeRows_createDataFrame_full {R : Type} (rows : List R) (n : Nat) (h : n = rows.length) :
    writeRows (createDataFrame R n, 0) rows = (rows.map some, n) := by
  subst h
  have := writeRows_fresh ([] : List R) rows 0
  simp only [createDataFrame]
  simp at this
  simp [this]

theorem length_flatMap_runs {R : Type} (runList : List Run) (sel : Run → StringMap)
    (f : Run → String × String → R) :
    (runList.flatMap (fun run => (sel run).map (f run))).length =
      (runList.map (fun run => (sel run).length)).sum := by
  induction runList with
  | nil => rfl
  | cons run runs ih => simp [List.flatMap_cons, ih]

theorem exportDataset_runs (R_PosInf : D) (manager : ResultFileManager D) (idlist : IDList) :
    (exportDataset R_PosInf manager idlist).runs =
      ((manager.getUniqueRuns idlist).flatMap (fun run =>
        run.attributes.map
          (fun it => ({ runid := run.runName, name := it.1, value := it.2 } : RunRow)))).map some := by
  show (fillRuns (createDataFrame RunRow _) _).1 = _
  rw [fillRuns_eq]
  apply writeRows_createDataFrame
  rw [countRuns_snd]
  exact (length_flatMap_runs _ (fun run => run.attributes) _).symm

theorem exportDataset_params (R_PosInf : D) (manager : ResultFileManager D) (idlist : IDList) :
    (exportDataset R_PosInf manager idlist).params =
      ((manager.getUniqueRuns idlist).flatMap (fun run =>
        run.moduleParams.map
          (fun it => ({ runid := run.runName, name := it.1, value := it.2 } : ParamRow)))).map some := by
  show (fillParams (createDataFrame ParamRow _) _).1 = _
  rw [fillParams_eq]
  apply writeRows_createDataFrame
  rw [countRuns_fst]
  exact (length_flatMap_runs _ (fun run => run.moduleParams) _).symm

theorem exportDataset_fileruns (R_PosInf : D) (manager : ResultFileManager D) (idlist : IDList) :
    (exportDataset R_PosInf manager idlist).fileruns =
      ((manager.getUniqueFileRuns idlist).map (fun filerun =>
        ({ runid := filerun.runRef.runName, file := filerun.fileRef.fileSystemFilePath } :
          FilerunRow))).map some := by
  show fillFileruns (createDataFrame FilerunRow _) _ = _
  have h := forEachFrom_setRow (fun df : DataFrame FilerunRow => df)
    (fun i (filerun : FileRun) df =>
      setRow df i ⟨filerun.runRef.runName, filerun.fileRef.fileSystemFilePath⟩)
    (fun _ filerun => (⟨filerun.runRef.runName, filerun.fileRef.fileSystemFilePath⟩ : FilerunRow))
    (fun _ _ _ => rfl) [] (manager.getUniqueFileRuns idlist) 0
    (createDataFrame FilerunRow (manager.getUniqueFileRuns idlist).length)
    (createDataFrame_eq _ _)
  rw [rowsFrom_singleton_const] at h
  simpa [fillFileruns, forEach] using h

/-- C14. The `runs` frame holds exactly one row `(runName, attrName, attrValue)`
for each attribute of each run the unique-runs query returns for the
identifier list, the `params` frame one row for each module parameter of each
such run, run after run in the order of the query and attribute after
attribute in the order of the map; the `fileruns` frame holds exactly one row
`(runName, filePath)` for each file-run the unique-file-runs query returns, in
the order of the query. -/
theorem runs_params_fileruns_rows (R_PosInf : D) (manager : ResultFileManager D)
    (idlist : IDList) :
    (exportDataset R_PosInf manager idlist).runs =
      (manager.getUniqueRuns idlist).flatMap (fun run =>
        run.attributes.map (fun it => some { runid := run.runName, name := it.1, value := it.2 })) ∧
    (exportDataset R_PosInf manager idlist).params =
      (manager.getUniqueRuns idlist).flatMap (fun run =>
        run.moduleParams.map (fun it => some { runid := run.runName, name := it.1, value := it.2 })) ∧
    (exportDataset R_PosInf manager idlist).fileruns =
      (manager.getUniqueFileRuns idlist).map (fun filerun =>
        some { runid := filerun.runRef.runName, file := filerun.fileRef.fileSystemFilePath }) := by
  refine ⟨?_, ?_, ?_⟩
  · rw [exportDataset_runs, List.map_flatMap]
    simp only [List.map_map]
    rfl
  · rw [exportDataset_params, List.map_flatMap]
    simp only [List.map_map]
    rfl
  · rw [exportDataset_fileruns, List.map_map]
    rfl

/-- C14 on the sample store with two files sharing one run: the rows of one
run in `runs` and `params`, two rows with that run name in `fileruns`. -/
theorem runs_params_fileruns_rows_witness :
    (exportDataset 999 Sample.twoFileManager [Sample.s0, Sample.v0]).runs =
      [some { runid := "General-0", name := "configname", value := "General" },
        some { runid := "General-0", name := "runnumber", value := "0" }] ∧
    (exportDataset 999 Sample.twoFileManager [Sample.s0, Sample.v0]).params =
      [some { runid := "General-0", name := "**.n", value := "3" }] ∧
    (exportDataset 999 Sample.twoFileManager [Sample.s0, Sample.v0]).fileruns =
      [some { runid := "General-0", file := "r1.sca" },
        some { runid := "General-0", file := "r1.vec" }] :=
  ⟨(runs_params_fileruns_rows 999 Sample.twoFileManager [Sample.s0, Sample.v0]).1.trans
      (by decide),
    (runs_params_fileruns_rows 999 Sample.twoFileManager [Sample.s0, Sample.v0]).2.1.trans
      (by decide),
    (runs_params_fileruns_rows 999 Sample.twoFileManager [Sample.s0, Sample.v0]).2.2.trans
      (by decide)⟩

theorem length_map_some_rowsFrom {α R : Type} (f : Nat → α → R) (xs : List α) :
    ((rowsFrom (fun i x => [f i x]) 0 xs).map some).length = xs.length := by
  rw [List.length_map, length_rowsFrom_singleton]

/-- C12. The `scalars` frame has one row per identifier of the scalar list
`filterIDListByType(idlist, SCALAR)`, the `vectors` frame one per identifier of
the vector list and the `histograms` frame one per identifier of the histogram
list; the row `i` is the one of the identifier at the position `i` of that
list, holds `i` as its key and the run name, the file path, the module, the
name (and the value or the vector id) of the result the store resolves for
the identifier.  The three lists hold the scalar identifiers of `idlist` that
are not fields, its vector identifiers and its histogram identifiers, in the
order of `idlist`: they are sublists of it with exactly these members, and the
filtered `idlist` itself when `idlist` has no duplicates. -/
theorem item_tables_rows (R_PosInf : D) (manager : ResultFileManager D) (idlist : IDList) :
    ((exportDataset R_PosInf manager idlist).scalars.length =
        (filterIDListByType idlist SCALAR manager false).length ∧
      ∀ i id, (filterIDListByType idlist SCALAR manager false).get? i = some id →
        (exportDataset R_PosInf manager idlist).scalars.get? i =
          some (some
            { scalar_key := i
              runid := (manager.getScalar id).fileRunRef.runRef.runName
              file := (manager.getScalar id).fileRunRef.fileRef.fileSystemFilePath
              module := (manager.getScalar id).moduleNameRef
              name := (manager.getScalar id).nameRef
              value := (manager.getScalar id).value })) ∧
    ((exportDataset R_PosInf manager idlist).vectors.length =
        (filterIDListByType idlist VECTOR manager false).length ∧
      ∀ i id, (filterIDListByType idlist VECTOR manager false).get? i = some id →
        (exportDataset R_PosInf manager idlist).vectors.get? i =
          some (some
            { vector_key := i
              runid := (manager.getVector id).fileRunRef.runRef.runName
              file := (manager.getVector id).fileRunRef.fileRef.fileSystemFilePath
              vectorid := (manager.getVector id).vectorId
              module := (manager.getVector id).moduleNameRef
              name := (manager.getVector id).nameRef })) ∧
    ((exportDataset R_PosInf manager idlist).histograms.length =
        (filterIDListByType idlist HISTOGRAM manager false).length ∧
      ∀ i id, (filterIDListByType idlist HISTOGRAM manager false).get? i = some id →
        (exportDataset R_PosInf manager idlist).histograms.get? i =
          some (some
            { histogram_key := i
              runid := (manager.getHistogram id).fileRunRef.runRef.runName
              file := (manager.getHistogram id).fileRunRef.fileRef.fileSystemFilePath
              module := (manager.getHistogram id).moduleNameRef
              name := (manager.getHistogram id).nameRef })) ∧
    ((∀ id, id ∈ filterIDListByType idlist SCALAR manager false ↔
        id ∈ idlist ∧ getTypeOf id = SCALAR ∧ (manager.getScalar id).isField = false) ∧
      (∀ id, id ∈ filterIDListByType idlist VECTOR manager false ↔
        id ∈ idlist ∧ getTypeOf id = VECTOR) ∧
      (∀ id, id ∈ filterIDListByType idlist HISTOGRAM manager false ↔
        id ∈ idlist ∧ getTypeOf id = HISTOGRAM)) ∧
    ((filterIDListByType idlist SCALAR manager false).Sublist idlist ∧
      (filterIDListByType idlist VECTOR manager false).Sublist idlist ∧
      (filterIDListByType idlist HISTOGRAM manager false).Sublist idlist) ∧
    (idlist.Nodup →
      filterIDListByType idlist SCALAR manager false =
          idlist.filter (fun id =>
            decide (getTypeOf id = SCALAR ∧ (manager.getScalar id).isField = false)) ∧
        filterIDListByType idlist VECTOR manager false =
          idlist.filter (fun id => decide (getTypeOf id = VECTOR)) ∧
        filterIDListByType idlist HISTOGRAM manager false =
          idlist.filter (fun id => decide (getTypeOf id = HISTOGRAM))) := by
  refine ⟨⟨?_, ?_⟩, ⟨?_, ?_⟩, ⟨?_, ?_⟩, ⟨?_, ?_, ?_⟩,
    ⟨filterIDListByType_sublist _ _ _ _, filterIDListByType_sublist _ _ _ _,
      filterIDListByType_sublist _ _ _ _⟩, ?_⟩
  · rw [exportDataset_scalars]
    exact length_map_some_rowsFrom (scalarRowOf manager) _
  · intro i id h
    rw [exportDataset_scalars]
    exact (get?_map_some_rowsFrom (scalarRowOf manager) _ i id h).1
  · rw [exportDataset_vectors]
    exact length_map_some_rowsFrom (vectorRowOf manager) _
  · intro i id h
    rw [exportDataset_vectors]
    exact (get?_map_some_rowsFrom (vectorRowOf manager) _ i id h).1
  · rw [exportDataset_histograms]
    exact length_map_some_rowsFrom (histogramRowOf manager) _
  · intro i id h
    rw [exportDataset_histograms]
    exact (get?_map_some_rowsFrom (histogramRowOf manager) _ i id h).1
  · intro id
    rw [mem_filterIDListByType]
    simp
  · intro id
    rw [mem_filterIDListByType]
    have : VECTOR ≠ SCALAR := by decide
    simp [this]
  · intro id
    rw [mem_filterIDListByType]
    have : HISTOGRAM ≠ SCALAR := by decide
    simp [this]
  · intro hn
    refine ⟨?_, ?_, ?_⟩
    · rw [filterIDListByType_of_nodup _ _ _ _ hn]
      congr 1
      funext id
      simp
    · rw [filterIDListByType_of_nodup _ _ _ _ hn]
      congr 1
      funext id
      have : VECTOR ≠ SCALAR := by decide
      simp [this]
    · rw [filterIDListByType_of_nodup _ _ _ _ hn]
      congr 1
      funext id
      have : HISTOGRAM ≠ SCALAR := by decide
      simp [this]

/-- C12 on the sample store: the field scalar `s1` has no row and the keys
count the rows. -/
theorem item_tables_rows_witness :
    [Sample.v0, Sample.s0, Sample.s1, Sample.s2, Sample.h0].Nodup ∧
    filterIDListByType [Sample.v0, Sample.s0, Sample.s1, Sample.s2, Sample.h0] SCALAR
        Sample.manager false = [Sample.s0, Sample.s2] ∧
    (exportDataset 999 Sample.manager
        [Sample.v0, Sample.s0, Sample.s1, Sample.s2, Sample.h0]).scalars.get? 1 =
      some (some
        { scalar_key := 1
          runid := "General-0"
          file := "r1.sca"
          module := "Net.host"
          name := "pk"
          value := 9 }) :=
  ⟨by decide,
    ((item_tables_rows 999 Sample.manager
      [Sample.v0, Sample.s0, Sample.s1, Sample.s2, Sample.h0]).2.2.2.2.2 (by decide)).1.trans
      (by decide),
    (item_tables_rows 999 Sample.manager
      [Sample.v0, Sample.s0, Sample.s1, Sample.s2, Sample.h0]).1.2 1 Sample.s2 (by decide)⟩

theorem pairwise_key_rowsFrom {α R : Type} (g : Nat → α → List R) (key : R → Nat)
    (hkey : ∀ i x, ∀ r ∈ g i x, key r = i) (k : Nat) (xs : List α) :
    (rowsFrom g k xs).Pairwise (fun a b => key a ≤ key b) := by
  induction xs generalizing k with
  | nil => exact List.Pairwise.nil
  | cons x xs ih =>
    simp only [rowsFrom]
    rw [List.pairwise_append]
    refine ⟨?_, ih (k + 1), ?_⟩
    · rw [List.pairwise_iff_forall_sublist]
      intro a b hab
      have ha := hab.subset (List.mem_cons_self a [b])
      have hb := hab.subset (List.mem_cons_of_mem a (List.mem_singleton_self b))
      rw [hkey k x a ha, hkey k x b hb]
    · intro a ha b hb
      obtain ⟨j, y, _, hr⟩ := (mem_rowsFrom _ _ _ _).1 hb
      rw [hkey k x a ha, hkey _ y b hr]
      omega

theorem countP_key_rowsFrom {α R : Type} (g : Nat → α → List R) (key : R → Nat)
    (hkey : ∀ i x, ∀ r ∈ g i x, key r = i) (xs : List α) (k : Nat) (x : α)
    (h : xs.get? k = some x) :
    (rowsFrom g 0 xs).countP (fun r => decide (key r = k)) = (g k x).length := by
  obtain ⟨a, b, heq, ha, hb⟩ := rowsFrom_split g 0 xs k x h
  rw [Nat.zero_add] at heq
  rw [heq, List.countP_append, List.countP_append]
  have h1 : a.countP (fun r => decide (key r = k)) = 0 := by
    rw [List.countP_eq_zero]
    intro r hr
    obtain ⟨j, y, hj, hr2⟩ := ha r hr
    have := hkey _ y r hr2
    simp only [decide_eq_true_eq]
    omega
  have h2 : b.countP (fun r => decide (key r = k)) = 0 := by
    rw [List.countP_eq_zero]
    intro r hr
    obtain ⟨j, y, hj, hr2⟩ := hb r hr
    have := hkey _ y r hr2
    simp only [decide_eq_true_eq]
    omega
  have h3 : (g k x).countP (fun r => decide (key r = k)) = (g k x).length := by
    rw [List.countP_eq_length]
    intro r hr
    simp only [decide_eq_true_eq]
    exact hkey k x r hr
  rw [h1, h2, h3]
  simp

theorem histogram_key_of_mem_fieldRowsOf (manager : ResultFileManager D) (i : Nat) (id : ID)
    (r : FieldRow D) (h : r ∈ fieldRowsOf manager i id) : r.histogram_key = i := by
  simp only [fieldRowsOf, List.mem_map] at h
  obtain ⟨_, _, rfl⟩ := h
  rfl

/-- C13. The entries of the `fields` frame are written rows in non-decreasing
order of their `histogram_key`; the key `k` of a row is below the number of
rows of `histograms`, the row `k` of `histograms` is the one of a histogram
`id` of the histogram list and the `(name, value)` of the row is a field of
that histogram; the number of `fields` rows with the key `k` is the number of
fields of the histogram at the position `k`.  The same holds for the `bins`
frame, a row of which holds a lower bound `bins[j]` of its histogram, the count
`values[j]` and the upper bound `bins[j + 1]` or `R_PosInf`, with the number of
bins in place of the number of fields. -/
theorem fields_bins_reference_histograms (R_PosInf : D) (manager : ResultFileManager D)
    (idlist : IDList) :
    (∃ rows : List (FieldRow D),
      (exportDataset R_PosInf manager idlist).fields = rows.map some ∧
      rows.Pairwise (fun a b => a.histogram_key ≤ b.histogram_key) ∧
      (∀ row ∈ rows,
        row.histogram_key < (exportDataset R_PosInf manager idlist).histograms.length ∧
        ∃ id, (filterIDListByType idlist HISTOGRAM manager false).get? row.histogram_key = some id ∧
          (exportDataset R_PosInf manager idlist).histograms.get? row.histogram_key =
            some (some
              { histogram_key := row.histogram_key
                runid := (manager.getHistogram id).fileRunRef.runRef.runName
                file := (manager.getHistogram id).fileRunRef.fileRef.fileSystemFilePath
                module := (manager.getHistogram id).moduleNameRef
                name := (manager.getHistogram id).nameRef }) ∧
          (row.name, row.value) ∈ (manager.getHistogram id).fields) ∧
      ∀ k id, (filterIDListByType idlist HISTOGRAM manager false).get? k = some id →
        rows.countP (fun r => decide (r.histogram_key = k)) =
          (manager.getHistogram id).fields.length) ∧
    (∃ rows : List (BinRow D),
      (exportDataset R_PosInf manager idlist).bins = rows.map some ∧
      rows.Pairwise (fun a b => a.histogram_key ≤ b.histogram_key) ∧
      (∀ row ∈ rows,
        row.histogram_key < (exportDataset R_PosInf manager idlist).histograms.length ∧
        ∃ id, (filterIDListByType idlist HISTOGRAM manager false).get? row.histogram_key = some id ∧
          (exportDataset R_PosInf manager idlist).histograms.get? row.histogram_key =
            some (some
              { histogram_key := row.histogram_key
                runid := (manager.getHistogram id).fileRunRef.runRef.runName
                file := (manager.getHistogram id).fileRunRef.fileRef.fileSystemFilePath
                module := (manager.getHistogram id).moduleNameRef
                name := (manager.getHistogram id).nameRef }) ∧
          ∃ j, (manager.getHistogram id).bins.get? j = some row.lowerbound ∧
            row.count = (manager.getHistogram id).values.get? j ∧
            row.upperbound =
              if j + 1 < (manager.getHistogram id).bins.length then
                (manager.getHistogram id).bins.getD (j + 1) R_PosInf
              else R_PosInf) ∧
      ∀ k id, (filterIDListByType idlist HISTOGRAM manager false).get? k = some id →
        rows.countP (fun r => decide (r.histogram_key = k)) =
          (manager.getHistogram id).bins.length) := by
  constructor
  · refine ⟨_, exportDataset_fields R_PosInf manager idlist,
      pairwise_key_rowsFrom _ _ (histogram_key_of_mem_fieldRowsOf manager) 0 _, ?_, ?_⟩
    · intro row hrow
      obtain ⟨j, id, hj, hr⟩ := (mem_rowsFrom _ _ _ _).1 hrow
      have hkey := histogram_key_of_mem_fieldRowsOf manager _ id row hr
      rw [Nat.zero_add] at hkey
      rw [exportDataset_histograms, hkey]
      obtain ⟨hget, hlt⟩ := get?_map_some_rowsFrom (histogramRowOf manager) _ j id hj
      refine ⟨hlt, id, hj, hget, ?_⟩
      simp only [fieldRowsOf, List.mem_map] at hr
      obtain ⟨it, hit, rfl⟩ := hr
      exact hit
    · intro k id hk
      rw [countP_key_rowsFrom _ _ (histogram_key_of_mem_fieldRowsOf manager) _ k id hk]
      simp [fieldRowsOf]
  · refine ⟨_, exportDataset_bins R_PosInf manager idlist,
      pairwise_key_rowsFrom _ _ (histogram_key_of_mem_binRowsOf R_PosInf manager) 0 _, ?_, ?_⟩
    · intro row hrow
      obtain ⟨j, id, hj, hr⟩ := (mem_rowsFrom _ _ _ _).1 hrow
      have hkey := histogram_key_of_mem_binRowsOf R_PosInf manager _ id row hr
      rw [Nat.zero_add] at hkey
      rw [exportDataset_histograms, hkey]
      obtain ⟨hget, hlt⟩ := get?_map_some_rowsFrom (histogramRowOf manager) _ j id hj
      refine ⟨hlt, id, hj, hget, ?_⟩
      obtain ⟨i, b, hi, hb⟩ := (mem_rowsFrom _ _ _ _).1 hr
      rw [List.mem_singleton] at hb
      simp only [Nat.zero_add] at hb
      subst hb
      exact ⟨i, hi, rfl, rfl⟩
    · intro k id hk
      rw [countP_key_rowsFrom _ _ (histogram_key_of_mem_binRowsOf R_PosInf manager) _ k id hk]
      simp [binRowsOf, length_rowsFrom_singleton]

/-- C13 on the sample store with the histogram listed after a scalar: the
two field rows and the three bin rows carry the key 0 of the histogram row. -/
theorem fields_bins_reference_histograms_witness :
    (exportDataset 999 Sample.manager [Sample.s0, Sample.h0]).fields =
      [some { histogram_key := 0, name := "count", value := 15 },
        some { histogram_key := 0, name := "mean", value := 11 }] ∧
    ∃ rows : List (BinRow Nat),
      (exportDataset 999 Sample.manager [Sample.s0, Sample.h0]).bins = rows.map some ∧
        rows.Pairwise (fun a b => a.histogram_key ≤ b.histogram_key) :=
  ⟨by decide,
    (fields_bins_reference_histograms 999 Sample.manager [Sample.s0, Sample.h0]).2.imp
      (fun _ h => ⟨h.1, h.2.1⟩)⟩

theorem length_attributeRows_scalar (manager : ResultFileManager D) (idlist : IDList) :
    (rowsFrom (attributeRowsOf "scalar" manager) 0
        (filterIDListByType idlist SCALAR manager false)).length =
      ((filterIDListByType idlist SCALAR manager false).map
        (fun id => (manager.getScalar id).attributes.length)).sum :=
  length_rowsFrom (attributeRowsOf "scalar" manager)
    (fun id => (manager.getScalar id).attributes.length) 0 _
    (fun i id hid => by
      simp [attributeRowsOf,
        getItem_of_scalar manager id ((mem_filterIDListByType _ _ _ _ _).1 hid).2.1])

theorem length_attributeRows_vector (manager : ResultFileManager D) (idlist : IDList) :
    (rowsFrom (attributeRowsOf "vector" manager) 0
        (filterIDListByType idlist VECTOR manager false)).length =
      ((filterIDListByType idlist VECTOR manager false).map
        (fun id => (manager.getVector id).attributes.length)).sum :=
  length_rowsFrom (attributeRowsOf "vector" manager)
    (fun id => (manager.getVector id).attributes.length) 0 _
    (fun i id hid => by
      simp [attributeRowsOf,
        getItem_of_vector manager id ((mem_filterIDListByType _ _ _ _ _).1 hid).2.1])

theorem length_attributeRows_histogram (manager : ResultFileManager D) (idlist : IDList) :
    (rowsFrom (attributeRowsOf "histogram" manager) 0
        (filterIDListByType idlist HISTOGRAM manager false)).length =
      ((filterIDListByType idlist HISTOGRAM manager false).map
        (fun id => (manager.getHistogram id).attributes.length)).sum :=
  length_rowsFrom (attributeRowsOf "histogram" manager)
    (fun id => (manager.getHistogram id).attributes.length) 0 _
    (fun i id hid => by
      simp [attributeRowsOf,
        getItem_of_histogram manager id ((mem_filterIDListByType _ _ _ _ _).1 hid).2.1])

theorem runid_in_runs_of_mem (R_PosInf : D) (manager : ResultFileManager D) (idlist : IDList)
    (run : Run) (hrun : run ∈ manager.getUniqueRuns idlist) (hattr : run.attributes ≠ []) :
    ∃ r, some r ∈ (exportDataset R_PosInf manager idlist).runs ∧ r.runid = run.runName := by
  obtain ⟨it, hit⟩ := List.exists_mem_of_ne_nil _ hattr
  refine ⟨{ runid := run.runName, name := it.1, value := it.2 }, ?_, rfl⟩
  rw [exportDataset_runs]
  exact List.mem_map.2 ⟨_, List.mem_flatMap.2 ⟨run, hrun, List.mem_map.2 ⟨it, hit, rfl⟩⟩, rfl⟩

/-- C15, as stated, fails: in a store whose only run has no attribute, the
unique-runs query returns the run of the exported scalar and of the file-run,
the `scalars` and `fileruns` frames hold a row with the run name `Bare-0`, and
the `runs` frame has no row at all. -/
theorem runid_without_runs_row :
    (Sample.bareManager.getScalar Sample.s0).fileRunRef.runRef ∈
        Sample.bareManager.getUniqueRuns [Sample.s0] ∧
    (∀ filerun ∈ Sample.bareManager.getUniqueFileRuns [Sample.s0],
      filerun.runRef ∈ Sample.bareManager.getUniqueRuns [Sample.s0]) ∧
    (exportDataset 999 Sample.bareManager [Sample.s0]).scalars =
      [some { scalar_key := 0, runid := "Bare-0", file := "bare.sca", module := "Net", name := "pk", value := 1 }] ∧
    (exportDataset 999 Sample.bareManager [Sample.s0]).fileruns =
      [some { runid := "Bare-0", file := "bare.sca" }] ∧
    (exportDataset 999 Sample.bareManager [Sample.s0]).runs = [] :=
  ⟨by decide, by decide, by decide, by decide, by decide⟩

/-- C15, amended. When the unique-runs query returns the run of every item of
the identifier list and of every file-run of the unique-file-runs query, the
`runid` of every row of `fileruns`, `scalars`, `vectors` and `histograms` is
the name of a run the unique-runs query returns, and it is the `runid` of a
row of `runs` whenever that run has at least one attribute. -/
theorem runids_reference_runs (R_PosInf : D) (manager : ResultFileManager D) (idlist : IDList)
    (hscalar : ∀ id ∈ idlist, getTypeOf id = SCALAR →
      (manager.getScalar id).fileRunRef.runRef ∈ manager.getUniqueRuns idlist)
    (hvector : ∀ id ∈ idlist, getTypeOf id = VECTOR →
      (manager.getVector id).fileRunRef.runRef ∈ manager.getUniqueRuns idlist)
    (hhistogram : ∀ id ∈ idlist, getTypeOf id = HISTOGRAM →
      (manager.getHistogram id).fileRunRef.runRef ∈ manager.getUniqueRuns idlist)
    (hfilerun : ∀ filerun ∈ manager.getUniqueFileRuns idlist,
      filerun.runRef ∈ manager.getUniqueRuns idlist) :
    (∀ row, some row ∈ (exportDataset R_PosInf manager idlist).fileruns →
      ∃ run ∈ manager.getUniqueRuns idlist, run.runName = row.runid ∧
        (run.attributes ≠ [] →
          ∃ r, some r ∈ (exportDataset R_PosInf manager idlist).runs ∧ r.runid = row.runid)) ∧
    (∀ row, some row ∈ (exportDataset R_PosInf manager idlist).scalars →
      ∃ run ∈ manager.getUniqueRuns idlist, run.runName = row.runid ∧
        (run.attributes ≠ [] →
          ∃ r, some r ∈ (exportDataset R_PosInf manager idlist).runs ∧ r.runid = row.runid)) ∧
    (∀ row, some row ∈ (exportDataset R_PosInf manager idlist).vectors →
      ∃ run ∈ manager.getUniqueRuns idlist, run.runName = row.runid ∧
        (run.attributes ≠ [] →
          ∃ r, some r ∈ (exportDataset R_PosInf manager idlist).runs ∧ r.runid = row.runid)) ∧
    (∀ row, some row ∈ (exportDataset R_PosInf manager idlist).histograms →
      ∃ run ∈ manager.getUniqueRuns idlist, run.runName = row.runid ∧
        (run.attributes ≠ [] →
          ∃ r, some r ∈ (exportDataset R_PosInf manager idlist).runs ∧ r.runid = row.runid)) := by
  refine ⟨?_, ?_, ?_, ?_⟩
  · intro row hrow
    rw [exportDataset_fileruns, List.mem_map] at hrow
    obtain ⟨r0, hr0, hsome⟩ := hrow
    obtain ⟨filerun, hfr, rfl⟩ := List.mem_map.1 hr0
    cases hsome
    exact ⟨filerun.runRef, hfilerun filerun hfr, rfl,
      runid_in_runs_of_mem R_PosInf manager idlist _ (hfilerun filerun hfr)⟩
  · intro row hrow
    rw [exportDataset_scalars, List.mem_map] at hrow
    obtain ⟨r0, hr0, hsome⟩ := hrow
    cases hsome
    obtain ⟨j, id, hj, hr⟩ := (mem_rowsFrom _ _ _ _).1 hr0
    obtain ⟨hmem, hkind, _⟩ := mem_of_get?_filterIDListByType _ _ _ _ _ hj
    rw [List.mem_singleton] at hr
    subst hr
    exact ⟨_, hscalar id hmem hkind, rfl,
      runid_in_runs_of_mem R_PosInf manager idlist _ (hscalar id hmem hkind)⟩
  · intro row hrow
    rw [exportDataset_vectors, List.mem_map] at hrow
    obtain ⟨r0, hr0, hsome⟩ := hrow
    cases hsome
    obtain ⟨j, id, hj, hr⟩ := (mem_rowsFrom _ _ _ _).1 hr0
    obtain ⟨hmem, hkind, _⟩ := mem_of_get?_filterIDListByType _ _ _ _ _ hj
    rw [List.mem_singleton] at hr
    subst hr
    exact ⟨_, hvector id hmem hkind, rfl,
      runid_in_runs_of_mem R_PosInf manager idlist _ (hvector id hmem hkind)⟩
  · intro row hrow
    rw [exportDataset_histograms, List.mem_map] at hrow
    obtain ⟨r0, hr0, hsome⟩ := hrow
    cases hsome
    obtain ⟨j, id, hj, hr⟩ := (mem_rowsFrom _ _ _ _).1 hr0
    obtain ⟨hmem, hkind, _⟩ := mem_of_get?_filterIDListByType _ _ _ _ _ hj
    rw [List.mem_singleton] at hr
    subst hr
    exact ⟨_, hhistogram id hmem hkind, rfl,
      runid_in_runs_of_mem R_PosInf manager idlist _ (hhistogram id hmem hkind)⟩

/-- C15, amended, on the sample store, whose run has two attributes: the run
name of the scalar row is the `runid` of a row of `runs`. -/
theorem runids_reference_runs_witness :
    (∀ id ∈ [Sample.s0, Sample.v0], getTypeOf id = SCALAR →
      (Sample.manager.getScalar id).fileRunRef.runRef ∈
        Sample.manager.getUniqueRuns [Sample.s0, Sample.v0]) ∧
    (∀ filerun ∈ Sample.manager.getUniqueFileRuns [Sample.s0, Sample.v0],
      filerun.runRef ∈ Sample.manager.getUniqueRuns [Sample.s0, Sample.v0]) ∧
    ∃ run ∈ Sample.manager.getUniqueRuns [Sample.s0, Sample.v0],
      run.runName = "General-0" ∧
        (run.attributes ≠ [] →
          ∃ r, some r ∈ (exportDataset 999 Sample.manager [Sample.s0, Sample.v0]).runs ∧
            r.runid = "General-0") :=
  ⟨by decide, by decide,
    (runids_reference_runs 999 Sample.manager [Sample.s0, Sample.v0] (by decide) (by decide)
      (by decide) (by decide)).2.1
      { scalar_key := 0, runid := "General-0", file := "r1.sca", module := "Net.host", name := "pk", value := 7 }
      (by decide)⟩

theorem executeCommands_append_one
    (loadFile : ResultFileManager D → String → Except Failure (ResultFileManager D))
    (files : SEXP) (manager m : ResultFileManager D) (out r : IDList)
    (pre : List (String × SEXP)) (name : String) (c : SEXP)
    (hload : loadFiles loadFile files manager = Except.ok m)
    (hpre : (pre.map Prod.snd).foldlM (executeCommand m) out = Except.ok r) :
    executeCommands loadFile files (SEXP.list (pre ++ [(name, c)])) manager out =
      (executeCommand m r c).bind (fun r2 => Except.ok (m, r2)) := by
  rw [executeCommands_list loadFile files manager m out _ (by simp) hload, List.map_append,
    foldlM_executeCommand_append, hpre]
  cases hc : executeCommand m r c with
  | error e => simp [Except.bind, List.foldlM, hc, bind]
  | ok r2 => simp [Except.bind, List.foldlM, hc, bind, pure, Except.pure]

/-- C18. The default type mask applies to discard: a discard command without a
type entry, with a select entry that resolves to the pattern `pattern` (or to
no pattern), does not fail; after the commands before it have run to the set
`r`, the command list runs to `r` without the pattern-filtered union of all
non-field scalars, all vectors and all histograms, so no identifier of that
filtered union, of whatever kind, is left, and every other identifier of `r`
stays. -/
theorem discard_default_type
    (loadFile : ResultFileManager D → String → Except Failure (ResultFileManager D))
    (files : SEXP) (manager m : ResultFileManager D) (out r : IDList)
    (pre : List (String × SEXP)) (name : String) (c : SEXP) (pattern : Option String)
    (hload : loadFiles loadFile files manager = Except.ok m)
    (hpre : (pre.map Prod.snd).foldlM (executeCommand m) out = Except.ok r)
    (hop : VECTOR_ELT c 0 = Except.ok (SEXP.symbol "discard"))
    (htype : getElementByName c "type" = SEXP.nil)
    (hselect : checkSelect (getElementByName c "select") = Except.ok pattern) :
    executeCommands loadFile files (SEXP.list (pre ++ [(name, c)])) manager out =
      Except.ok (m,
        r.substract
          (m.filterIDList
            (((IDList.merge [] (m.getAllScalars false false)).merge m.getAllVectors).merge
              m.getAllHistograms) pattern)) ∧
    (∀ x,
      x ∈ ((IDList.merge [] (m.getAllScalars false false)).merge m.getAllVectors).merge
          m.getAllHistograms ↔
        x ∈ m.getAllScalars false false ∨ x ∈ m.getAllVectors ∨ x ∈ m.getAllHistograms) ∧
    (∀ x ∈ m.filterIDList
        (((IDList.merge [] (m.getAllScalars false false)).merge m.getAllVectors).merge
          m.getAllHistograms) pattern,
      x ∉ r.substract
        (m.filterIDList
          (((IDList.merge [] (m.getAllScalars false false)).merge m.getAllVectors).merge
            m.getAllHistograms) pattern)) ∧
    (∀ x ∈ r,
      x ∉ m.filterIDList
        (((IDList.merge [] (m.getAllScalars false false)).merge m.getAllVectors).merge
          m.getAllHistograms) pattern →
      x ∈ r.substract
        (m.filterIDList
          (((IDList.merge [] (m.getAllScalars false false)).merge m.getAllVectors).merge
            m.getAllHistograms) pattern)) := by
  have htype2 : checkType (getElementByName c "type") =
      Except.ok (SCALAR ||| VECTOR ||| HISTOGRAM) := by
    rw [htype]
    rfl
  refine ⟨?_, ?_, ?_, ?_⟩
  · rw [executeCommands_append_one loadFile files manager m out r pre name c hload hpre,
      executeCommand_discard m r c _ pattern hop htype2 hselect, selectIDs_all]
    simp only [IDList.merge_merge]
    rfl
  · intro x
    simp only [IDList.mem_merge, List.not_mem_nil, false_or, or_assoc]
  · intro x hx hx2
    exact ((IDList.mem_substract _ _ _).1 hx2).2 hx
  · intro x hx hx2
    exact (IDList.mem_substract _ _ _).2 ⟨hx, hx2⟩

/-- C18 on the sample store: after `add`, a discard with a pattern and no type
removes the scalar, the vector and the histogram the pattern matches. -/
theorem discard_default_type_witness :
    executeCommands Sample.loadFile Sample.files
        (SEXP.list ([("", Sample.addAll)] ++ [("", Sample.discardPattern)])) Sample.manager [] =
      Except.ok (Sample.manager,
        IDList.substract [Sample.s0, Sample.s2, Sample.v0, Sample.h0]
          [Sample.s0, Sample.v0, Sample.h0]) ∧
    IDList.substract [Sample.s0, Sample.s2, Sample.v0, Sample.h0]
        [Sample.s0, Sample.v0, Sample.h0] = [Sample.s2] :=
  ⟨(discard_default_type Sample.loadFile Sample.files Sample.manager Sample.manager []
      [Sample.s0, Sample.s2, Sample.v0, Sample.h0] [("", Sample.addAll)] ""
      Sample.discardPattern (some "module(Net.host)") rfl rfl rfl rfl rfl).1,
    by decide⟩

/-- C19, as stated, fails: the command
`list(as.symbol("add"), type = "bogus", select = 1)` has a select entry that
is not a character vector, and it fails with `unknown type: bogus`, not with
`select is not a string`, because the type entry is checked first. -/
theorem bad_select_other_error :
    VECTOR_ELT Sample.addBogusNumericSelect 0 = Except.ok (SEXP.symbol "add") ∧
    getElementByName Sample.addBogusNumericSelect "select" = SEXP.atomic AtomicType.real 1 ∧
    checkSelect (getElementByName Sample.addBogusNumericSelect "select") =
      Except.error (Failure.opp "select is not a string") ∧
    executeCommand Sample.manager [] Sample.addBogusNumericSelect =
      Except.error (Failure.opp "unknown type: bogus") ∧
    "unknown type: bogus" ≠ "select is not a string" :=
  ⟨rfl, rfl, rfl, rfl, by decide⟩

/-- C19, amended. The select entry resolves to no pattern exactly when it is
absent (`R_NilValue`), to its first element exactly when it is a character
vector of length at least 1, and in every other case (any value that is not a
character vector, and the empty character vector) its resolution fails with
`select is not a string`; a command whose operator is a symbol and whose type
entry is valid then fails with that error, and no set is returned for it. -/
theorem checkSelect_spec :
    (∀ select : SEXP, checkSelect select = Except.ok none ↔ select = SEXP.nil) ∧
    (∀ (select : SEXP) (s : String), checkSelect select = Except.ok (some s) ↔
      ∃ rest, select = SEXP.character (s :: rest)) ∧
    (∀ select : SEXP, select ≠ SEXP.nil →
      (∀ s rest, select ≠ SEXP.character (s :: rest)) →
      checkSelect select = Except.error (Failure.opp "select is not a string")) ∧
    (∀ (manager : ResultFileManager D) (out : IDList) (c : SEXP) (opname : String) (type : Nat),
      VECTOR_ELT c 0 = Except.ok (SEXP.symbol opname) →
      checkType (getElementByName c "type") = Except.ok type →
      getElementByName c "select" ≠ SEXP.nil →
      (∀ s rest, getElementByName c "select" ≠ SEXP.character (s :: rest)) →
      executeCommand manager out c = Except.error (Failure.opp "select is not a string") ∧
        ∀ r, executeCommand manager out c ≠ Except.ok r) := by
  have h3 : ∀ select : SEXP, select ≠ SEXP.nil →
      (∀ s rest, select ≠ SEXP.character (s :: rest)) →
      checkSelect select = Except.error (Failure.opp "select is not a string") := by
    intro select h1 h2
    cases select with
    | nil => exact absurd rfl h1
    | character v =>
      cases v with
      | nil => rfl
      | cons s rest => exact absurd rfl (h2 s rest)
    | symbol _ => rfl
    | atomic _ _ => rfl
    | list _ => rfl
    | other _ => rfl
  refine ⟨?_, ?_, h3, ?_⟩
  · intro select
    cases select with
    | nil => simp [checkSelect]
    | character v => cases v <;> simp [checkSelect]
    | symbol _ => simp [checkSelect]
    | atomic _ _ => simp [checkSelect]
    | list _ => simp [checkSelect]
    | other _ => simp [checkSelect]
  · intro select s
    cases select with
    | nil => simp [checkSelect]
    | character v => cases v <;> simp [checkSelect]
    | symbol _ => simp [checkSelect]
    | atomic _ _ => simp [checkSelect]
    | list _ => simp [checkSelect]
    | other _ => simp [checkSelect]
  · intro manager out c opname type hop htype hs1 hs2
    have herr : executeCommand manager out c = Except.error (Failure.opp "select is not a string") := by
      rw [executeCommand_of_symbol manager out c opname hop, htype, h3 _ hs1 hs2]
      rfl
    refine ⟨herr, ?_⟩
    intro r hr
    rw [herr] at hr
    cases hr

/-- C19, amended, on concrete commands: an absent select, a select with two
elements, and an empty character vector as select. -/
theorem checkSelect_spec_witness :
    checkSelect (getElementByName Sample.addAll "select") = Except.ok none ∧
    checkSelect (SEXP.character ["a", "b"]) = Except.ok (some "a") ∧
    executeCommand Sample.manager [] Sample.addEmptySelect =
      Except.error (Failure.opp "select is not a string") :=
  ⟨((@checkSelect_spec Nat).1 _).2 rfl,
    ((@checkSelect_spec Nat).2.1 _ "a").2 ⟨["b"], rfl⟩,
    ((@checkSelect_spec Nat).2.2.2 Sample.manager [] Sample.addEmptySelect "add"
      (SCALAR ||| VECTOR ||| HISTOGRAM) rfl rfl (by intro h; cases h)
      (by intro s rest h; cases h)).1⟩

theorem mem_selectIDs (manager : ResultFileManager D) (type : Nat) (pattern : Option String)
    (hfilter : ∀ l pattern, ∀ x ∈ manager.filterIDList l pattern, x ∈ l) (x : ID)
    (h : x ∈ selectIDs type pattern manager) :
    x ∈ manager.getAllScalars false false ∨ x ∈ manager.getAllVectors ∨
      x ∈ manager.getAllHistograms := by
  have h1 := hfilter _ _ x h
  split_ifs at h1 <;> simp only [IDList.mem_merge, List.not_mem_nil, false_or] at h1 <;> tauto

theorem executeCommands_ok_inv
    (loadFile : ResultFileManager D → String → Except Failure (ResultFileManager D))
    (files commands : SEXP) (manager m : ResultFileManager D) (out r : IDList)
    (h : executeCommands loadFile files commands manager out = Except.ok (m, r)) :
    loadFiles loadFile files manager = Except.ok m ∧
      (r = ((out.merge (m.getAllScalars false false)).merge m.getAllVectors).merge
            m.getAllHistograms ∨
        ∃ cmds : List SEXP, cmds.foldlM (executeCommand m) out = Except.ok r) := by
  unfold executeCommands at h
  cases hload : loadFiles loadFile files manager with
  | error e => simp [hload, bind, Except.bind] at h
  | ok m' =>
    simp only [hload, bind, Except.bind] at h
    by_cases h1 : IS_VECTOR commands = true
    · by_cases h2 : GET_LENGTH commands = 0
      · simp only [h1, h2, Bool.not_true, Bool.false_eq_true, if_false, if_true, Except.ok.injEq,
          Prod.mk.injEq] at h
        obtain ⟨rfl, rfl⟩ := h
        exact ⟨rfl, Or.inl rfl⟩
      · simp only [h1, h2, Bool.not_true, Bool.false_eq_true, if_false] at h
        cases he : elements commands with
        | error e => simp [he] at h
        | ok cmds =>
          simp only [he] at h
          cases hf : cmds.foldlM (executeCommand m') out with
          | error e => simp [hf] at h
          | ok r' =>
            simp only [hf, Except.ok.injEq, Prod.mk.injEq] at h
            obtain ⟨rfl, rfl⟩ := h
            exact ⟨rfl, Or.inr ⟨cmds, hf⟩⟩
    · simp [h1] at h

theorem Sample.filterIDList_subset :
    ∀ (l : IDList) (pattern : Option String), ∀ x ∈ Sample.manager.filterIDList l pattern, x ∈ l := by
  intro l pattern x hx
  cases pattern with
  | none => exact hx
  | some _ => exact (List.mem_filter.1 hx).1

/-- C20. Invariant of the interpreter's output: when `executeCommands`, started
on the empty set, runs a command argument (an empty list or not) to the set
`r` on a store whose pattern filter returns only identifiers of its input,
then `r` holds no identifier twice and every identifier of `r` is one of
`getAllScalars` without fields, `getAllVectors` or `getAllHistograms`.  When,
as the queries promise, no scalar of `getAllScalars` without fields is a field
and `getAllVectors` and `getAllHistograms` hold no scalar identifier, no scalar
of `r` is a field, and `filterIDListByType` gives the same scalar list of `r`
with `includeFields = true` as with `includeFields = false`. -/
theorem executeCommands_output_invariant
    (loadFile : ResultFileManager D → String → Except Failure (ResultFileManager D))
    (files commands : SEXP) (manager m : ResultFileManager D) (r : IDList)
    (hrun : executeCommands loadFile files commands manager [] = Except.ok (m, r))
    (hfilter : ∀ l pattern, ∀ x ∈ m.filterIDList l pattern, x ∈ l) :
    r.Nodup ∧
    (∀ x ∈ r,
      x ∈ m.getAllScalars false false ∨ x ∈ m.getAllVectors ∨ x ∈ m.getAllHistograms) ∧
    ((∀ x ∈ m.getAllScalars false false, (m.getScalar x).isField = false) →
      (∀ x ∈ m.getAllVectors, getTypeOf x = VECTOR) →
      (∀ x ∈ m.getAllHistograms, getTypeOf x = HISTOGRAM) →
      (∀ x ∈ r, getTypeOf x = SCALAR → (m.getScalar x).isField = false) ∧
        filterIDListByType r SCALAR m true = filterIDListByType r SCALAR m false) := by
  obtain ⟨_, hr⟩ := executeCommands_ok_inv loadFile files commands manager m [] r hrun
  have hinv : r.Nodup ∧ ∀ x ∈ r,
      x ∈ m.getAllScalars false false ∨ x ∈ m.getAllVectors ∨ x ∈ m.getAllHistograms := by
    rcases hr with rfl | ⟨cmds, hfold⟩
    · refine ⟨IDList.nodup_merge _ _ (IDList.nodup_merge _ _
        (IDList.nodup_merge _ _ List.nodup_nil)), ?_⟩
      intro x hx
      simp only [IDList.mem_merge, List.not_mem_nil, false_or, or_assoc] at hx
      exact hx
    · refine foldlM_executeCommand_invariant m
        (fun o => o.Nodup ∧ ∀ x ∈ o,
          x ∈ m.getAllScalars false false ∨ x ∈ m.getAllVectors ∨ x ∈ m.getAllHistograms)
        cmds ?_ [] r hfold ⟨List.nodup_nil, by simp⟩
      intro c _ o r' hexec ho
      refine ⟨executeCommand_nodup m o r' c hexec ho.1, ?_⟩
      obtain ⟨_, type, pattern, _, _, _, hres⟩ := executeCommand_ok_inv m o r' c hexec
      intro x hx
      rcases hres with ⟨_, rfl⟩ | ⟨_, rfl⟩
      · rcases (IDList.mem_merge _ _ _).1 hx with h1 | h1
        · exact ho.2 x h1
        · exact mem_selectIDs m type pattern hfilter x h1
      · exact ho.2 x ((IDList.mem_substract _ _ _).1 hx).1
  refine ⟨hinv.1, hinv.2, ?_⟩
  intro hnofield hvec hhist
  have hfield : ∀ x ∈ r, getTypeOf x = SCALAR → (m.getScalar x).isField = false := by
    intro x hx hkind
    rcases hinv.2 x hx with h1 | h1 | h1
    · exact hnofield x h1
    · rw [hvec x h1] at hkind
      exact absurd hkind (by decide)
    · rw [hhist x h1] at hkind
      exact absurd hkind (by decide)
  refine ⟨hfield, ?_⟩
  rw [filterIDListByType_eq_merge, filterIDListByType_eq_merge]
  congr 1
  apply List.filter_congr
  intro x hx
  by_cases hkind : getTypeOf x = SCALAR
  · simp [hkind, hfield x hx hkind]
  · simp [hkind]

/-- C20 on the sample store: `add` followed by a discard with a pattern leaves
the scalar `s2`, which is no field. -/
theorem executeCommands_output_invariant_witness :
    executeCommands Sample.loadFile Sample.files
        (SEXP.list [("", Sample.addAll), ("", Sample.discardPattern)]) Sample.manager [] =
      Except.ok (Sample.manager, [Sample.s2]) ∧
    (∀ (l : IDList) (pattern : Option String),
      ∀ x ∈ Sample.manager.filterIDList l pattern, x ∈ l) ∧
    [Sample.s2].Nodup ∧
    filterIDListByType [Sample.s2] SCALAR Sample.manager true =
      filterIDListByType [Sample.s2] SCALAR Sample.manager false :=
  ⟨rfl, Sample.filterIDList_subset,
    (executeCommands_output_invariant Sample.loadFile Sample.files
      (SEXP.list [("", Sample.addAll), ("", Sample.discardPattern)]) Sample.manager
      Sample.manager [Sample.s2] rfl Sample.filterIDList_subset).1,
    ((executeCommands_output_invariant Sample.loadFile Sample.files
      (SEXP.list [("", Sample.addAll), ("", Sample.discardPattern)]) Sample.manager
      Sample.manager [Sample.s2] rfl Sample.filterIDList_subset).2.2 (by decide) (by decide)
      (by decide)).2⟩

theorem foldlM_discards_nil (manager : ResultFileManager D) (cmds : List SEXP)
    (h : ∀ c ∈ cmds, executeCommand manager [] c = Except.ok []) :
    cmds.foldlM (executeCommand manager) [] = Except.ok [] := by
  induction cmds with
  | nil => rfl
  | cons c cmds ih =>
    simp only [List.foldlM, bind, Except.bind, h c (List.mem_cons_self c cmds)]
    exact ih (fun c' hc' => h c' (List.mem_cons_of_mem c hc'))

/-- C17. The fold starts from the empty set: a command list (not empty) of
valid discard commands runs, on an empty `out`, to the empty set, and
`callLoadDataset` then returns nine frames without rows, the store returning no
run and no file-run for the empty identifier list; the empty command list,
in contrast, runs to all non-field scalars, vectors and histograms.  So the
result for `[c]` is not in general `c` applied to the result for `[]`: on the
sample store `discard histogram` alone gives the empty set, while applied to
the result for `[]` it leaves the two scalars and the vector. -/
theorem discards_from_empty (R_PosInf : D)
    (loadFile : ResultFileManager D → String → Except Failure (ResultFileManager D))
    (files : SEXP) (manager m : ResultFileManager D) (cs : List (String × SEXP))
    (hne : cs ≠ [])
    (hload : loadFiles loadFile files manager = Except.ok m)
    (hdiscard : ∀ c ∈ cs, VECTOR_ELT c.2 0 = Except.ok (SEXP.symbol "discard") ∧
      (∃ type, checkType (getElementByName c.2 "type") = Except.ok type) ∧
      (∃ pattern, checkSelect (getElementByName c.2 "select") = Except.ok pattern))
    (hruns : m.getUniqueRuns [] = []) (hfileruns : m.getUniqueFileRuns [] = []) :
    executeCommands loadFile files (SEXP.list cs) manager [] = Except.ok (m, []) ∧
    callLoadDataset R_PosInf loadFile manager files (SEXP.list cs) =
      Except.ok (exportDataset R_PosInf m []) ∧
    ((exportDataset R_PosInf m []).runs = [] ∧ (exportDataset R_PosInf m []).fileruns = [] ∧
      (exportDataset R_PosInf m []).scalars = [] ∧ (exportDataset R_PosInf m []).vectors = [] ∧
      (exportDataset R_PosInf m []).histograms = [] ∧ (exportDataset R_PosInf m []).fields = [] ∧
      (exportDataset R_PosInf m []).bins = [] ∧ (exportDataset R_PosInf m []).params = [] ∧
      (exportDataset R_PosInf m []).attributes = []) ∧
    executeCommands loadFile files (SEXP.list []) manager [] =
      Except.ok (m,
        ((IDList.merge [] (m.getAllScalars false false)).merge m.getAllVectors).merge
          m.getAllHistograms) ∧
    (executeCommands Sample.loadFile Sample.files (SEXP.list []) Sample.manager [] =
        Except.ok (Sample.manager, [Sample.s0, Sample.s2, Sample.v0, Sample.h0]) ∧
      executeCommand Sample.manager [Sample.s0, Sample.s2, Sample.v0, Sample.h0]
          Sample.discardHistograms = Except.ok [Sample.s0, Sample.s2, Sample.v0] ∧
      executeCommands Sample.loadFile Sample.files (SEXP.list [("", Sample.discardHistograms)])
          Sample.manager [] = Except.ok (Sample.manager, [])) := by
  have hfold : (cs.map Prod.snd).foldlM (executeCommand m) [] = Except.ok [] := by
    apply foldlM_discards_nil
    intro c hc
    obtain ⟨nc, hnc, rfl⟩ := List.mem_map.1 hc
    obtain ⟨hop, ⟨type, ht⟩, ⟨pattern, hs⟩⟩ := hdiscard nc hnc
    rw [executeCommand_discard m [] nc.2 type pattern hop ht hs]
    rfl
  have hrun : executeCommands loadFile files (SEXP.list cs) manager [] = Except.ok (m, []) := by
    rw [executeCommands_list loadFile files manager m [] cs hne hload, hfold]
    rfl
  refine ⟨hrun, callLoadDataset_ok R_PosInf loadFile manager m files _ [] hrun, ?_, ?_,
    ⟨rfl, rfl, rfl⟩⟩
  · refine ⟨?_, ?_, ?_, ?_, ?_, ?_, ?_, ?_, ?_⟩
    · rw [exportDataset_runs, hruns]; rfl
    · rw [exportDataset_fileruns, hfileruns]; rfl
    · rw [exportDataset_scalars]; rfl
    · rw [exportDataset_vectors]; rfl
    · rw [exportDataset_histograms]; rfl
    · rw [exportDataset_fields]; rfl
    · rw [exportDataset_bins]; rfl
    · rw [exportDataset_params, hruns]; rfl
    · rw [exportDataset_attributes]; rfl
  · simp only [executeCommands, hload, bind, Except.bind, IS_VECTOR, GET_LENGTH,
      List.length_nil]
    rfl

/-- C17 on the sample store: two discard commands in a row run to the empty
set. -/
theorem discards_from_empty_witness :
    loadFiles Sample.loadFile Sample.files Sample.manager = Except.ok Sample.manager ∧
    Sample.manager.getUniqueRuns [] = [] ∧ Sample.manager.getUniqueFileRuns [] = [] ∧
    executeCommands Sample.loadFile Sample.files
        (SEXP.list [("", Sample.discardHistograms), ("", Sample.discardPattern)])
        Sample.manager [] = Except.ok (Sample.manager, []) :=
  ⟨rfl, rfl, rfl,
    (discards_from_empty 999 Sample.loadFile Sample.files Sample.manager Sample.manager
      [("", Sample.discardHistograms), ("", Sample.discardPattern)] (by simp) rfl
      (fun c hc => by
        simp only [List.mem_cons, List.mem_singleton, List.not_mem_nil, or_false] at hc
        rcases hc with rfl | rfl
        · exact ⟨rfl, ⟨HISTOGRAM, rfl⟩, ⟨none, rfl⟩⟩
        · exact ⟨rfl, ⟨SCALAR ||| VECTOR ||| HISTOGRAM, rfl⟩, ⟨some "module(Net.host)", rfl⟩⟩)
      rfl rfl).1⟩

theorem foldlM_executeCommand_error (manager : ResultFileManager D) (pre rest : List SEXP)
    (c : SEXP) (out r : IDList) (e : Failure)
    (hpre : pre.foldlM (executeCommand manager) out = Except.ok r)
    (hc : executeCommand manager r c = Except.error e) :
    (pre ++ c :: rest).foldlM (executeCommand manager) out = Except.error e := by
  rw [foldlM_executeCommand_append, hpre]
  simp [Except.bind, List.foldlM, hc, bind]

theorem VECTOR_ELT_error_inv (c : SEXP) (i : Nat) (e : Failure)
    (h : VECTOR_ELT c i = Except.error e) : ∃ message, e = Failure.rError message := by
  cases c with
  | list l =>
    simp only [VECTOR_ELT] at h
    split at h
    · cases h
    · exact ⟨_, (Except.error.inj h).symm⟩
  | nil => exact ⟨_, (Except.error.inj h).symm⟩
  | symbol _ => exact ⟨_, (Except.error.inj h).symm⟩
  | character _ => exact ⟨_, (Except.error.inj h).symm⟩
  | atomic _ _ => exact ⟨_, (Except.error.inj h).symm⟩
  | other _ => exact ⟨_, (Except.error.inj h).symm⟩

theorem IS_LIST_of_VECTOR_ELT_ok (c : SEXP) (op : SEXP) (h : VECTOR_ELT c 0 = Except.ok op) :
    IS_LIST c = true ∧ GET_LENGTH c ≠ 0 := by
  cases c with
  | list l =>
    cases l with
    | nil => simp [VECTOR_ELT] at h
    | cons e rest => simp [IS_LIST, IS_VECTOR, GET_LENGTH]
  | nil => simp [VECTOR_ELT] at h
  | symbol _ => simp [VECTOR_ELT] at h
  | character _ => simp [VECTOR_ELT] at h
  | atomic _ _ => simp [VECTOR_ELT] at h
  | other _ => simp [VECTOR_ELT] at h

theorem executeCommand_of_not_symbol (manager : ResultFileManager D) (out : IDList) (c op : SEXP)
    (hop : VECTOR_ELT c 0 = Except.ok op) (hsym : isSymbol op = false) :
    executeCommand manager out c =
      Except.error (Failure.opp ("operator is not a symbol: " ++ toString (TYPEOF op))) := by
  obtain ⟨h1, h2⟩ := IS_LIST_of_VECTOR_ELT_ok c op hop
  cases op with
  | symbol _ => simp [isSymbol] at hsym
  | nil => simp [executeCommand, h1, h2, hop, bind, Except.bind]
  | character _ => simp [executeCommand, h1, h2, hop, bind, Except.bind]
  | atomic _ _ => simp [executeCommand, h1, h2, hop, bind, Except.bind]
  | list _ => simp [executeCommand, h1, h2, hop, bind, Except.bind]
  | other _ => simp [executeCommand, h1, h2, hop, bind, Except.bind]

theorem executeCommand_error_iff (manager : ResultFileManager D) (out : IDList) (c : SEXP)
    (e : Failure) :
    executeCommand manager out c = Except.error e ↔
      ((IS_LIST c = false ∧ e = Failure.opp "command is not a list") ∨
      (IS_LIST c = true ∧ GET_LENGTH c = 0 ∧ e = Failure.opp "command is empty list") ∨
      (IS_LIST c = true ∧ GET_LENGTH c ≠ 0 ∧ ∃ message,
        VECTOR_ELT c 0 = Except.error (Failure.rError message) ∧ e = Failure.rError message) ∨
      (∃ op, VECTOR_ELT c 0 = Except.ok op ∧ isSymbol op = false ∧
        e = Failure.opp ("operator is not a symbol: " ++ toString (TYPEOF op))) ∨
      (∃ opname, VECTOR_ELT c 0 = Except.ok (SEXP.symbol opname) ∧
        checkType (getElementByName c "type") = Except.error e) ∨
      (∃ opname type, VECTOR_ELT c 0 = Except.ok (SEXP.symbol opname) ∧
        checkType (getElementByName c "type") = Except.ok type ∧
        checkSelect (getElementByName c "select") = Except.error e) ∨
      (∃ opname type pattern, VECTOR_ELT c 0 = Except.ok (SEXP.symbol opname) ∧
        checkType (getElementByName c "type") = Except.ok type ∧
        checkSelect (getElementByName c "select") = Except.ok pattern ∧
        opname ≠ "add" ∧ opname ≠ "discard" ∧
        e = Failure.opp ("unknown command: " ++ opname))) := by
  constructor
  · intro h
    by_cases h1 : IS_LIST c = true
    · by_cases h2 : GET_LENGTH c = 0
      · right; left
        simp only [executeCommand, h1, h2, Bool.not_true, Bool.false_eq_true, if_false, if_true,
          Except.error.injEq] at h
        exact ⟨h1, h2, h.symm⟩
      · cases hop : VECTOR_ELT c 0 with
        | error e0 =>
          right; right; left
          obtain ⟨message, rfl⟩ := VECTOR_ELT_error_inv c 0 e0 hop
          simp only [executeCommand, h1, h2, Bool.not_true, Bool.false_eq_true, if_false, hop,
            bind, Except.bind, Except.error.injEq] at h
          exact ⟨h1, h2, message, rfl, h.symm⟩
        | ok op =>
          by_cases hsym : isSymbol op = true
          · cases op with
            | symbol opname =>
              rw [executeCommand_of_symbol manager out c opname hop] at h
              cases ht : checkType (getElementByName c "type") with
              | error e1 =>
                right; right; right; right; left
                simp only [ht, Except.bind, Except.error.injEq] at h
                exact ⟨opname, rfl, by rw [h]⟩
              | ok type =>
                cases hs : checkSelect (getElementByName c "select") with
                | error e1 =>
                  right; right; right; right; right; left
                  simp only [ht, hs, Except.bind, Except.error.injEq] at h
                  exact ⟨opname, type, rfl, rfl, by rw [h]⟩
                | ok pattern =>
                  right; right; right; right; right; right
                  simp only [ht, hs, Except.bind] at h
                  by_cases ha : opname = "add"
                  · simp [ha] at h
                  · by_cases hd : opname = "discard"
                    · simp [hd] at h
                    · simp only [ha, hd, if_false, Except.error.injEq] at h
                      exact ⟨opname, type, pattern, rfl, rfl, rfl, ha, hd, h.symm⟩
            | nil => simp [isSymbol] at hsym
            | character _ => simp [isSymbol] at hsym
            | atomic _ _ => simp [isSymbol] at hsym
            | list _ => simp [isSymbol] at hsym
            | other _ => simp [isSymbol] at hsym
          · right; right; right; left
            have hsym2 : isSymbol op = false := by simpa using hsym
            rw [executeCommand_of_not_symbol manager out c op hop hsym2] at h
            exact ⟨op, rfl, hsym2, (Except.error.inj h).symm⟩
    · left
      have h1f : IS_LIST c = false := by simpa using h1
      simp only [executeCommand, h1f, Bool.not_false, if_true, Except.error.injEq] at h
      exact ⟨h1f, h.symm⟩
  · rintro (⟨h1, rfl⟩ | ⟨h1, h2, rfl⟩ | ⟨h1, h2, message, hop, rfl⟩ | ⟨op, hop, hsym, rfl⟩ |
      ⟨opname, hop, ht⟩ | ⟨opname, type, hop, ht, hs⟩ |
      ⟨opname, type, pattern, hop, ht, hs, ha, hd, rfl⟩)
    · simp [executeCommand, h1]
    · simp [executeCommand, h1, h2]
    · simp [executeCommand, h1, h2, hop, bind, Except.bind]
    · exact executeCommand_of_not_symbol manager out c op hop hsym
    · rw [executeCommand_of_symbol manager out c opname hop, ht]
      rfl
    · rw [executeCommand_of_symbol manager out c opname hop, ht, hs]
      rfl
    · rw [executeCommand_of_symbol manager out c opname hop, ht, hs]
      simp [Except.bind, ha, hd]

/-- C11. Fail-fast: when the files load, the commands before the command `c`
run without error and the loop body fails on `c`, then, whatever commands
follow `c`, `executeCommands` fails with the failure of `c`, and
`callLoadDataset` returns no dataset: an `opp_runtime_error` of `c` is reported
with its message behind the prefix `Error in callLoadDataset: `, an error R
raised on `c` is the error of the call.  The loop body fails on a command
exactly when the command is not a vector (`command is not a list`), is empty
(`command is empty list`), is a vector without list elements (R refuses
`VECTOR_ELT`), has an operator that is not a symbol, has a bad type entry, has
a bad select entry, or has an unknown operator; each check applies when the
checks before it pass, and none depends on the set built so far. -/
theorem callLoadDataset_fail_fast (R_PosInf : D)
    (loadFile : ResultFileManager D → String → Except Failure (ResultFileManager D))
    (files : SEXP) (manager m : ResultFileManager D)
    (pre post : List (String × SEXP)) (name : String) (c : SEXP) (r : IDList) (e : Failure)
    (hload : loadFiles loadFile files manager = Except.ok m)
    (hpre : (pre.map Prod.snd).foldlM (executeCommand m) [] = Except.ok r)
    (hviol : executeCommand m r c = Except.error e) :
    executeCommands loadFile files (SEXP.list (pre ++ (name, c) :: post)) manager [] =
      Except.error e ∧
    (∀ what, e = Failure.opp what →
      callLoadDataset R_PosInf loadFile manager files (SEXP.list (pre ++ (name, c) :: post)) =
        Except.error (Failure.rError ("Error in callLoadDataset: " ++ what ++ "\n"))) ∧
    (∀ message, e = Failure.rError message →
      callLoadDataset R_PosInf loadFile manager files (SEXP.list (pre ++ (name, c) :: post)) =
        Except.error (Failure.rError message)) ∧
    (∀ dataset,
      callLoadDataset R_PosInf loadFile manager files (SEXP.list (pre ++ (name, c) :: post)) ≠
        Except.ok dataset) ∧
    (∀ (out : IDList) (e2 : Failure),
      executeCommand m out c = Except.error e2 ↔
        ((IS_LIST c = false ∧ e2 = Failure.opp "command is not a list") ∨
        (IS_LIST c = true ∧ GET_LENGTH c = 0 ∧ e2 = Failure.opp "command is empty list") ∨
        (IS_LIST c = true ∧ GET_LENGTH c ≠ 0 ∧ ∃ message,
          VECTOR_ELT c 0 = Except.error (Failure.rError message) ∧
          e2 = Failure.rError message) ∨
        (∃ op, VECTOR_ELT c 0 = Except.ok op ∧ isSymbol op = false ∧
          e2 = Failure.opp ("operator is not a symbol: " ++ toString (TYPEOF op))) ∨
        (∃ opname, VECTOR_ELT c 0 = Except.ok (SEXP.symbol opname) ∧
          checkType (getElementByName c "type") = Except.error e2) ∨
        (∃ opname type, VECTOR_ELT c 0 = Except.ok (SEXP.symbol opname) ∧
          checkType (getElementByName c "type") = Except.ok type ∧
          checkSelect (getElementByName c "select") = Except.error e2) ∨
        (∃ opname type pattern, VECTOR_ELT c 0 = Except.ok (SEXP.symbol opname) ∧
          checkType (getElementByName c "type") = Except.ok type ∧
          checkSelect (getElementByName c "select") = Except.ok pattern ∧
          opname ≠ "add" ∧ opname ≠ "discard" ∧
          e2 = Failure.opp ("unknown command: " ++ opname)))) := by
  have hrun : executeCommands loadFile files (SEXP.list (pre ++ (name, c) :: post)) manager [] =
      Except.error e := by
    rw [executeCommands_list loadFile files manager m [] _ (by simp) hload, List.map_append,
      List.map_cons, foldlM_executeCommand_error m _ _ c [] r e hpre hviol]
    rfl
  refine ⟨hrun, ?_, ?_, ?_, fun out e2 => executeCommand_error_iff m out c e2⟩
  · intro what he
    subst he
    simp only [callLoadDataset, hrun]
  · intro message he
    subst he
    simp only [callLoadDataset, hrun]
  · intro dataset h
    cases e with
    | opp what => simp [callLoadDataset, hrun] at h
    | rError message => simp [callLoadDataset, hrun] at h

/-- C11 on the sample store: a valid add, then a bad command, then another
add.  With `foo` of the type `bogus` as the bad command the call reports the
message of the bad type; with the character vector `c("add")` it ends in the
error R raises on it. -/
theorem callLoadDataset_fail_fast_witness :
    loadFiles Sample.loadFile Sample.files Sample.manager = Except.ok Sample.manager ∧
    ([("", Sample.addAll)].map Prod.snd).foldlM (executeCommand Sample.manager) [] =
      Except.ok [Sample.s0, Sample.s2, Sample.v0, Sample.h0] ∧
    executeCommand Sample.manager [Sample.s0, Sample.s2, Sample.v0, Sample.h0] Sample.fooBogus =
      Except.error (Failure.opp "unknown type: bogus") ∧
    callLoadDataset 999 Sample.loadFile Sample.manager Sample.files
        (SEXP.list ([("", Sample.addAll)] ++ ("", Sample.fooBogus) :: [("", Sample.addAll)])) =
      Except.error
        (Failure.rError ("Error in callLoadDataset: " ++ "unknown type: bogus" ++ "\n")) ∧
    callLoadDataset 999 Sample.loadFile Sample.manager Sample.files
        (SEXP.list ([("", Sample.addAll)] ++ ("", Sample.characterCommand) ::
          [("", Sample.addAll)])) =
      Except.error (Failure.rError "VECTOR_ELT() can only be applied to a list") :=
  ⟨rfl, rfl, rfl,
    (callLoadDataset_fail_fast 999 Sample.loadFile Sample.files Sample.manager Sample.manager
      [("", Sample.addAll)] [("", Sample.addAll)] "" Sample.fooBogus
      [Sample.s0, Sample.s2, Sample.v0, Sample.h0] (Failure.opp "unknown type: bogus") rfl rfl
      rfl).2.1 "unknown type: bogus" rfl,
    (callLoadDataset_fail_fast 999 Sample.loadFile Sample.files Sample.manager Sample.manager
      [("", Sample.addAll)] [("", Sample.addAll)] "" Sample.characterCommand
      [Sample.s0, Sample.s2, Sample.v0, Sample.h0]
      (Failure.rError "VECTOR_ELT() can only be applied to a list") rfl rfl
      rfl).2.2.1 "VECTOR_ELT() can only be applied to a list" rfl⟩

theorem writeRowsWith_append {σ R : Type} (write : σ → Nat → R → σ) (st : σ × Nat)
    (a b : List R) :
    writeRowsWith write (writeRowsWith write st a) b = writeRowsWith write st (a ++ b) := by
  simp [writeRowsWith, List.foldl_append]

theorem foldl_write_eq_writeRowsWith {σ R β : Type} (write : σ → Nat → R → σ) (f : β → R)
    (xs : List β) (st : σ × Nat) :
    xs.foldl (fun st it => (write st.1 st.2 (f it), st.2 + 1)) st =
      writeRowsWith write st (xs.map f) := by
  simp [writeRowsWith, List.foldl_map]

theorem forEachFrom_writeRowsWith {σ R α : Type} (write : σ → Nat → R → σ)
    (g : Nat → α → List R) (k : Nat) (xs : List α) (st : σ × Nat) :
    forEachFrom (fun i x st => writeRowsWith write st (g i x)) k xs st =
      writeRowsWith write st (rowsFrom g k xs) := by
  induction xs generalizing k st with
  | nil => rfl
  | cons x xs ih =>
    simp only [forEachFrom, rowsFrom, ih, writeRowsWith_append]

theorem foldl_writeRowsWith_flatMap {σ R α : Type} (write : σ → Nat → R → σ) (g : α → List R)
    (xs : List α) (st : σ × Nat) :
    xs.foldl (fun st x => writeRowsWith write st (g x)) st =
      writeRowsWith write st (xs.flatMap g) := by
  induction xs generalizing st with
  | nil => rfl
  | cons x xs ih =>
    simp only [List.foldl_cons, ih, writeRowsWith_append, List.flatMap_cons]

theorem writeRowsWith_eq_enumFrom {σ R : Type} (write : σ → Nat → R → σ) (mem : σ) (k : Nat)
    (rows : List R) :
    writeRowsWith write (mem, k) rows =
      ((rows.enumFrom k).foldl (fun mem p => write mem p.1 p.2) mem, k + rows.length) := by
  induction rows generalizing mem k with
  | nil => rfl
  | cons r rows ih =>
    have h := ih (write mem k r) (k + 1)
    simp only [writeRowsWith, List.foldl_cons, List.enumFrom_cons, List.length_cons] at h ⊢
    rw [h]
    congr 1
    omega

theorem writeRowsWith_eq_enum {σ R : Type} (write : σ → Nat → R → σ) (mem : σ)
    (rows : List R) :
    writeRowsWith write (mem, 0) rows =
      (rows.enum.foldl (fun mem p => write mem p.1 p.2) mem, rows.length) := by
  rw [writeRowsWith_eq_enumFrom, Nat.zero_add]
  rfl

theorem foldl_enumFrom_log {R : Type} (rows : List R) (k : Nat) (log : List Nat) :
    (rows.enumFrom k).foldl (fun log p => log ++ [p.1]) log =
      log ++ List.range' k rows.length := by
  induction rows generalizing k log with
  | nil => simp
  | cons r rows ih =>
    simp only [List.enumFrom_cons, List.foldl_cons, ih, List.length_cons, List.range'_succ,
      List.append_assoc, List.singleton_append]

theorem foldl_enum_log {R : Type} (rows : List R) :
    rows.enum.foldl (fun log p => log ++ [p.1]) ([] : List Nat) = List.range rows.length := by
  have h := foldl_enumFrom_log rows 0 []
  rw [List.nil_append] at h
  rw [List.range_eq_range']
  exact h

theorem fillRunsWith_eq {σ : Type} (write : σ → Nat → RunRow → σ) (mem : σ)
    (runList : List Run) :
    fillRunsWith write mem runList =
      writeRowsWith write (mem, 0)
        (runList.flatMap (fun run =>
          run.attributes.map
            (fun it => ({ runid := run.runName, name := it.1, value := it.2 } : RunRow)))) := by
  unfold fillRunsWith
  rw [← foldl_writeRowsWith_flatMap]
  congr 1
  funext st run
  exact foldl_write_eq_writeRowsWith _ _ _ _

theorem fillParamsWith_eq {σ : Type} (write : σ → Nat → ParamRow → σ) (mem : σ)
    (runList : List Run) :
    fillParamsWith write mem runList =
      writeRowsWith write (mem, 0)
        (runList.flatMap (fun run =>
          run.moduleParams.map
            (fun it => ({ runid := run.runName, name := it.1, value := it.2 } : ParamRow)))) := by
  unfold fillParamsWith
  rw [← foldl_writeRowsWith_flatMap]
  congr 1
  funext st run
  exact foldl_write_eq_writeRowsWith _ _ _ _

theorem fillFieldsWith_eq {σ : Type} (write : σ → Nat → FieldRow D → σ) (mem : σ)
    (ids : IDList) (manager : ResultFileManager D) :
    fillFieldsWith write mem ids manager =
      writeRowsWith write (mem, 0) (rowsFrom (fieldRowsOf manager) 0 ids) := by
  unfold fillFieldsWith forEach
  rw [← forEachFrom_writeRowsWith]
  congr 1
  funext i id st
  exact foldl_write_eq_writeRowsWith _ _ _ _

theorem fillBinsWith_eq {σ : Type} (write : σ → Nat → BinRow D → σ) (R_PosInf : D) (mem : σ)
    (ids : IDList) (manager : ResultFileManager D) :
    fillBinsWith write R_PosInf mem ids manager =
      writeRowsWith write (mem, 0) (rowsFrom (binRowsOf R_PosInf manager) 0 ids) := by
  unfold fillBinsWith forEach
  rw [← forEachFrom_writeRowsWith]
  congr 1
  funext i id st
  exact forEachFrom_writeRowsWith write (fun j b => [binRowOf R_PosInf manager i id j b]) 0 _ st

theorem addResultItemAttributesWith_eq {σ : Type} (write : σ → Nat → AttributeRow → σ)
    (st : σ × Nat) (type : String) (ids : IDList) (manager : ResultFileManager D) :
    addResultItemAttributesWith write st.1 st.2 type ids manager =
      writeRowsWith write st (rowsFrom (attributeRowsOf type manager) 0 ids) := by
  unfold addResultItemAttributesWith forEach
  rw [← forEachFrom_writeRowsWith]
  congr 1
  funext i id st
  exact foldl_write_eq_writeRowsWith _ _ _ _

/-- C16. For each of the frames `runs`, `params`, `fields`, `bins` and
`attributes` there is the sequence `rows` of the rows the fill pass writes, as
long as the count of the counting pass (`runAttrCount`, `paramsCount`,
`fieldCount`, `binCount`, `attrCount`), such that on any memory and for any
effect of a write the fill pass performs exactly the writes of `rows[i]` at
the index `i`, for `i` from 0 up to the count, in this order, and ends with
its write index equal to the count.  So the indices written are, in order,
`0, 1, ..., count - 1`: each is below the number of rows allocated and each
allocated row is written exactly once; on the frame allocated with the count
the result is, entry by entry, `rows`, which is the exported frame. -/
theorem prepass_counts_match_fill (R_PosInf : D) (manager : ResultFileManager D)
    (idlist : IDList) :
    (∃ rows : List RunRow,
      rows.length = (countRuns (manager.getUniqueRuns idlist)).2 ∧
      (∀ (σ : Type) (write : σ → Nat → RunRow → σ) (mem : σ),
        fillRunsWith write mem (manager.getUniqueRuns idlist) =
          (rows.enum.foldl (fun mem p => write mem p.1 p.2) mem,
            (countRuns (manager.getUniqueRuns idlist)).2)) ∧
      (fillRunsWith (fun log index _ => log ++ [index]) [] (manager.getUniqueRuns idlist)).1 =
        List.range (countRuns (manager.getUniqueRuns idlist)).2 ∧
      fillRuns (createDataFrame RunRow (countRuns (manager.getUniqueRuns idlist)).2)
          (manager.getUniqueRuns idlist) =
        (rows.map some, (countRuns (manager.getUniqueRuns idlist)).2) ∧
      (exportDataset R_PosInf manager idlist).runs = rows.map some) ∧
    (∃ rows : List ParamRow,
      rows.length = (countRuns (manager.getUniqueRuns idlist)).1 ∧
      (∀ (σ : Type) (write : σ → Nat → ParamRow → σ) (mem : σ),
        fillParamsWith write mem (manager.getUniqueRuns idlist) =
          (rows.enum.foldl (fun mem p => write mem p.1 p.2) mem,
            (countRuns (manager.getUniqueRuns idlist)).1)) ∧
      (fillParamsWith (fun log index _ => log ++ [index]) [] (manager.getUniqueRuns idlist)).1 =
        List.range (countRuns (manager.getUniqueRuns idlist)).1 ∧
      fillParams (createDataFrame ParamRow (countRuns (manager.getUniqueRuns idlist)).1)
          (manager.getUniqueRuns idlist) =
        (rows.map some, (countRuns (manager.getUniqueRuns idlist)).1) ∧
      (exportDataset R_PosInf manager idlist).params = rows.map some) ∧
    (∀ (df : DataFrame HistogramRow) (c fieldCount : Nat),
      fieldCount =
        (fillHistograms df c (filterIDListByType idlist HISTOGRAM manager false)
          manager).2.fieldCount →
      ∃ rows : List (FieldRow D),
        rows.length = fieldCount ∧
        (∀ (σ : Type) (write : σ → Nat → FieldRow D → σ) (mem : σ),
          fillFieldsWith write mem (filterIDListByType idlist HISTOGRAM manager false) manager =
            (rows.enum.foldl (fun mem p => write mem p.1 p.2) mem, fieldCount)) ∧
        (fillFieldsWith (fun log index _ => log ++ [index]) []
            (filterIDListByType idlist HISTOGRAM manager false) manager).1 =
          List.range fieldCount ∧
        fillFields (createDataFrame (FieldRow D) fieldCount)
            (filterIDListByType idlist HISTOGRAM manager false) manager =
          (rows.map some, fieldCount) ∧
        (exportDataset R_PosInf manager idlist).fields = rows.map some) ∧
    (∀ (df : DataFrame HistogramRow) (c binCount : Nat),
      binCount =
        (fillHistograms df c (filterIDListByType idlist HISTOGRAM manager false)
          manager).2.binCount →
      ∃ rows : List (BinRow D),
        rows.length = binCount ∧
        (∀ (σ : Type) (write : σ → Nat → BinRow D → σ) (mem : σ),
          fillBinsWith write R_PosInf mem (filterIDListByType idlist HISTOGRAM manager false)
              manager =
            (rows.enum.foldl (fun mem p => write mem p.1 p.2) mem, binCount)) ∧
        (fillBinsWith (fun log index _ => log ++ [index]) R_PosInf []
            (filterIDListByType idlist HISTOGRAM manager false) manager).1 =
          List.range binCount ∧
        fillBins R_PosInf (createDataFrame (BinRow D) binCount)
            (filterIDListByType idlist HISTOGRAM manager false) manager =
          (rows.map some, binCount) ∧
        (exportDataset R_PosInf manager idlist).bins = rows.map some) ∧
    (∀ (dfS : DataFrame (ScalarRow D)) (dfV : DataFrame VectorRow) (dfH : DataFrame HistogramRow)
      (attrCount : Nat),
      attrCount =
        (fillHistograms dfH
          (fillVectors dfV
            (fillScalars dfS 0 (filterIDListByType idlist SCALAR manager false) manager).2
            (filterIDListByType idlist VECTOR manager false) manager).2
          (filterIDListByType idlist HISTOGRAM manager false) manager).2.attrCount →
      ∃ rows : List AttributeRow,
        rows.length = attrCount ∧
        (∀ (σ : Type) (write : σ → Nat → AttributeRow → σ) (mem : σ),
          addResultItemAttributesWith write
              (addResultItemAttributesWith write
                (addResultItemAttributesWith write mem 0 "scalar"
                  (filterIDListByType idlist SCALAR manager false) manager).1
                (addResultItemAttributesWith write mem 0 "scalar"
                  (filterIDListByType idlist SCALAR manager false) manager).2
                "vector" (filterIDListByType idlist VECTOR manager false) manager).1
              (addResultItemAttributesWith write
                (addResultItemAttributesWith write mem 0 "scalar"
                  (filterIDListByType idlist SCALAR manager false) manager).1
                (addResultItemAttributesWith write mem 0 "scalar"
                  (filterIDListByType idlist SCALAR manager false) manager).2
                "vector" (filterIDListByType idlist VECTOR manager false) manager).2
              "histogram" (filterIDListByType idlist HISTOGRAM manager false) manager =
            (rows.enum.foldl (fun mem p => write mem p.1 p.2) mem, attrCount)) ∧
        (addResultItemAttributesWith (fun log index _ => log ++ [index])
            (addResultItemAttributesWith (fun log index _ => log ++ [index])
              (addResultItemAttributesWith (fun log index _ => log ++ [index]) [] 0 "scalar"
                (filterIDListByType idlist SCALAR manager false) manager).1
              (addResultItemAttributesWith (fun log index _ => log ++ [index]) [] 0 "scalar"
                (filterIDListByType idlist SCALAR manager false) manager).2
              "vector" (filterIDListByType idlist VECTOR manager false) manager).1
            (addResultItemAttributesWith (fun log index _ => log ++ [index])
              (addResultItemAttributesWith (fun log index _ => log ++ [index]) [] 0 "scalar"
                (filterIDListByType idlist SCALAR manager false) manager).1
              (addResultItemAttributesWith (fun log index _ => log ++ [index]) [] 0 "scalar"
                (filterIDListByType idlist SCALAR manager false) manager).2
              "vector" (filterIDListByType idlist VECTOR manager false) manager).2
            "histogram" (filterIDListByType idlist HISTOGRAM manager false) manager).1 =
          List.range attrCount ∧
        addResultItemAttributes
            (addResultItemAttributes
              (addResultItemAttributes (createDataFrame AttributeRow attrCount) 0 "scalar"
                (filterIDListByType idlist SCALAR manager false) manager).1
              (addResultItemAttributes (createDataFrame AttributeRow attrCount) 0 "scalar"
                (filterIDListByType idlist SCALAR manager false) manager).2
              "vector" (filterIDListByType idlist VECTOR manager false) manager).1
            (addResultItemAttributes
              (addResultItemAttributes (createDataFrame AttributeRow attrCount) 0 "scalar"
                (filterIDListByType idlist SCALAR manager false) manager).1
              (addResultItemAttributes (createDataFrame AttributeRow attrCount) 0 "scalar"
                (filterIDListByType idlist SCALAR manager false) manager).2
              "vector" (filterIDListByType idlist VECTOR manager false) manager).2
            "histogram" (filterIDListByType idlist HISTOGRAM manager false) manager =
          (rows.map some, attrCount) ∧
        (exportDataset R_PosInf manager idlist).attributes = rows.map some) := by
  refine ⟨?_, ?_, ?_, ?_, ?_⟩
  · have hlen := (length_flatMap_runs (manager.getUniqueRuns idlist) (fun run => run.attributes)
      (fun run it => ({ runid := run.runName, name := it.1, value := it.2 } : RunRow)))
    rw [← countRuns_snd] at hlen
    refine ⟨_, hlen, ?_, ?_, ?_, exportDataset_runs R_PosInf manager idlist⟩
    · intro σ write mem
      rw [fillRunsWith_eq, writeRowsWith_eq_enum, hlen]
    · rw [fillRunsWith_eq, writeRowsWith_eq_enum, foldl_enum_log, hlen]
    · rw [fillRuns_eq]
      exact writeRows_createDataFrame_full _ _ hlen.symm
  · have hlen := (length_flatMap_runs (manager.getUniqueRuns idlist) (fun run => run.moduleParams)
      (fun run it => ({ runid := run.runName, name := it.1, value := it.2 } : ParamRow)))
    rw [← countRuns_fst] at hlen
    refine ⟨_, hlen, ?_, ?_, ?_, exportDataset_params R_PosInf manager idlist⟩
    · intro σ write mem
      rw [fillParamsWith_eq, writeRowsWith_eq_enum, hlen]
    · rw [fillParamsWith_eq, writeRowsWith_eq_enum, foldl_enum_log, hlen]
    · rw [fillParams_eq]
      exact writeRows_createDataFrame_full _ _ hlen.symm
  · intro df c fieldCount hcount
    have hlen : (rowsFrom (fieldRowsOf manager) 0
        (filterIDListByType idlist HISTOGRAM manager false)).length = fieldCount := by
      rw [hcount, fillHistograms_fieldCount]
      exact length_rowsFrom _ _ _ _ (fun i id _ => by simp [fieldRowsOf])
    refine ⟨_, hlen, ?_, ?_, ?_, exportDataset_fields R_PosInf manager idlist⟩
    · intro σ write mem
      rw [fillFieldsWith_eq, writeRowsWith_eq_enum, hlen]
    · rw [fillFieldsWith_eq, writeRowsWith_eq_enum, foldl_enum_log, hlen]
    · rw [fillFields_eq]
      exact writeRows_createDataFrame_full _ _ hlen.symm
  · intro df c binCount hcount
    have hlen : (rowsFrom (binRowsOf R_PosInf manager) 0
        (filterIDListByType idlist HISTOGRAM manager false)).length = binCount := by
      rw [hcount, fillHistograms_binCount]
      exact length_rowsFrom _ _ _ _
        (fun i id _ => by simp [binRowsOf, length_rowsFrom_singleton])
    refine ⟨_, hlen, ?_, ?_, ?_, exportDataset_bins R_PosInf manager idlist⟩
    · intro σ write mem
      rw [fillBinsWith_eq, writeRowsWith_eq_enum, hlen]
    · rw [fillBinsWith_eq, writeRowsWith_eq_enum, foldl_enum_log, hlen]
    · rw [fillBins_eq]
      exact writeRows_createDataFrame_full _ _ hlen.symm
  · intro dfS dfV dfH attrCount hcount
    have hlen : (rowsFrom (attributeRowsOf "scalar" manager) 0
          (filterIDListByType idlist SCALAR manager false) ++
        rowsFrom (attributeRowsOf "vector" manager) 0
          (filterIDListByType idlist VECTOR manager false) ++
        rowsFrom (attributeRowsOf "histogram" manager) 0
          (filterIDListByType idlist HISTOGRAM manager false)).length = attrCount := by
      rw [hcount, fillHistograms_attrCount, fillVectors_snd, fillScalars_snd, List.length_append,
        List.length_append, length_attributeRows_scalar, length_attributeRows_vector,
        length_attributeRows_histogram]
      omega
    have hgen : ∀ (σ : Type) (write : σ → Nat → AttributeRow → σ) (mem : σ),
        addResultItemAttributesWith write
            (addResultItemAttributesWith write
              (addResultItemAttributesWith write mem 0 "scalar"
                (filterIDListByType idlist SCALAR manager false) manager).1
              (addResultItemAttributesWith write mem 0 "scalar"
                (filterIDListByType idlist SCALAR manager false) manager).2
              "vector" (filterIDListByType idlist VECTOR manager false) manager).1
            (addResultItemAttributesWith write
              (addResultItemAttributesWith write mem 0 "scalar"
                (filterIDListByType idlist SCALAR manager false) manager).1
              (addResultItemAttributesWith write mem 0 "scalar"
                (filterIDListByType idlist SCALAR manager false) manager).2
              "vector" (filterIDListByType idlist VECTOR manager false) manager).2
            "histogram" (filterIDListByType idlist HISTOGRAM manager false) manager =
          ((rowsFrom (attributeRowsOf "scalar" manager) 0
                (filterIDListByType idlist SCALAR manager false) ++
              rowsFrom (attributeRowsOf "vector" manager) 0
                (filterIDListByType idlist VECTOR manager false) ++
              rowsFrom (attributeRowsOf "histogram" manager) 0
                (filterIDListByType idlist HISTOGRAM manager false)).enum.foldl
            (fun mem p => write mem p.1 p.2) mem, attrCount) := by
      intro σ write mem
      rw [addResultItemAttributesWith_eq write _ "histogram",
        addResultItemAttributesWith_eq write _ "vector",
        show addResultItemAttributesWith write mem 0 "scalar"
            (filterIDListByType idlist SCALAR manager false) manager =
          writeRowsWith write (mem, 0) (rowsFrom (attributeRowsOf "scalar" manager) 0
            (filterIDListByType idlist SCALAR manager false)) from
          addResultItemAttributesWith_eq write (mem, 0) "scalar" _ manager,
        writeRowsWith_append, writeRowsWith_append, ← List.append_assoc, writeRowsWith_eq_enum,
        hlen]
    refine ⟨_, hlen, hgen, ?_, ?_, exportDataset_attributes R_PosInf manager idlist⟩
    · rw [hgen (List Nat) (fun log index _ => log ++ [index]) [], foldl_enum_log, hlen]
    · simp only [addResultItemAttributes_eq, Prod.mk.eta, writeRows_append]
      exact writeRows_createDataFrame_full _ _ hlen.symm

/-- C16 on the sample store: the counting pass gives 2 run attributes; the
fill of `runs` writes at the indices 0 and 1, and on the frame allocated with 2
rows it ends at the index 2 with both rows written; the attribute count of one
scalar and one vector is 3. -/
theorem prepass_counts_match_fill_witness :
    (countRuns (Sample.manager.getUniqueRuns [Sample.s0, Sample.v0])).2 = 2 ∧
    (fillRunsWith (fun log index _ => log ++ [index]) []
        (Sample.manager.getUniqueRuns [Sample.s0, Sample.v0])).1 = [0, 1] ∧
    fillRuns (createDataFrame RunRow 2) (Sample.manager.getUniqueRuns [Sample.s0, Sample.v0]) =
      ([some { runid := "General-0", name := "configname", value := "General" },
        some { runid := "General-0", name := "runnumber", value := "0" }], 2) ∧
    (∃ rows : List AttributeRow,
      rows.length = 3 ∧
        (exportDataset 999 Sample.manager [Sample.s0, Sample.v0]).attributes = rows.map some) :=
  ⟨by decide, by decide, by decide,
    ((prepass_counts_match_fill 999 Sample.manager [Sample.s0, Sample.v0]).2.2.2.2 [] [] [] 3
      (by decide)).imp (fun _ h => ⟨h.1, h.2.2.2.2⟩)⟩

end FurtherClaims

end LoadDataset
